import Mathlib

/-!
# NotiFansly monitoring dispatch engine

A shallow embedding of the monitoring core of `internal/bot/bot.go`
(`dispatchMonitoringJobs`, `worker`, `formatNotificationMessage`,
`checkUserLiveStreamOptimized`, `checkUserPostsOptimized`) together with the
persistence calls of `internal/database/repository.go` they use.

Conventions of the embedding:

* Go `string` values are Lean `String`s (sequences of Unicode scalars). On
  well-formed UTF-8 the byte-level search of Go's `strings` package and a
  character-level search find the same occurrences.
* `int64` values are `Int`; the detectors only compare them.
* Calls that leave the process (upstream API, database, Discord) are recorded
  in an effect trace, in program order. Their results are supplied by the
  caller: reads through the function fields of `APIClient` and `Repository`,
  the success of each watermark write and each send through a function of the
  loop iteration (the position of the registration in the filtered slice).
-/

namespace NotiFansly

/-! ## Go `strings` helpers used by the formatter -/

namespace GoStrings

/-- Go `strings.Contains` on character lists: `sub` occurs in the list. -/
def containsChars (sub : List Char) : List Char → Bool
  | [] => sub.isEmpty
  | c :: cs => sub.isPrefixOf (c :: cs) || containsChars sub cs

/-- Scan of `strings.Replace` with `n = -1` for a non-empty `old`: leftmost
non-overlapping occurrences are replaced. The counter is the number of
characters of the occurrence being replaced that are still to be skipped. -/
def replaceScan (old new : List Char) : Nat → List Char → List Char
  | _, [] => []
  | skip + 1, _ :: cs => replaceScan old new skip cs
  | 0, c :: cs =>
    if old.isPrefixOf (c :: cs) then new ++ replaceScan old new (old.length - 1) cs
    else c :: replaceScan old new 0 cs

/-- An empty `old` matches before every character and at the end. -/
def replaceEmpty (new : List Char) : List Char → List Char
  | [] => new
  | c :: cs => new ++ c :: replaceEmpty new cs

/-- Go `strings.Replace(s, old, new, -1)` on character lists. -/
def replaceAllChars (s old new : List Char) : List Char :=
  if old = new then s
  else if old = [] then replaceEmpty new s
  else replaceScan old new 0 s

/-- Go `strings.Contains(s, substr)`. -/
def Contains (s substr : String) : Bool := containsChars substr.data s.data

/-- Go `strings.Replace(s, old, new, -1)`. -/
def Replace (s old new : String) : String := ⟨replaceAllChars s.data old.data new.data⟩

/-- Scan of `strings.Split` for a non-empty separator: the input is cut at the
leftmost non-overlapping occurrences of `sep`. `cur` is the piece read so far;
the counter is the number of characters of the occurrence just found that are
still to be skipped. -/
def splitScan (sep : List Char) : Nat → List Char → List Char → List (List Char)
  | _, cur, [] => [cur]
  | skip + 1, cur, _ :: cs => splitScan sep skip cur cs
  | 0, cur, c :: cs =>
    if sep.isPrefixOf (c :: cs) then cur :: splitScan sep (sep.length - 1) [] cs
    else splitScan sep 0 (cur ++ [c]) cs

/-- Go `strings.Split` on character lists: an empty separator explodes the
input into its characters. -/
def splitChars (s sep : List Char) : List (List Char) :=
  if sep = [] then s.map fun c => [c] else splitScan sep 0 [] s

/-- Go `strings.Split(s, sep)`. -/
def Split (s sep : String) : List String := (splitChars s.data sep.data).map String.mk

end GoStrings

/-! ## Data model -/

/-- The registration row `models.MonitoredUser`. -/
structure MonitoredUser where
  GuildID : String
  UserID : String
  Username : String
  NotificationChannel : String
  PostNotificationChannel : String
  LiveNotificationChannel : String
  LastPostID : String
  LastStreamStart : Int
  MentionRole : String
  AvatarLocation : String
  AvatarLocationUpdatedAt : Int
  LiveImageURL : String
  PostsEnabled : Bool
  LiveEnabled : Bool
  LiveMentionRole : String
  PostMentionRole : String
  deriving DecidableEq, Repr

/-- The record `models.UserNotificationFormat`; its declaration is outside the
sources, the fields are those read and written in `bot.go` and `handlers.go`. -/
structure UserNotificationFormat where
  GuildID : String
  UserID : String
  PostMessageFormat : String
  LiveMessageFormat : String
  deriving DecidableEq, Repr

/-- The record `models.UserEmbedColor`; fields as used in `bot.go` and
`handlers.go`. -/
structure UserEmbedColor where
  GuildID : String
  UserID : String
  PostEmbedColor : Int
  LiveEmbedColor : Int
  deriving DecidableEq, Repr

/-- The part `streamInfo.Response.Stream` of the stream response. -/
structure Stream where
  Status : Int
  StartedAt : Int
  deriving DecidableEq, Repr

/-- The part `streamInfo.Response` of the stream response. -/
structure StreamResponseBody where
  Stream : Stream
  deriving DecidableEq, Repr

/-- The value returned by `APIClient.GetStreamInfo`. -/
structure StreamResponse where
  Response : StreamResponseBody
  deriving DecidableEq, Repr

/-- One item of the list returned by `APIClient.GetTimelinePost`; the
detector reads its `ID`, the rest of the item goes to the embed. -/
structure Post where
  ID : String
  Content : String
  deriving DecidableEq, Repr

/-- The embeds built by package `embed`, kept as the arguments they are built
from. -/
inductive MessageEmbed where
  | liveStream (username : String) (streamInfo : StreamResponse)
      (avatarLocation liveImageURL : String) (embedColor : Int)
  | post (username : String) (post : Post) (avatarLocation : String) (embedColor : Int)
  deriving DecidableEq, Repr

/-- The function `embed.CreateLiveStreamEmbed`. -/
def CreateLiveStreamEmbed (username : String) (streamInfo : StreamResponse)
    (avatarLocation liveImageURL : String) (embedColor : Int) : MessageEmbed :=
  .liveStream username streamInfo avatarLocation liveImageURL embedColor

/-- The function `embed.CreatePostEmbed` (its fourth argument is always nil). -/
def CreatePostEmbed (username : String) (post : Post) (avatarLocation : String)
    (embedColor : Int) : MessageEmbed :=
  .post username post avatarLocation embedColor

/-- Calls that leave the process, as they appear in a trace. A watermark write
and a send carry the registration `user` of the loop iteration that issues
them, and their outcome. -/
inductive Effect where
  | GetStreamInfo (userID : String)
  | GetTimelinePost (userID : String)
  | GetAccountInfo (username : String)
  | GetEmbedColorsForUser (userID : String)
  | GetNotificationFormats (guildID userID : String)
  | UpdateLastStreamStart (user : MonitoredUser) (timestamp : Int) (ok : Bool)
  | UpdateLastPostID (user : MonitoredUser) (postID : String) (ok : Bool)
  | UpdateAvatarInfo (user : MonitoredUser) (avatarLocation : String) (ok : Bool)
  | ChannelMessageSendComplex (user : MonitoredUser) (channel content : String)
      (embed : MessageEmbed) (ok : Bool)
  | logFirstPost (user : MonitoredUser) (isFirstPostForThisServer : Bool)
  | logNotificationError (notificationType : String) (user : MonitoredUser)
      (targetChannel : String)
  | logError (what : String)
  | IncrementLiveCount
  | IncrementPostCount
  deriving DecidableEq, Repr

/-- One entry of a `Locations` slice of the account record. -/
structure AvatarLocationEntry where
  Location : String
  deriving DecidableEq, Repr

/-- One entry of `Avatar.Variants`. -/
structure AvatarVariant where
  Locations : List AvatarLocationEntry
  deriving DecidableEq, Repr

/-- The field `Avatar` of the account record; `Locations` may be nil. -/
structure Avatar where
  Locations : Option (List AvatarLocationEntry)
  Variants : List AvatarVariant
  deriving DecidableEq, Repr

/-- The record `api.ModelAccountInfo`, as far as `refreshAvatarURL` reads it. -/
structure ModelAccountInfo where
  ID : String
  Avatar : Avatar
  deriving DecidableEq, Repr

/-- The upstream capability calls of `api.Client` used by the core. -/
structure APIClient where
  GetStreamInfo : String → Except String StreamResponse
  GetTimelinePost : String → Except String (List Post)
  GetAccountInfo : String → Except String (Option ModelAccountInfo)

/-- The reads of `database.Repository` used by the core. A Go result
`(nil, nil)` is `.ok none`, `(nil, err)` is `.error`. -/
structure Repository where
  GetMonitoredUsers : Except String (List MonitoredUser)
  GetNotificationFormats : String → String → Except String (Option UserNotificationFormat)
  GetEmbedColorsForUser : String → Except String (List (String × UserEmbedColor))

/-- The values of package `config` read by the core. -/
structure Config where
  MonitorWorkerCount : Int
  AvatarRefreshIntervalHours : Int

/-- The receiver `Bot`. -/
structure Bot where
  APIClient : APIClient
  Repo : Repository

/-! ## `formatNotificationMessage` -/

/-- The template chosen in step 1 of `formatNotificationMessage`. -/
def customFormatOf (formats : Option UserNotificationFormat) (placeholder : String) : String :=
  match formats with
  | none => ""
  | some f =>
    if placeholder = "{postMention}" then f.PostMessageFormat
    else if placeholder = "{liveMention}" then f.LiveMessageFormat
    else ""

/-- Steps 2 to 4 of `formatNotificationMessage`, on the fetched record. -/
def renderNotificationMessage (formats : Option UserNotificationFormat)
    (username mentionRole placeholder : String) : String :=
  let customFormat := customFormatOf formats placeholder
  let roleMention := if mentionRole ≠ "" then "<@&" ++ mentionRole ++ ">" else ""
  if customFormat ≠ "" then
    let processedMessage := GoStrings.Replace customFormat "{username}" username
    if GoStrings.Contains customFormat placeholder then
      GoStrings.Replace processedMessage placeholder roleMention
    else
      if roleMention ≠ "" then roleMention ++ " " ++ processedMessage
      else processedMessage
  else roleMention

/-- The method `formatNotificationMessage`: the calls it makes and the text it
returns. -/
def formatNotificationMessage (b : Bot) (guildID userID username mentionRole placeholder : String) :
    List Effect × String :=
  match b.Repo.GetNotificationFormats guildID userID with
  | .error _ =>
    ([.GetNotificationFormats guildID userID, .logError "Could not fetch notification formats"],
      renderNotificationMessage none username mentionRole placeholder)
  | .ok formats =>
    ([.GetNotificationFormats guildID userID],
      renderNotificationMessage formats username mentionRole placeholder)

/-! ## Loops and persistence -/

/-- A Go loop `for i, x := range xs` whose body only issues calls: the trace
of the loop is the traces of the iterations in order, starting at index `i`. -/
def forRange {α : Type} (body : Nat → α → List Effect) : Nat → List α → List Effect
  | _, [] => []
  | i, x :: xs => body i x ++ forRange body (i + 1) xs

/-- The statement run by `Repository.UpdateLastStreamStart` on the table
`monitored_users`. -/
def UpdateLastStreamStart (rows : List MonitoredUser) (guildID userID : String)
    (timestamp : Int) : List MonitoredUser :=
  rows.map fun r =>
    if r.GuildID = guildID ∧ r.UserID = userID then { r with LastStreamStart := timestamp } else r

/-- The statement run by `Repository.UpdateLastPostID` on the table
`monitored_users`. -/
def UpdateLastPostID (rows : List MonitoredUser) (guildID userID postID : String) :
    List MonitoredUser :=
  rows.map fun r =>
    if r.GuildID = guildID ∧ r.UserID = userID then { r with LastPostID := postID } else r

/-- The rows of `monitored_users` after one call of a trace: a successful
watermark write changes the rows of its key, every other call leaves the
watermarks as they are. -/
def persistEffect (rows : List MonitoredUser) : Effect → List MonitoredUser
  | .UpdateLastStreamStart user timestamp true =>
    UpdateLastStreamStart rows user.GuildID user.UserID timestamp
  | .UpdateLastPostID user postID true =>
    UpdateLastPostID rows user.GuildID user.UserID postID
  | _ => rows

/-- The rows of `monitored_users` after the calls of a trace, in order. -/
def persist (rows : List MonitoredUser) (trace : List Effect) : List MonitoredUser :=
  trace.foldl persistEffect rows

/-! ## `checkUserLiveStreamOptimized` -/

/-- The result of `GetEmbedColorsForUser` as the detectors use it: the trace
of the call and the map (nil on error). -/
def fetchColors (b : Bot) (userID : String) : List Effect × List (String × UserEmbedColor) :=
  match b.Repo.GetEmbedColorsForUser userID with
  | .error _ => ([.GetEmbedColorsForUser userID, .logError "Could not fetch embed colors"], [])
  | .ok colorsMap => ([.GetEmbedColorsForUser userID], colorsMap)

/-- The body of the loop over `liveEnabledUsers` (lines 247 to 278). -/
def liveNotify (b : Bot) (streamInfo : StreamResponse) (colorsMap : List (String × UserEmbedColor))
    (writeOk sendOk : Nat → Bool) (i : Nat) (user : MonitoredUser) : List Effect :=
  if writeOk i then
    let embedColor := match colorsMap.lookup user.GuildID with
      | some colorSetting => colorSetting.LiveEmbedColor
      | none => 0
    let embedMsg := CreateLiveStreamEmbed user.Username streamInfo user.AvatarLocation
      user.LiveImageURL embedColor
    let mention := formatNotificationMessage b user.GuildID user.UserID user.Username
      user.LiveMentionRole "{liveMention}"
    let targetChannel :=
      if user.LiveNotificationChannel = "" then user.NotificationChannel
      else user.LiveNotificationChannel
    [.UpdateLastStreamStart user streamInfo.Response.Stream.StartedAt true] ++ mention.1 ++
      [.ChannelMessageSendComplex user targetChannel mention.2 embedMsg (sendOk i),
       if sendOk i then .IncrementLiveCount
       else .logNotificationError "live stream" user targetChannel]
  else
    [.UpdateLastStreamStart user streamInfo.Response.Stream.StartedAt false,
     .logError "Error updating last stream start"]

/-- The method `checkUserLiveStreamOptimized`: the trace of one run on a work
item. `writeOk i` and `sendOk i` are the outcomes of the watermark write and of
the send in iteration `i` of the loop over `liveEnabledUsers`. -/
def checkUserLiveStreamOptimized (b : Bot) (writeOk sendOk : Nat → Bool)
    (userEntries : List MonitoredUser) : List Effect :=
  let liveEnabledUsers := userEntries.filter fun user => user.LiveEnabled
  match liveEnabledUsers with
  | [] => []
  | primaryUser :: _ =>
    match b.APIClient.GetStreamInfo primaryUser.UserID with
    | .error _ => [.GetStreamInfo primaryUser.UserID, .logError "Error fetching stream info"]
    | .ok streamInfo =>
      let colors := fetchColors b primaryUser.UserID
      [.GetStreamInfo primaryUser.UserID] ++ colors.1 ++
        if streamInfo.Response.Stream.Status = 2 ∧
            streamInfo.Response.Stream.StartedAt > primaryUser.LastStreamStart then
          forRange (liveNotify b streamInfo colors.2 writeOk sendOk) 0 liveEnabledUsers
        else []

/-! ## `checkUserPostsOptimized` -/

/-- The body of the loop over `postEnabledUsers` (lines 312 to 349). -/
def postNotify (b : Bot) (latestPost : Post) (colorsMap : List (String × UserEmbedColor))
    (writeOk sendOk : Nat → Bool) (i : Nat) (user : MonitoredUser) : List Effect :=
  if latestPost.ID ≠ user.LastPostID then
    if writeOk i then
      let isFirstPostForThisServer := user.LastPostID = "" ∨ user.LastPostID = "0"
      let embedColor := match colorsMap.lookup user.GuildID with
        | some colorSetting => colorSetting.PostEmbedColor
        | none => 0
      let embedMsg := CreatePostEmbed user.Username latestPost user.AvatarLocation embedColor
      let mention := formatNotificationMessage b user.GuildID user.UserID user.Username
        user.PostMentionRole "{postMention}"
      let targetChannel :=
        if user.PostNotificationChannel = "" then user.NotificationChannel
        else user.PostNotificationChannel
      [.UpdateLastPostID user latestPost.ID true] ++ mention.1 ++
        [.logFirstPost user (decide isFirstPostForThisServer),
         .ChannelMessageSendComplex user targetChannel mention.2 embedMsg (sendOk i),
         if sendOk i then .IncrementPostCount
         else .logNotificationError "post" user targetChannel]
    else
      [.UpdateLastPostID user latestPost.ID false, .logError "Error updating last post ID"]
  else []

/-- The method `checkUserPostsOptimized`: the trace of one run on a work item.
`writeOk i` and `sendOk i` are the outcomes of the watermark write and of the
send in iteration `i` of the loop over `postEnabledUsers`. -/
def checkUserPostsOptimized (b : Bot) (writeOk sendOk : Nat → Bool)
    (userEntries : List MonitoredUser) : List Effect :=
  let postEnabledUsers := userEntries.filter fun user => user.PostsEnabled
  match postEnabledUsers with
  | [] => []
  | primaryUser :: _ =>
    match b.APIClient.GetTimelinePost primaryUser.UserID with
    | .error _ => [.GetTimelinePost primaryUser.UserID, .logError "Error fetching post info"]
    | .ok [] => [.GetTimelinePost primaryUser.UserID]
    | .ok (latestPost :: _) =>
      let colors := fetchColors b primaryUser.UserID
      [.GetTimelinePost primaryUser.UserID] ++ colors.1 ++
        forRange (postNotify b latestPost colors.2 writeOk sendOk) 0 postEnabledUsers

/-! ## `dispatchMonitoringJobs` and `worker` -/

/-- Read of a Go `map[string][]models.MonitoredUser`, kept as an association
list with distinct keys: a missing key gives the nil slice. -/
def mapGet (m : List (String × List MonitoredUser)) (k : String) : List MonitoredUser :=
  (m.lookup k).getD []

/-- Assignment `m[k] = v` on the association list: an existing key keeps its
place, a new key is added at the end. -/
def mapSet (k : String) (v : List MonitoredUser) :
    List (String × List MonitoredUser) → List (String × List MonitoredUser)
  | [] => [(k, v)]
  | e :: rest => if e.1 = k then (k, v) :: rest else e :: mapSet k v rest

/-- The map `userGroups` built by the first loop of `dispatchMonitoringJobs`. -/
def userGroups (users : List MonitoredUser) : List (String × List MonitoredUser) :=
  users.foldl (fun m user => mapSet user.UserID (mapGet m user.UserID ++ [user]) m) []

/-- The method `dispatchMonitoringJobs`: the work items sent on `jobs`. Go
ranges over the map in an unspecified order; the list gives the items in the
order in which their keys were first inserted, and the order in which they are
really sent is a permutation of it. -/
def dispatchMonitoringJobs (b : Bot) : List (List MonitoredUser) :=
  match b.Repo.GetMonitoredUsers with
  | .error _ => []
  | .ok users => (userGroups users).map fun entry => entry.2

/-- Two's-complement wrap of an `int64` result. -/
def wrapInt64 (x : Int) : Int := (x + 2 ^ 63) % 2 ^ 64 - 2 ^ 63

/-- The method `refreshAvatarURL`: the call it makes and its result. -/
def refreshAvatarURL (b : Bot) (username : String) : List Effect × Except String String :=
  ([.GetAccountInfo username],
    match b.APIClient.GetAccountInfo username with
    | .error e => .error e
    | .ok none => .error "invalid account info structure"
    | .ok (some accountInfo) =>
      match accountInfo.Avatar.Locations, accountInfo.Avatar.Variants with
      | none, _ => .error "invalid account info structure"
      | some _, [] => .error "invalid account info structure"
      | some _, variant :: _ =>
        match variant.Locations with
        | [] => .error "invalid account info structure"
        | location :: _ => .ok location.Location)

/-- The outcomes of the writes and sends of one worker iteration, each by loop
iteration. -/
structure Outcomes where
  avatarWriteOk : Nat → Bool
  liveWriteOk : Nat → Bool
  liveSendOk : Nat → Bool
  postWriteOk : Nat → Bool
  postSendOk : Nat → Bool

/-- The avatar step of the worker (lines 153 to 168): its trace and the work
item as the detectors then see it. `now` is `time.Now().Unix()`. -/
def refreshAvatar (b : Bot) (cfg : Config) (now : Int) (o : Outcomes)
    (primaryUser : MonitoredUser) (userEntries : List MonitoredUser) :
    List Effect × List MonitoredUser :=
  let avatarRefreshDuration := wrapInt64 (wrapInt64 (cfg.AvatarRefreshIntervalHours * 60) * 60)
  if wrapInt64 (now - primaryUser.AvatarLocationUpdatedAt) > avatarRefreshDuration then
    match refreshAvatarURL b primaryUser.Username with
    | (fx, .error _) => (fx ++ [.logError "Error refreshing avatar URL"], userEntries)
    | (fx, .ok newAvatarLocation) =>
      (fx ++ forRange (fun i user =>
          if o.avatarWriteOk i then [.UpdateAvatarInfo user newAvatarLocation true]
          else [.UpdateAvatarInfo user newAvatarLocation false,
                .logError "Error updating avatar URL in DB"]) 0 userEntries,
        userEntries.map fun user => { user with AvatarLocation := newAvatarLocation })
  else ([], userEntries)

/-- One iteration of the loop of `worker` on a received work item; `none` is
the run-time panic of `userEntries[0]` on an empty item. -/
def workerIteration (b : Bot) (cfg : Config) (now : Int) (o : Outcomes) :
    List MonitoredUser → Option (List Effect)
  | [] => none
  | primaryUser :: rest =>
    let avatar := refreshAvatar b cfg now o primaryUser (primaryUser :: rest)
    some (avatar.1 ++ checkUserLiveStreamOptimized b o.liveWriteOk o.liveSendOk avatar.2 ++
      checkUserPostsOptimized b o.postWriteOk o.postSendOk avatar.2)

/-- The number of workers started by `monitorUsers`. -/
def numWorkers (cfg : Config) : Int :=
  if cfg.MonitorWorkerCount ≤ 0 then 1 else cfg.MonitorWorkerCount

/-! ## Reading traces -/

/-- The registration a send is addressed to, if the call is a send. -/
def Effect.sendTo : Effect → Option MonitoredUser
  | .ChannelMessageSendComplex user _ _ _ _ => some user
  | _ => none

/-- The registration whose watermark a call writes, if it is a watermark
write (successful or not). -/
def Effect.writeFor : Effect → Option MonitoredUser
  | .UpdateLastStreamStart user _ _ => some user
  | .UpdateLastPostID user _ _ => some user
  | _ => none

/-- The registrations for which a trace attempts a send, in order. -/
def sends (trace : List Effect) : List MonitoredUser := trace.filterMap Effect.sendTo

/-- The registrations for which a trace attempts a watermark write, in order. -/
def watermarkWrites (trace : List Effect) : List MonitoredUser :=
  trace.filterMap Effect.writeFor

/-- The elements of a list whose position (counted from `i`) and value satisfy
`p`. -/
def keepAt {α : Type} (p : Nat → α → Bool) : Nat → List α → List α
  | _, [] => []
  | i, x :: xs => if p i x then x :: keepAt p (i + 1) xs else keepAt p (i + 1) xs

/-- All writes and all sends succeed. -/
def allOk : Nat → Bool := fun _ => true

/-- The effect of one call of a trace on one row of `monitored_users`. -/
def persistRow (r : MonitoredUser) : Effect → MonitoredUser
  | .UpdateLastStreamStart user timestamp true =>
    if r.GuildID = user.GuildID ∧ r.UserID = user.UserID then
      { r with LastStreamStart := timestamp } else r
  | .UpdateLastPostID user postID true =>
    if r.GuildID = user.GuildID ∧ r.UserID = user.UserID then
      { r with LastPostID := postID } else r
  | _ => r

/-- The start timestamps of the live notifications that a trace delivers to
the registration with key `(guildID, userID)`. -/
def liveSendsTo (guildID userID : String) (trace : List Effect) : List Int :=
  trace.filterMap fun e =>
    match e with
    | .ChannelMessageSendComplex user _ _ (.liveStream _ streamInfo _ _ _) true =>
      if user.GuildID = guildID ∧ user.UserID = userID then
        some streamInfo.Response.Stream.StartedAt
      else none
    | _ => none

/-- Every send of the trace comes after the call `w user` for the registration
`user` it is addressed to, with no other watermark write and no other send in
between. -/
def SendsFollow (w : MonitoredUser → Effect) (trace : List Effect) : Prop :=
  ∀ pre post user channel content embed ok,
    trace = pre ++ Effect.ChannelMessageSendComplex user channel content embed ok :: post →
    ∃ before mid, pre = before ++ w user :: mid ∧ sends mid = [] ∧ watermarkWrites mid = []

/-- The call is an upstream fetch of the stream state or of the content list. -/
def Effect.isFetch : Effect → Bool
  | .GetStreamInfo _ => true
  | .GetTimelinePost _ => true
  | _ => false

/-- The stream-state and content fetches of a trace, in order. -/
def fetches (trace : List Effect) : List Effect := trace.filter Effect.isFetch

/-- The calls of one cycle: the work items are processed one after the other,
each at its own time and with its own outcomes. With several workers the calls
of different items interleave; the calls issued are the same. -/
def cycleEffects (b : Bot) (cfg : Config) :
    List (Int × Outcomes × List MonitoredUser) → List Effect
  | [] => []
  | (now, o, userEntries) :: runs =>
    (workerIteration b cfg now o userEntries).getD [] ++ cycleEffects b cfg runs

/-- The arrival order the specification speaks of: in an upstream timeline
listing item IDs oldest first, item `a` arrived no later than item `b`. The
code has no such notion; the definition serves to state the claim. -/
def arrivedNoLaterThan (timeline : List String) (a b : String) : Prop :=
  a ∈ timeline ∧ b ∈ timeline ∧ timeline.indexOf a ≤ timeline.indexOf b

/-- The format record `formatNotificationMessage` works with after its lookup:
the stored record, or nil when none is found or the lookup fails. -/
def fetchedFormats (b : Bot) (guildID userID : String) : Option UserNotificationFormat :=
  match b.Repo.GetNotificationFormats guildID userID with
  | .ok formats => formats
  | .error _ => none

/-- The call writes a last stream start or sends a live notification. -/
def Effect.isLiveAction : Effect → Bool
  | .UpdateLastStreamStart _ _ _ => true
  | .ChannelMessageSendComplex _ _ _ (.liveStream _ _ _ _ _) _ => true
  | _ => false

/-- The call writes a last post ID or sends a content notification. -/
def Effect.isPostAction : Effect → Bool
  | .UpdateLastPostID _ _ _ => true
  | .ChannelMessageSendComplex _ _ _ (.post _ _ _ _) _ => true
  | _ => false

/-! ## Health aggregator (`internal/health/aggregator.go`) -/

/-- A row of the table behind `models.APIHealthStat`; the declaration is
outside the sources, the columns are those named in `UpdateAPIHealthBulk`. The
durable totals are unbounded integers. -/
structure APIHealthStat where
  ServiceName : String
  TotalRequests : Int
  SuccessfulRequests : Int
  deriving DecidableEq, Repr

/-- The in-memory part of `health.Aggregator`: the service name and the two
`atomic.Uint64` counters. -/
structure Aggregator where
  serviceName : String
  totalRequests : Nat
  successfulRequests : Nat
  deriving DecidableEq, Repr

/-- The method `Add` of `atomic.Uint64`: addition modulo `2 ^ 64`. -/
def uint64Add (x delta : Nat) : Nat := (x + delta) % 2 ^ 64

/-- The method `RecordCall`. -/
def Aggregator.RecordCall (a : Aggregator) (success : Bool) : Aggregator :=
  if success then
    { a with totalRequests := uint64Add a.totalRequests 1
             successfulRequests := uint64Add a.successfulRequests 1 }
  else { a with totalRequests := uint64Add a.totalRequests 1 }

/-- The outcome of a call that may update the durable totals: the rows after
it, the bulk updates issued to the database (service, attempted delta,
succeeded delta) and whether an error came back. -/
structure DurableResult where
  rows : List APIHealthStat
  updates : List (String × Nat × Nat)
  failed : Bool
  deriving DecidableEq, Repr

/-- The method `Repository.UpdateAPIHealthBulk`; `dbOk` tells whether the
update statement succeeds. Two zero deltas return without touching the
database. -/
def UpdateAPIHealthBulk (dbOk : Bool) (rows : List APIHealthStat) (serviceName : String)
    (totalToAdd successfulToAdd : Nat) : DurableResult :=
  if totalToAdd = 0 ∧ successfulToAdd = 0 then { rows := rows, updates := [], failed := false }
  else if dbOk then
    { rows := rows.map fun r =>
        if r.ServiceName = serviceName then
          { r with TotalRequests := r.TotalRequests + totalToAdd
                   SuccessfulRequests := r.SuccessfulRequests + successfulToAdd }
        else r
      updates := [(serviceName, totalToAdd, successfulToAdd)]
      failed := false }
  else
    { rows := rows, updates := [(serviceName, totalToAdd, successfulToAdd)], failed := true }

/-- The state after `FlushToDB`: the aggregator, and what happened to the
durable totals (`failed` is the logged flush error). -/
structure FlushResult where
  aggregator : Aggregator
  durable : DurableResult
  deriving DecidableEq, Repr

/-- The method `FlushToDB` in a sequential execution: both counters are
swapped to zero, then a non-zero attempted count is written. -/
def Aggregator.FlushToDB (a : Aggregator) (dbOk : Bool) (rows : List APIHealthStat) :
    FlushResult :=
  let total := a.totalRequests
  let successful := a.successfulRequests
  let reset : Aggregator := { a with totalRequests := 0, successfulRequests := 0 }
  if total = 0 then
    { aggregator := reset, durable := { rows := rows, updates := [], failed := false } }
  else
    { aggregator := reset
      durable := UpdateAPIHealthBulk dbOk rows a.serviceName total successful }

/-- One step of a sequential execution of the aggregator. -/
inductive HealthOp where
  | record (success : Bool)
  | flush (dbOk : Bool)
  deriving DecidableEq, Repr

/-- A sequential execution: the aggregator and the durable rows after the
given steps. -/
def runHealth : Aggregator × List APIHealthStat → List HealthOp →
    Aggregator × List APIHealthStat
  | state, [] => state
  | (a, rows), .record success :: ops => runHealth (a.RecordCall success, rows) ops
  | (a, rows), .flush dbOk :: ops =>
    runHealth ((a.FlushToDB dbOk rows).aggregator, (a.FlushToDB dbOk rows).durable.rows) ops

/-! ## Worker start-up of `monitorUsers` -/

/-- The loop `for w := 1; w <= numWorkers; w++ { go b.worker(w, jobs) }` of
`monitorUsers` from counter value `w` on: the ids of the workers it starts.
The counter is a 64-bit `int` and wraps; `none` means the iterations allowed by
`fuel` did not reach the end of the loop. -/
def startWorkers (numWorkers : Int) : Nat → Int → Option (List Int)
  | 0, _ => none
  | fuel + 1, w =>
    if w ≤ numWorkers then
      (startWorkers numWorkers fuel (wrapInt64 (w + 1))).map fun ids => w :: ids
    else some []

/-- The workers started by `monitorUsers`. -/
def monitorUsersWorkers (cfg : Config) (fuel : Nat) : Option (List Int) :=
  startWorkers (numWorkers cfg) fuel 1

/-- The query of `Repository.GetMonitoredUsers`: `r.db.Find(&users)` carries no
condition and returns every row of `monitored_users`. -/
def GetMonitoredUsersQuery (table : List MonitoredUser) : List MonitoredUser := table

/-- The call belongs to live detection: the stream-state fetch, a write of a
last stream start or a live send. -/
def Effect.isLiveStep : Effect → Bool
  | .GetStreamInfo _ => true
  | e => e.isLiveAction

/-- The call belongs to content detection: the content fetch, a write of a last
post ID or a content send. -/
def Effect.isPostStep : Effect → Bool
  | .GetTimelinePost _ => true
  | e => e.isPostAction

/-- The registration whose avatar information a call writes, if it is such a
write (successful or not). -/
def Effect.avatarWriteFor : Effect → Option MonitoredUser
  | .UpdateAvatarInfo user _ _ => some user
  | _ => none

/-- The registrations for which a trace attempts an avatar write, in order. -/
def avatarWrites (trace : List Effect) : List MonitoredUser :=
  trace.filterMap Effect.avatarWriteFor

/-- The call belongs to the avatar step: the account lookup or an avatar
write. -/
def Effect.isAvatarStep : Effect → Bool
  | .GetAccountInfo _ => true
  | .UpdateAvatarInfo _ _ _ => true
  | _ => false

/-! ## Concurrent executions of the aggregator -/

/-- The atomic steps of the goroutines that use an aggregator: the two `Add(1)`
of `RecordCall`, the two `Swap(0)` of `FlushToDB`, and the rest of `FlushToDB`
(the test `total == 0` on its local variable and the bulk update, whose
outcome is `dbOk`). -/
inductive AtomicStep where
  | addTotal
  | addSuccessful
  | swapTotal
  | swapSuccessful
  | report (dbOk : Bool)
  deriving DecidableEq, Repr

/-- The steps of `RecordCall(success)` in program order. -/
def RecordCallSteps (success : Bool) : List AtomicStep :=
  if success then [.addTotal, .addSuccessful] else [.addTotal]

/-- The steps of `FlushToDB` in program order. -/
def FlushToDBSteps (dbOk : Bool) : List AtomicStep :=
  [.swapTotal, .swapSuccessful, .report dbOk]

/-- A goroutine: the steps it has still to run and the local variables `total`
and `successful` of the `FlushToDB` it is in. -/
structure Goroutine where
  steps : List AtomicStep
  total : Nat
  successful : Nat
  deriving DecidableEq, Repr

/-- The shared state of a concurrent execution: the counters, the durable
totals with the bulk updates issued so far, and the goroutines. -/
structure Concurrent where
  aggregator : Aggregator
  durable : DurableResult
  goroutines : List Goroutine
  deriving DecidableEq, Repr

/-- Goroutine `g` runs its next atomic step; `none` when there is no such
goroutine or it has finished. -/
def Concurrent.step (s : Concurrent) (g : Nat) : Option Concurrent :=
  match s.goroutines[g]? with
  | none => none
  | some r =>
    match r.steps with
    | [] => none
    | .addTotal :: rest =>
      some { s with
        aggregator :=
          { s.aggregator with totalRequests := uint64Add s.aggregator.totalRequests 1 }
        goroutines := s.goroutines.set g { r with steps := rest } }
    | .addSuccessful :: rest =>
      some { s with
        aggregator :=
          { s.aggregator with
            successfulRequests := uint64Add s.aggregator.successfulRequests 1 }
        goroutines := s.goroutines.set g { r with steps := rest } }
    | .swapTotal :: rest =>
      some { s with
        aggregator := { s.aggregator with totalRequests := 0 }
        goroutines :=
          s.goroutines.set g { r with steps := rest, total := s.aggregator.totalRequests } }
    | .swapSuccessful :: rest =>
      some { s with
        aggregator := { s.aggregator with successfulRequests := 0 }
        goroutines :=
          s.goroutines.set g
            { r with steps := rest, successful := s.aggregator.successfulRequests } }
    | .report dbOk :: rest =>
      if r.total = 0 then some { s with goroutines := s.goroutines.set g { r with steps := rest } }
      else
        let d := UpdateAPIHealthBulk dbOk s.durable.rows s.aggregator.serviceName
          r.total r.successful
        some { s with
          durable :=
            { rows := d.rows, updates := s.durable.updates ++ d.updates
              failed := s.durable.failed || d.failed }
          goroutines := s.goroutines.set g { r with steps := rest } }

/-- An interleaving: the goroutines take their next steps in the order of the
schedule. -/
def Concurrent.run (s : Concurrent) : List Nat → Option Concurrent
  | [] => some s
  | g :: schedule =>
    match s.step g with
    | none => none
    | some t => t.run schedule

/-! ## The format modal (`handlers.go`) -/

/-- The modal that `handleSetFormatCommand` opens: the custom ID, the title and
the fields of its one text input. -/
structure Modal where
  CustomID : String
  Title : String
  Label : String
  Placeholder : String
  Value : String
  deriving DecidableEq, Repr

/-- The handler `handleSetFormatCommand` (lines 783 to 809 and the response):
`lookup` is the result of `GetMonitoredUserByUsername`. The result is the modal
opened, or the text of the reply when the creator is not monitored. -/
def handleSetFormatCommand (b : Bot) (lookup : Except String (Option MonitoredUser))
    (username notifType : String) : Except String Modal :=
  match lookup with
  | .error _ => .error ("Creator **" ++ username ++ "** is not being monitored in this server.")
  | .ok none => .error ("Creator **" ++ username ++ "** is not being monitored in this server.")
  | .ok (some user) =>
    let formats := fetchedFormats b user.GuildID user.UserID
    let customID := "format_modal_" ++ notifType ++ "_" ++ user.UserID
    if notifType = "posts" then
      .ok { CustomID := customID
            Title := "Set Post Format for " ++ username
            Label := "Post Notification Message"
            Placeholder := "e.g., Hey {postMention}, {username} just posted!"
            Value := match formats with
              | some f => f.PostMessageFormat
              | none => "" }
    else
      .ok { CustomID := customID
            Title := "Set Live Format for " ++ username
            Label := "Live Notification Message"
            Placeholder := "e.g., {liveMention}! {username} is now live!"
            Value := match formats with
              | some f => f.LiveMessageFormat
              | none => "" }

/-- What `handleFormatModalSubmit` did: the key of its lookup of the format
record, the record it passed to `UpsertNotificationFormats`, the line it
logged and the reply it sent, each if any. -/
structure ModalSubmitResult where
  lookup : Option (String × String)
  upsert : Option UserNotificationFormat
  logged : Option String
  response : Option String
  deriving DecidableEq, Repr

/-- The handler `handleFormatModalSubmit`: `guildID` is `i.GuildID`, `customID`
the custom ID of the submitted modal, `messageFormat` the value of its text
input and `upsertOk` the outcome of `UpsertNotificationFormats`. -/
def handleFormatModalSubmit (b : Bot) (upsertOk : Bool)
    (guildID customID messageFormat : String) : ModalSubmitResult :=
  let parts := GoStrings.Split customID "_"
  if parts.length ≠ 4 then
    { lookup := none, upsert := none
      logged := some ("Received malformed modal custom ID: " ++ customID), response := none }
  else
    let notifType := parts.getD 2 ""
    let userID := parts.getD 3 ""
    match b.Repo.GetNotificationFormats guildID userID with
    | .error _ =>
      { lookup := some (guildID, userID), upsert := none, logged := none
        response := some "Error fetching existing data. Please try again." }
    | .ok found =>
      let formats : UserNotificationFormat :=
        match found with
        | some f => f
        | none =>
          { GuildID := guildID, UserID := userID, PostMessageFormat := ""
            LiveMessageFormat := "" }
      let formats :=
        if notifType = "posts" then { formats with PostMessageFormat := messageFormat }
        else if notifType = "live" then { formats with LiveMessageFormat := messageFormat }
        else formats
      if upsertOk then
        { lookup := some (guildID, userID), upsert := some formats, logged := none
          response := some ("✅ Successfully updated the **" ++ notifType ++
            "** notification message format.") }
      else
        { lookup := some (guildID, userID), upsert := some formats
          logged := some "Error saving format to DB"
          response := some "Failed to save the custom message format." }

/-! ## Sample data -/

/-- A registration of guild `guildID` for the entity `e`, both kinds enabled,
with the given watermarks. -/
def sampleUser (guildID : String) (lastStreamStart : Int) (lastPostID : String) : MonitoredUser :=
  { GuildID := guildID, UserID := "e", Username := "Alice", NotificationChannel := "general",
    PostNotificationChannel := "", LiveNotificationChannel := "", LastPostID := lastPostID,
    LastStreamStart := lastStreamStart, MentionRole := "", AvatarLocation := "",
    AvatarLocationUpdatedAt := 0, LiveImageURL := "", PostsEnabled := true, LiveEnabled := true,
    LiveMentionRole := "", PostMentionRole := "" }

/-- A bot whose upstream reports the given stream state and content list for
every entity, with no format or colour records stored. -/
def sampleBot (status startedAt : Int) (posts : List Post) : Bot :=
  { APIClient :=
      { GetStreamInfo := fun _ => .ok ⟨⟨⟨status, startedAt⟩⟩⟩
        GetTimelinePost := fun _ => .ok posts
        GetAccountInfo := fun _ => .error "unavailable" }
    Repo :=
      { GetMonitoredUsers := .ok []
        GetNotificationFormats := fun _ _ => .ok none
        GetEmbedColorsForUser := fun _ => .ok [] } }

/-- The sample bot with the given rows in the store. -/
def sampleBotWith (users : List MonitoredUser) : Bot :=
  { APIClient := (sampleBot 2 5 [⟨"abc", ""⟩]).APIClient
    Repo :=
      { GetMonitoredUsers := .ok users
        GetNotificationFormats := fun _ _ => .ok none
        GetEmbedColorsForUser := fun _ => .ok [] } }

/-- Three registrations: guilds `g1` and `g3` watch entity `e`, guild `g2`
watches entity `f`. -/
def sampleUsers : List MonitoredUser :=
  [sampleUser "g1" 0 "", { sampleUser "g2" 0 "" with UserID := "f" }, sampleUser "g3" 0 ""]

/-- The sample bot with one format record stored, returned for every key. -/
def sampleBotWithFormat (f : UserNotificationFormat) : Bot :=
  { APIClient := (sampleBot 2 5 [⟨"abc", ""⟩]).APIClient
    Repo :=
      { GetMonitoredUsers := .ok []
        GetNotificationFormats := fun _ _ => .ok (some f)
        GetEmbedColorsForUser := fun _ => .ok [] } }

/-- A registration of guild `g2` with both kinds disabled. -/
def sampleDisabledUser : MonitoredUser :=
  { sampleUser "g2" 0 "" with LiveEnabled := false, PostsEnabled := false }

/-- A registration of guild `g4` with a live channel and a post channel of its
own. -/
def sampleChannelUser : MonitoredUser :=
  { sampleUser "g4" 0 "" with LiveNotificationChannel := "live", PostNotificationChannel := "posts" }

/-- An aggregator for the service `fansly_api` with both counters at zero. -/
def sampleAggregator : Aggregator :=
  { serviceName := "fansly_api", totalRequests := 0, successfulRequests := 0 }

/-- Durable rows of two services. -/
def sampleHealthRows : List APIHealthStat :=
  [⟨"fansly_api", 10, 7⟩, ⟨"other", 3, 3⟩]

/-- The sample aggregator with one goroutine in `RecordCall(true)` and the
flushing goroutine about to run `FlushToDB` twice, over the sample rows. -/
def sampleConcurrent : Concurrent :=
  { aggregator := sampleAggregator
    durable := { rows := sampleHealthRows, updates := [], failed := false }
    goroutines :=
      [⟨RecordCallSteps true, 0, 0⟩, ⟨FlushToDBSteps true ++ FlushToDBSteps true, 0, 0⟩] }

/-- A bot whose lookup of a format record gives the same result for every
key. -/
def sampleBotFormats (result : Except String (Option UserNotificationFormat)) : Bot :=
  { APIClient := (sampleBot 2 5 [⟨"abc", ""⟩]).APIClient
    Repo :=
      { GetMonitoredUsers := .ok []
        GetNotificationFormats := fun _ _ => result
        GetEmbedColorsForUser := fun _ => .ok [] } }

/-- A bot whose upstream account lookup succeeds with the avatar reference
`new-avatar`. -/
def sampleBotAvatar : Bot :=
  { APIClient :=
      { GetStreamInfo := fun _ => .error "down"
        GetTimelinePost := fun _ => .error "down"
        GetAccountInfo := fun _ =>
          .ok (some ⟨"e", ⟨some [⟨"new-avatar"⟩], [⟨[⟨"new-avatar"⟩]⟩]⟩⟩) }
    Repo := (sampleBot 0 0 []).Repo }

/-- A registration of guild `g2` whose avatar was refreshed at time 100000. -/
def sampleFreshAvatarUser : MonitoredUser :=
  { sampleUser "g2" 0 "" with AvatarLocationUpdatedAt := 100000 }

/-- Outcomes of a worker iteration in which every write and send succeeds. -/
def sampleOutcomes : Outcomes :=
  { avatarWriteOk := allOk, liveWriteOk := allOk, liveSendOk := allOk, postWriteOk := allOk,
    postSendOk := allOk }

/-- One worker and a refresh interval of 24 hours. -/
def sampleConfig : Config := { MonitorWorkerCount := 1, AvatarRefreshIntervalHours := 24 }

/-! ## Basic facts -/

theorem sends_append (s t : List Effect) : sends (s ++ t) = sends s ++ sends t := by
  simp [sends, List.filterMap_append]

theorem watermarkWrites_append (s t : List Effect) :
    watermarkWrites (s ++ t) = watermarkWrites s ++ watermarkWrites t := by
  simp [watermarkWrites, List.filterMap_append]

theorem sends_cons (e : Effect) (t : List Effect) :
    sends (e :: t) = e.sendTo.toList ++ sends t := by
  cases h : e.sendTo <;> simp [sends, List.filterMap_cons, h]

theorem watermarkWrites_cons (e : Effect) (t : List Effect) :
    watermarkWrites (e :: t) = e.writeFor.toList ++ watermarkWrites t := by
  cases h : e.writeFor <;> simp [watermarkWrites, List.filterMap_cons, h]

theorem sends_nil : sends [] = [] := rfl

theorem watermarkWrites_nil : watermarkWrites [] = [] := rfl

theorem mem_forRange {α : Type} (body : Nat → α → List Effect) (e : Effect) :
    ∀ (xs : List α) (i : Nat),
      e ∈ forRange body i xs ↔ ∃ j x, xs[j]? = some x ∧ e ∈ body (i + j) x
  | [], i => by simp [forRange]
  | x :: xs, i => by
    rw [forRange, List.mem_append, mem_forRange body e xs (i + 1)]
    constructor
    · rintro (h | ⟨j, y, hj, he⟩)
      · exact ⟨0, x, by simp, by simpa using h⟩
      · exact ⟨j + 1, y, by simpa using hj, by rw [← Nat.add_assoc, Nat.add_right_comm]; exact he⟩
    · rintro ⟨j, y, hj, he⟩
      cases j with
      | zero =>
        left
        simp at hj
        subst hj
        simpa using he
      | succ j =>
        right
        refine ⟨j, y, by simpa using hj, ?_⟩
        rw [Nat.add_right_comm, Nat.add_assoc]
        exact he

theorem keepAt_const_true {α : Type} (p : α → Bool) :
    ∀ (xs : List α) (i : Nat), keepAt (fun _ x => p x) i xs = xs.filter p
  | [], _ => rfl
  | x :: xs, i => by
    simp only [keepAt, List.filter_cons, keepAt_const_true p xs (i + 1)]

theorem sends_formatNotificationMessage (b : Bot) (g u n m p : String) :
    sends (formatNotificationMessage b g u n m p).1 = [] := by
  unfold formatNotificationMessage
  cases b.Repo.GetNotificationFormats g u <;> simp [sends, Effect.sendTo]

theorem watermarkWrites_formatNotificationMessage (b : Bot) (g u n m p : String) :
    watermarkWrites (formatNotificationMessage b g u n m p).1 = [] := by
  unfold formatNotificationMessage
  cases b.Repo.GetNotificationFormats g u <;> simp [watermarkWrites, Effect.writeFor]

theorem sends_fetchColors (b : Bot) (u : String) : sends (fetchColors b u).1 = [] := by
  unfold fetchColors
  cases b.Repo.GetEmbedColorsForUser u <;> simp [sends, Effect.sendTo]

theorem watermarkWrites_fetchColors (b : Bot) (u : String) :
    watermarkWrites (fetchColors b u).1 = [] := by
  unfold fetchColors
  cases b.Repo.GetEmbedColorsForUser u <;> simp [watermarkWrites, Effect.writeFor]

theorem sends_liveNotify (b : Bot) (si : StreamResponse) (cm : List (String × UserEmbedColor))
    (writeOk sendOk : Nat → Bool) (i : Nat) (user : MonitoredUser) :
    sends (liveNotify b si cm writeOk sendOk i user) = if writeOk i then [user] else [] := by
  cases hw : writeOk i <;> cases hs : sendOk i <;>
    simp [liveNotify, hw, hs, sends_append, sends_cons, sends_nil, Effect.sendTo,
      sends_formatNotificationMessage]

theorem watermarkWrites_liveNotify (b : Bot) (si : StreamResponse)
    (cm : List (String × UserEmbedColor)) (writeOk sendOk : Nat → Bool) (i : Nat)
    (user : MonitoredUser) :
    watermarkWrites (liveNotify b si cm writeOk sendOk i user) = [user] := by
  cases hw : writeOk i <;> cases hs : sendOk i <;>
    simp [liveNotify, hw, hs, watermarkWrites_append, watermarkWrites_cons, watermarkWrites_nil,
      Effect.writeFor, watermarkWrites_formatNotificationMessage]

theorem sends_liveLoop (b : Bot) (si : StreamResponse) (cm : List (String × UserEmbedColor))
    (writeOk sendOk : Nat → Bool) :
    ∀ (xs : List MonitoredUser) (i : Nat),
      sends (forRange (liveNotify b si cm writeOk sendOk) i xs) =
        keepAt (fun j _ => writeOk j) i xs
  | [], _ => rfl
  | x :: xs, i => by
    rw [forRange, sends_append, sends_liveNotify, sends_liveLoop b si cm writeOk sendOk xs (i + 1),
      keepAt]
    split <;> rfl

theorem watermarkWrites_liveLoop (b : Bot) (si : StreamResponse)
    (cm : List (String × UserEmbedColor)) (writeOk sendOk : Nat → Bool) :
    ∀ (xs : List MonitoredUser) (i : Nat),
      watermarkWrites (forRange (liveNotify b si cm writeOk sendOk) i xs) = xs
  | [], _ => rfl
  | x :: xs, i => by
    rw [forRange, watermarkWrites_append, watermarkWrites_liveNotify,
      watermarkWrites_liveLoop b si cm writeOk sendOk xs (i + 1)]
    rfl

theorem sends_postNotify (b : Bot) (latestPost : Post) (cm : List (String × UserEmbedColor))
    (writeOk sendOk : Nat → Bool) (i : Nat) (user : MonitoredUser) :
    sends (postNotify b latestPost cm writeOk sendOk i user) =
      if (decide (latestPost.ID ≠ user.LastPostID) && writeOk i) = true then [user] else [] := by
  by_cases hne : latestPost.ID = user.LastPostID
  · simp [postNotify, hne, sends_nil]
  · cases hw : writeOk i <;> cases hs : sendOk i <;>
      simp [postNotify, hne, hw, hs, sends_append, sends_cons, sends_nil, Effect.sendTo,
        sends_formatNotificationMessage]

theorem watermarkWrites_postNotify (b : Bot) (latestPost : Post)
    (cm : List (String × UserEmbedColor)) (writeOk sendOk : Nat → Bool) (i : Nat)
    (user : MonitoredUser) :
    watermarkWrites (postNotify b latestPost cm writeOk sendOk i user) =
      if decide (latestPost.ID ≠ user.LastPostID) = true then [user] else [] := by
  by_cases hne : latestPost.ID = user.LastPostID
  · simp [postNotify, hne, watermarkWrites_nil]
  · cases hw : writeOk i <;> cases hs : sendOk i <;>
      simp [postNotify, hne, hw, hs, watermarkWrites_append, watermarkWrites_cons,
        watermarkWrites_nil, Effect.writeFor, watermarkWrites_formatNotificationMessage]

theorem sends_postLoop (b : Bot) (latestPost : Post) (cm : List (String × UserEmbedColor))
    (writeOk sendOk : Nat → Bool) :
    ∀ (xs : List MonitoredUser) (i : Nat),
      sends (forRange (postNotify b latestPost cm writeOk sendOk) i xs) =
        keepAt (fun j u => decide (latestPost.ID ≠ u.LastPostID) && writeOk j) i xs
  | [], _ => rfl
  | x :: xs, i => by
    rw [forRange, sends_append, sends_postNotify,
      sends_postLoop b latestPost cm writeOk sendOk xs (i + 1), keepAt]
    split <;> rfl

theorem watermarkWrites_postLoop (b : Bot) (latestPost : Post)
    (cm : List (String × UserEmbedColor)) (writeOk sendOk : Nat → Bool) :
    ∀ (xs : List MonitoredUser) (i : Nat),
      watermarkWrites (forRange (postNotify b latestPost cm writeOk sendOk) i xs) =
        xs.filter fun u => decide (latestPost.ID ≠ u.LastPostID)
  | [], _ => rfl
  | x :: xs, i => by
    rw [forRange, watermarkWrites_append, watermarkWrites_postNotify,
      watermarkWrites_postLoop b latestPost cm writeOk sendOk xs (i + 1), List.filter_cons]
    split <;> rfl

/-- The shape of a live run whose fetch succeeds. -/
theorem checkUserLiveStreamOptimized_ok (b : Bot) (writeOk sendOk : Nat → Bool)
    (userEntries : List MonitoredUser) (p : MonitoredUser) (si : StreamResponse)
    (hp : (userEntries.filter fun user => user.LiveEnabled).head? = some p)
    (hf : b.APIClient.GetStreamInfo p.UserID = .ok si) :
    checkUserLiveStreamOptimized b writeOk sendOk userEntries =
      [.GetStreamInfo p.UserID] ++ (fetchColors b p.UserID).1 ++
        if si.Response.Stream.Status = 2 ∧ si.Response.Stream.StartedAt > p.LastStreamStart then
          forRange (liveNotify b si (fetchColors b p.UserID).2 writeOk sendOk) 0
            (userEntries.filter fun user => user.LiveEnabled)
        else [] := by
  unfold checkUserLiveStreamOptimized
  cases hl : userEntries.filter fun user => user.LiveEnabled with
  | nil => simp [hl] at hp
  | cons q rest =>
    simp only [hl, List.head?_cons, Option.some.injEq] at hp
    subst hp
    simp only [hf]

/-- The shape of a content run whose fetch returns a non-empty list. -/
theorem checkUserPostsOptimized_ok (b : Bot) (writeOk sendOk : Nat → Bool)
    (userEntries : List MonitoredUser) (p : MonitoredUser) (latestPost : Post) (rest : List Post)
    (hp : (userEntries.filter fun user => user.PostsEnabled).head? = some p)
    (hf : b.APIClient.GetTimelinePost p.UserID = .ok (latestPost :: rest)) :
    checkUserPostsOptimized b writeOk sendOk userEntries =
      [.GetTimelinePost p.UserID] ++ (fetchColors b p.UserID).1 ++
        forRange (postNotify b latestPost (fetchColors b p.UserID).2 writeOk sendOk) 0
          (userEntries.filter fun user => user.PostsEnabled) := by
  unfold checkUserPostsOptimized
  cases hl : userEntries.filter fun user => user.PostsEnabled with
  | nil => simp [hl] at hp
  | cons q rest =>
    simp only [hl, List.head?_cons, Option.some.injEq] at hp
    subst hp
    simp only [hf]

theorem sends_checkUserLiveStreamOptimized (b : Bot) (writeOk sendOk : Nat → Bool)
    (userEntries : List MonitoredUser) (p : MonitoredUser) (si : StreamResponse)
    (hp : (userEntries.filter fun user => user.LiveEnabled).head? = some p)
    (hf : b.APIClient.GetStreamInfo p.UserID = .ok si) :
    sends (checkUserLiveStreamOptimized b writeOk sendOk userEntries) =
      if si.Response.Stream.Status = 2 ∧ si.Response.Stream.StartedAt > p.LastStreamStart then
        keepAt (fun j _ => writeOk j) 0 (userEntries.filter fun user => user.LiveEnabled)
      else [] := by
  rw [checkUserLiveStreamOptimized_ok b writeOk sendOk userEntries p si hp hf]
  simp only [sends_append, sends_cons, sends_nil, sends_fetchColors, Effect.sendTo,
    Option.toList, List.nil_append]
  split
  · exact sends_liveLoop b si _ writeOk sendOk _ 0
  · rfl

theorem watermarkWrites_checkUserLiveStreamOptimized (b : Bot) (writeOk sendOk : Nat → Bool)
    (userEntries : List MonitoredUser) (p : MonitoredUser) (si : StreamResponse)
    (hp : (userEntries.filter fun user => user.LiveEnabled).head? = some p)
    (hf : b.APIClient.GetStreamInfo p.UserID = .ok si) :
    watermarkWrites (checkUserLiveStreamOptimized b writeOk sendOk userEntries) =
      if si.Response.Stream.Status = 2 ∧ si.Response.Stream.StartedAt > p.LastStreamStart then
        userEntries.filter fun user => user.LiveEnabled
      else [] := by
  rw [checkUserLiveStreamOptimized_ok b writeOk sendOk userEntries p si hp hf]
  simp only [watermarkWrites_append, watermarkWrites_cons, watermarkWrites_nil,
    watermarkWrites_fetchColors, Effect.writeFor, Option.toList, List.nil_append]
  split
  · exact watermarkWrites_liveLoop b si _ writeOk sendOk _ 0
  · rfl

theorem sends_checkUserPostsOptimized (b : Bot) (writeOk sendOk : Nat → Bool)
    (userEntries : List MonitoredUser) (p : MonitoredUser) (latestPost : Post) (rest : List Post)
    (hp : (userEntries.filter fun user => user.PostsEnabled).head? = some p)
    (hf : b.APIClient.GetTimelinePost p.UserID = .ok (latestPost :: rest)) :
    sends (checkUserPostsOptimized b writeOk sendOk userEntries) =
      keepAt (fun j u => decide (latestPost.ID ≠ u.LastPostID) && writeOk j) 0
        (userEntries.filter fun user => user.PostsEnabled) := by
  rw [checkUserPostsOptimized_ok b writeOk sendOk userEntries p latestPost rest hp hf]
  simp only [sends_append, sends_cons, sends_nil, sends_fetchColors, Effect.sendTo,
    Option.toList, List.nil_append]
  exact sends_postLoop b latestPost _ writeOk sendOk _ 0

theorem watermarkWrites_checkUserPostsOptimized (b : Bot) (writeOk sendOk : Nat → Bool)
    (userEntries : List MonitoredUser) (p : MonitoredUser) (latestPost : Post) (rest : List Post)
    (hp : (userEntries.filter fun user => user.PostsEnabled).head? = some p)
    (hf : b.APIClient.GetTimelinePost p.UserID = .ok (latestPost :: rest)) :
    watermarkWrites (checkUserPostsOptimized b writeOk sendOk userEntries) =
      (userEntries.filter fun user => user.PostsEnabled).filter
        fun u => decide (latestPost.ID ≠ u.LastPostID) := by
  rw [checkUserPostsOptimized_ok b writeOk sendOk userEntries p latestPost rest hp hf]
  simp only [watermarkWrites_append, watermarkWrites_cons, watermarkWrites_nil,
    watermarkWrites_fetchColors, Effect.writeFor, Option.toList, List.nil_append]
  exact watermarkWrites_postLoop b latestPost _ writeOk sendOk _ 0

theorem mem_formatNotificationMessage (b : Bot) (g u n m p : String) (e : Effect)
    (h : e ∈ (formatNotificationMessage b g u n m p).1) :
    e = .GetNotificationFormats g u ∨ e = .logError "Could not fetch notification formats" := by
  unfold formatNotificationMessage at h
  cases hr : b.Repo.GetNotificationFormats g u <;> simp [hr] at h <;> tauto

theorem logFirstPost_mem_postNotify (b : Bot) (latestPost : Post)
    (cm : List (String × UserEmbedColor)) (writeOk sendOk : Nat → Bool) (i : Nat)
    (user u : MonitoredUser) (flag : Bool)
    (h : Effect.logFirstPost u flag ∈ postNotify b latestPost cm writeOk sendOk i user) :
    u = user ∧ flag = decide (user.LastPostID = "" ∨ user.LastPostID = "0") := by
  unfold postNotify at h
  by_cases hne : latestPost.ID = user.LastPostID
  · simp [hne] at h
  · cases hw : writeOk i
    · simp [hne, hw] at h
    · simp only [hne, hw, ne_eq, not_false_eq_true, if_true, List.mem_append, List.mem_cons,
        List.mem_singleton, List.not_mem_nil, or_false] at h
      rcases h with (h | h) | h | h | h
      · cases h
      · rcases mem_formatNotificationMessage _ _ _ _ _ _ _ h with h | h <;> cases h
      · cases h
        exact ⟨rfl, rfl⟩
      · cases h
      · split at h <;> cases h

theorem persistEffect_eq_map (rows : List MonitoredUser) (e : Effect) :
    persistEffect rows e = rows.map fun r => persistRow r e := by
  cases e with
  | UpdateLastStreamStart user timestamp ok =>
    cases ok <;> simp [persistEffect, persistRow, UpdateLastStreamStart]
  | UpdateLastPostID user postID ok =>
    cases ok <;> simp [persistEffect, persistRow, UpdateLastPostID]
  | _ => simp [persistEffect, persistRow]

/-- Persisting a trace acts on every row on its own. -/
theorem persist_eq_map (trace : List Effect) :
    ∀ rows : List MonitoredUser,
      persist rows trace = rows.map fun r => trace.foldl persistRow r := by
  induction trace with
  | nil => intro rows; simp [persist]
  | cons e t ih =>
    intro rows
    have h := ih (persistEffect rows e)
    simp only [persist, List.foldl_cons] at h ⊢
    rw [h, persistEffect_eq_map, List.map_map]
    rfl

theorem persistRow_fields (r : MonitoredUser) (e : Effect) :
    (persistRow r e).GuildID = r.GuildID ∧ (persistRow r e).UserID = r.UserID ∧
      (persistRow r e).PostsEnabled = r.PostsEnabled ∧
      (persistRow r e).LiveEnabled = r.LiveEnabled := by
  cases e with
  | UpdateLastStreamStart user timestamp ok =>
    cases ok <;> simp only [persistRow] <;> try split <;> simp
    simp
  | UpdateLastPostID user postID ok =>
    cases ok <;> simp only [persistRow] <;> try split <;> simp
    simp
  | _ => simp [persistRow]

theorem foldl_persistRow_fields (trace : List Effect) :
    ∀ r : MonitoredUser,
      (trace.foldl persistRow r).GuildID = r.GuildID ∧
      (trace.foldl persistRow r).UserID = r.UserID ∧
      (trace.foldl persistRow r).PostsEnabled = r.PostsEnabled ∧
      (trace.foldl persistRow r).LiveEnabled = r.LiveEnabled := by
  induction trace with
  | nil => intro r; simp
  | cons e t ih =>
    intro r
    obtain ⟨h1, h2, h3, h4⟩ := ih (persistRow r e)
    obtain ⟨k1, k2, k3, k4⟩ := persistRow_fields r e
    simp only [List.foldl_cons]
    exact ⟨h1.trans k1, h2.trans k2, h3.trans k3, h4.trans k4⟩

/-- A row keeps its content watermark or takes the one value `pid` when every
successful content write of the trace writes `pid`. -/
theorem foldl_persistRow_lastPostID (pid : String) (trace : List Effect) :
    ∀ r : MonitoredUser,
      (∀ u q, Effect.UpdateLastPostID u q true ∈ trace → q = pid) →
      (trace.foldl persistRow r).LastPostID = r.LastPostID ∨
        (trace.foldl persistRow r).LastPostID = pid := by
  induction trace with
  | nil => intro r _; left; rfl
  | cons e t ih =>
    intro r hall
    have ht : ∀ u q, Effect.UpdateLastPostID u q true ∈ t → q = pid :=
      fun u q h => hall u q (List.mem_cons_of_mem _ h)
    simp only [List.foldl_cons]
    rcases ih (persistRow r e) ht with h | h
    · rw [h]
      cases e with
      | UpdateLastPostID user postID ok =>
        cases ok
        · left; rfl
        · have hq := hall user postID (List.mem_cons_self _ _)
          subst hq
          simp only [persistRow]
          split
          · right; rfl
          · left; rfl
      | UpdateLastStreamStart user timestamp ok =>
        cases ok
        · left; rfl
        · simp only [persistRow]
          split <;> (left; rfl)
      | _ => left; rfl
    · right; exact h

/-- A row takes the value `pid` when the trace holds a successful write of
`pid` for its key and every successful content write writes `pid`. -/
theorem foldl_persistRow_written (pid : String) (trace : List Effect) :
    ∀ r : MonitoredUser,
      (∀ u q, Effect.UpdateLastPostID u q true ∈ trace → q = pid) →
      (∃ u, Effect.UpdateLastPostID u pid true ∈ trace ∧ r.GuildID = u.GuildID ∧
        r.UserID = u.UserID) →
      (trace.foldl persistRow r).LastPostID = pid := by
  induction trace with
  | nil => intro r _ h; simp at h
  | cons e t ih =>
    intro r hall hex
    have ht : ∀ u q, Effect.UpdateLastPostID u q true ∈ t → q = pid :=
      fun u q h => hall u q (List.mem_cons_of_mem _ h)
    obtain ⟨u, hu, hg, hi⟩ := hex
    simp only [List.foldl_cons]
    rcases List.mem_cons.mp hu with h | h
    · subst h
      rcases foldl_persistRow_lastPostID pid t (persistRow r (.UpdateLastPostID u pid true)) ht
        with h | h
      · rw [h]
        simp [persistRow, hg, hi]
      · exact h
    · obtain ⟨k1, k2, _, _⟩ := persistRow_fields r e
      exact ih (persistRow r e) ht ⟨u, h, k1.trans hg, k2.trans hi⟩

theorem forRange_eq_nil {α : Type} (body : Nat → α → List Effect) :
    ∀ (xs : List α) (i : Nat), (∀ x ∈ xs, ∀ j, body j x = []) → forRange body i xs = []
  | [], _, _ => rfl
  | x :: xs, i, h => by
    rw [forRange, h x (List.mem_cons_self _ _) i,
      forRange_eq_nil body xs (i + 1) fun y hy => h y (List.mem_cons_of_mem _ hy)]
    rfl

/-- A content run neither writes nor sends when every posts-enabled
registration already records the newest fetched ID. -/
theorem checkUserPostsOptimized_quiet (b : Bot) (writeOk sendOk : Nat → Bool)
    (userEntries : List MonitoredUser)
    (h : ∀ p latestPost rest,
      (userEntries.filter fun user => user.PostsEnabled).head? = some p →
      b.APIClient.GetTimelinePost p.UserID = .ok (latestPost :: rest) →
      ∀ u ∈ userEntries.filter fun user => user.PostsEnabled, u.LastPostID = latestPost.ID) :
    sends (checkUserPostsOptimized b writeOk sendOk userEntries) = [] ∧
      watermarkWrites (checkUserPostsOptimized b writeOk sendOk userEntries) = [] := by
  cases hl : userEntries.filter fun user => user.PostsEnabled with
  | nil => simp [checkUserPostsOptimized, hl, sends_nil, watermarkWrites_nil]
  | cons p tl =>
    cases hf : b.APIClient.GetTimelinePost p.UserID with
    | error err =>
      simp [checkUserPostsOptimized, hl, hf, sends_cons, sends_nil, watermarkWrites_cons,
        watermarkWrites_nil, Effect.sendTo, Effect.writeFor]
    | ok posts =>
      cases posts with
      | nil =>
        simp [checkUserPostsOptimized, hl, hf, sends_cons, sends_nil, watermarkWrites_cons,
          watermarkWrites_nil, Effect.sendTo, Effect.writeFor]
      | cons latestPost rest =>
        have hp : (userEntries.filter fun user => user.PostsEnabled).head? = some p := by
          rw [hl]; rfl
        have hall := h p latestPost rest hp hf
        rw [checkUserPostsOptimized_ok b writeOk sendOk userEntries p latestPost rest hp hf,
          forRange_eq_nil]
        · simp [sends_append, sends_cons, sends_nil, sends_fetchColors, watermarkWrites_append,
            watermarkWrites_cons, watermarkWrites_nil, watermarkWrites_fetchColors,
            Effect.sendTo, Effect.writeFor]
        · intro x hx j
          simp [postNotify, hall x hx]

theorem mem_fetchColors (b : Bot) (u : String) (e : Effect) (h : e ∈ (fetchColors b u).1) :
    e = .GetEmbedColorsForUser u ∨ e = .logError "Could not fetch embed colors" := by
  unfold fetchColors at h
  cases hc : b.Repo.GetEmbedColorsForUser u <;> simp [hc] at h <;> tauto

theorem updateLastPostID_mem_postNotify (b : Bot) (latestPost : Post)
    (cm : List (String × UserEmbedColor)) (writeOk sendOk : Nat → Bool) (i : Nat)
    (user u : MonitoredUser) (q : String) (ok : Bool)
    (h : Effect.UpdateLastPostID u q ok ∈ postNotify b latestPost cm writeOk sendOk i user) :
    u = user ∧ q = latestPost.ID ∧ ok = writeOk i ∧ latestPost.ID ≠ user.LastPostID := by
  unfold postNotify at h
  by_cases hne : latestPost.ID = user.LastPostID
  · simp [hne] at h
  · cases hw : writeOk i
    · simp [hne, hw] at h
      obtain ⟨h1, h2, h3⟩ := h
      exact ⟨h1, h2, h3, hne⟩
    · simp only [hne, hw, ne_eq, not_false_eq_true, if_true, List.mem_append, List.mem_cons,
        List.mem_singleton, List.not_mem_nil, or_false] at h
      rcases h with (h | h) | h | h | h
      · cases h
        exact ⟨rfl, rfl, rfl, hne⟩
      · rcases mem_formatNotificationMessage _ _ _ _ _ _ _ h with h | h <;> cases h
      · cases h
      · cases h
      · split at h <;> cases h

/-- The content writes of a run that fetched a non-empty list all carry the
newest fetched ID. -/
theorem updateLastPostID_mem_checkUserPostsOptimized (b : Bot) (writeOk sendOk : Nat → Bool)
    (userEntries : List MonitoredUser) (p : MonitoredUser) (latestPost : Post) (rest : List Post)
    (hp : (userEntries.filter fun user => user.PostsEnabled).head? = some p)
    (hf : b.APIClient.GetTimelinePost p.UserID = .ok (latestPost :: rest))
    (u : MonitoredUser) (q : String) (ok : Bool)
    (h : Effect.UpdateLastPostID u q ok ∈ checkUserPostsOptimized b writeOk sendOk userEntries) :
    q = latestPost.ID := by
  rw [checkUserPostsOptimized_ok b writeOk sendOk userEntries p latestPost rest hp hf] at h
  rcases List.mem_append.mp h with h | h
  · rcases List.mem_append.mp h with h | h
    · simp at h
    · rcases mem_fetchColors _ _ _ h with h | h <;> cases h
  · obtain ⟨j, x, _, hx⟩ := (mem_forRange _ _ _ _).mp h
    exact (updateLastPostID_mem_postNotify _ _ _ _ _ _ _ _ _ _ hx).2.1

theorem filter_postsEnabled_persist (trace : List Effect) (rows : List MonitoredUser) :
    (persist rows trace).filter (fun user => user.PostsEnabled) =
      (rows.filter fun user => user.PostsEnabled).map fun r => trace.foldl persistRow r := by
  rw [persist_eq_map, List.filter_map]
  congr 1
  apply List.filter_congr
  intro x _
  exact (foldl_persistRow_fields trace x).2.2.1

theorem filter_liveEnabled_persist (trace : List Effect) (rows : List MonitoredUser) :
    (persist rows trace).filter (fun user => user.LiveEnabled) =
      (rows.filter fun user => user.LiveEnabled).map fun r => trace.foldl persistRow r := by
  rw [persist_eq_map, List.filter_map]
  congr 1
  apply List.filter_congr
  intro x _
  exact (foldl_persistRow_fields trace x).2.2.2

theorem sendsFollow_of_sends_nil (w : MonitoredUser → Effect) (trace : List Effect)
    (h : sends trace = []) : SendsFollow w trace := by
  intro pre post user channel content embed ok ht
  rw [ht, sends_append, sends_cons] at h
  simp [Effect.sendTo] at h

theorem sendsFollow_append (w : MonitoredUser → Effect) (s t : List Effect)
    (hs : SendsFollow w s) (ht : SendsFollow w t) : SendsFollow w (s ++ t) := by
  intro pre post user channel content embed ok h
  rcases List.append_eq_append_iff.mp h with ⟨a, ha, hb⟩ | ⟨c, hc, hd⟩
  · obtain ⟨before, mid, hpre, h1, h2⟩ := ht a post user channel content embed ok hb
    exact ⟨s ++ before, mid, by rw [ha, hpre, List.append_assoc], h1, h2⟩
  · cases c with
    | nil =>
      simp only [List.append_nil, List.nil_append] at hc hd
      obtain ⟨before, mid, hpre, h1, h2⟩ := ht [] post user channel content embed ok hd.symm
      simp at hpre
    | cons e c =>
      simp only [List.cons_append, List.cons.injEq] at hd
      obtain ⟨he, _⟩ := hd
      subst he
      exact hs pre c user channel content embed ok hc

theorem sendsFollow_forRange {α : Type} (w : MonitoredUser → Effect)
    (body : Nat → α → List Effect) (h : ∀ j x, SendsFollow w (body j x)) :
    ∀ (xs : List α) (i : Nat), SendsFollow w (forRange body i xs)
  | [], _ => sendsFollow_of_sends_nil w _ rfl
  | x :: xs, i => by
    rw [forRange]
    exact sendsFollow_append w _ _ (h i x) (sendsFollow_forRange w body h xs (i + 1))

/-- A trace with a single send splits at that send in one way only. -/
theorem split_at_only_send (e0 e : Effect) :
    ∀ (a pre : List Effect) (b post : List Effect),
      sends a = [] → sends b = [] → e.sendTo ≠ none →
      a ++ e0 :: b = pre ++ e :: post → pre = a := by
  intro a
  induction a with
  | nil =>
    intro pre b post _ hb he h
    cases pre with
    | nil => rfl
    | cons x pre =>
      simp only [List.nil_append, List.cons_append, List.cons.injEq] at h
      rw [h.2, sends_append, sends_cons] at hb
      cases hs : e.sendTo with
      | none => exact absurd hs he
      | some u => simp [hs] at hb
  | cons x a ih =>
    intro pre b post ha hb he h
    rw [sends_cons] at ha
    cases pre with
    | nil =>
      simp only [List.nil_append, List.cons_append, List.cons.injEq] at h
      rw [h.1] at ha
      cases hs : e.sendTo with
      | none => exact absurd hs he
      | some u => simp [hs] at ha
    | cons y pre =>
      simp only [List.cons_append, List.cons.injEq] at h
      have hsa : sends a = [] := by
        cases hx : x.sendTo <;> simp [hx] at ha
        exact ha
      rw [h.1, ih pre b post hsa hb he h.2]

/-- A loop body of the form: own write, calls that neither write nor send,
the send, one closing call. -/
theorem sendsFollow_guarded (w : MonitoredUser → Effect) (user : MonitoredUser)
    (m : List Effect) (channel content : String) (embed : MessageEmbed) (ok : Bool) (x : Effect)
    (hw : (w user).sendTo = none) (hm : sends m = []) (hm2 : watermarkWrites m = [])
    (hx : x.sendTo = none) :
    SendsFollow w
      (w user :: m ++ [Effect.ChannelMessageSendComplex user channel content embed ok, x]) := by
  intro pre post u c1 c2 c3 c4 h
  have hsplit := split_at_only_send _ _ (w user :: m) pre [x] post
    (by rw [sends_cons, hw, hm]; rfl) (by rw [sends_cons, hx]; rfl)
    (by simp [Effect.sendTo]) h
  subst hsplit
  have h2 := List.append_cancel_left h
  injection h2 with h3 _
  injection h3 with hu
  subst hu
  exact ⟨[], m, rfl, hm, hm2⟩

theorem sendsFollow_liveNotify (b : Bot) (si : StreamResponse)
    (cm : List (String × UserEmbedColor)) (writeOk sendOk : Nat → Bool) (i : Nat)
    (user : MonitoredUser) :
    SendsFollow (fun u => .UpdateLastStreamStart u si.Response.Stream.StartedAt true)
      (liveNotify b si cm writeOk sendOk i user) := by
  cases hw : writeOk i
  · apply sendsFollow_of_sends_nil
    rw [sends_liveNotify, hw]
    rfl
  · simp only [liveNotify, hw, if_true, List.singleton_append]
    apply sendsFollow_guarded
    · rfl
    · exact sends_formatNotificationMessage _ _ _ _ _ _
    · exact watermarkWrites_formatNotificationMessage _ _ _ _ _ _
    · cases sendOk i <;> rfl

theorem sendsFollow_postNotify (b : Bot) (latestPost : Post)
    (cm : List (String × UserEmbedColor)) (writeOk sendOk : Nat → Bool) (i : Nat)
    (user : MonitoredUser) :
    SendsFollow (fun u => .UpdateLastPostID u latestPost.ID true)
      (postNotify b latestPost cm writeOk sendOk i user) := by
  by_cases hsend : (decide (latestPost.ID ≠ user.LastPostID) && writeOk i) = true
  · simp only [Bool.and_eq_true, decide_eq_true_eq] at hsend
    obtain ⟨hne, hw⟩ := hsend
    have hshape : postNotify b latestPost cm writeOk sendOk i user =
        Effect.UpdateLastPostID user latestPost.ID true ::
          ((formatNotificationMessage b user.GuildID user.UserID user.Username
              user.PostMentionRole "{postMention}").1 ++
            [Effect.logFirstPost user (decide (user.LastPostID = "" ∨ user.LastPostID = "0"))]) ++
          [Effect.ChannelMessageSendComplex user
              (if user.PostNotificationChannel = "" then user.NotificationChannel
                else user.PostNotificationChannel)
              (formatNotificationMessage b user.GuildID user.UserID user.Username
                user.PostMentionRole "{postMention}").2
              (CreatePostEmbed user.Username latestPost user.AvatarLocation
                (match cm.lookup user.GuildID with
                  | some colorSetting => colorSetting.PostEmbedColor
                  | none => 0))
              (sendOk i),
            if sendOk i then Effect.IncrementPostCount
            else Effect.logNotificationError "post" user
              (if user.PostNotificationChannel = "" then user.NotificationChannel
                else user.PostNotificationChannel)] := by
      simp only [postNotify, if_pos hne, hw, if_true]
      simp
    rw [hshape]
    apply sendsFollow_guarded
    · rfl
    · simp [sends_append, sends_cons, sends_nil, Effect.sendTo, sends_formatNotificationMessage]
    · simp [watermarkWrites_append, watermarkWrites_cons, watermarkWrites_nil, Effect.writeFor,
        watermarkWrites_formatNotificationMessage]
    · cases sendOk i <;> rfl
  · apply sendsFollow_of_sends_nil
    rw [sends_postNotify, if_neg hsend]

/-! ## Grouping -/

theorem lookup_mapSet (k : String) (v : List MonitoredUser) (k2 : String) :
    ∀ m : List (String × List MonitoredUser),
      (mapSet k v m).lookup k2 = if k2 = k then some v else m.lookup k2
  | [] => by
    by_cases h : k2 = k
    · simp [mapSet, h]
    · have hb : (k2 == k) = false := by simpa using h
      simp [mapSet, h, List.lookup, hb]
  | e :: rest => by
    obtain ⟨ek, ev⟩ := e
    by_cases he : ek = k
    · subst he
      by_cases h : k2 = ek
      · simp [mapSet, h]
      · have hb : (k2 == ek) = false := by simpa using h
        simp [mapSet, h, List.lookup_cons, hb]
    · by_cases h : k2 = k
      · subst h
        have hne : (k2 == ek) = false := by simpa using Ne.symm he
        simp [mapSet, he, List.lookup_cons, hne, lookup_mapSet k2 v k2 rest]
      · simp only [mapSet, he, if_false, List.lookup_cons, lookup_mapSet k v k2 rest, h]

theorem keys_mapSet (k : String) (v : List MonitoredUser) :
    ∀ m : List (String × List MonitoredUser),
      (mapSet k v m).map Prod.fst =
        if k ∈ m.map Prod.fst then m.map Prod.fst else m.map Prod.fst ++ [k]
  | [] => by simp [mapSet]
  | e :: rest => by
    obtain ⟨ek, ev⟩ := e
    by_cases he : ek = k
    · subst he
      simp [mapSet]
    · have hne : ¬ k = ek := fun h => he h.symm
      simp only [mapSet, he, if_false, List.map_cons, keys_mapSet k v rest, List.mem_cons, hne,
        false_or]
      split <;> simp

theorem lookup_of_mem_of_nodup :
    ∀ (m : List (String × List MonitoredUser)) (e : String × List MonitoredUser),
      (m.map Prod.fst).Nodup → e ∈ m → m.lookup e.1 = some e.2
  | [], _, _, h => by simp at h
  | x :: rest, e, hnd, h => by
    obtain ⟨xk, xv⟩ := x
    simp only [List.map_cons, List.nodup_cons] at hnd
    rcases List.mem_cons.mp h with h | h
    · subst h
      simp
    · have hne : e.1 ≠ xk := by
        intro heq
        exact hnd.1 (heq ▸ List.mem_map_of_mem Prod.fst h)
      have hb : (e.1 == xk) = false := by simpa using hne
      rw [List.lookup_cons, hb]
      exact lookup_of_mem_of_nodup rest e hnd.2 h

theorem userGroups_append (users : List MonitoredUser) (u : MonitoredUser) :
    userGroups (users ++ [u]) =
      mapSet u.UserID (mapGet (userGroups users) u.UserID ++ [u]) (userGroups users) := by
  simp [userGroups, List.foldl_append]

/-- The map built by the dispatch loop: its keys are distinct, they are the
entity IDs of the input, and the slice under a key is the input filtered to
that entity, in input order. -/
theorem userGroups_spec (users : List MonitoredUser) :
    ((userGroups users).map Prod.fst).Nodup ∧
    (∀ k, k ∈ (userGroups users).map Prod.fst ↔ k ∈ users.map fun u => u.UserID) ∧
    (∀ k, mapGet (userGroups users) k = users.filter fun u => decide (u.UserID = k)) := by
  induction users using List.reverseRecOn with
  | nil => simp [userGroups, mapGet]
  | append_singleton users u ih =>
    obtain ⟨hnd, hkeys, hget⟩ := ih
    rw [userGroups_append]
    refine ⟨?_, ?_, ?_⟩
    · rw [keys_mapSet]
      split
      · exact hnd
      · rename_i hk
        exact List.Nodup.append hnd (List.nodup_singleton _) (by simpa using hk)
    · intro k
      rw [keys_mapSet]
      split
      · rename_i hk
        simp only [List.map_append, List.mem_append, List.map_cons, List.map_nil,
          List.mem_singleton, hkeys k]
        constructor
        · exact Or.inl
        · rintro (h | h)
          · exact h
          · rw [h]; exact (hkeys _).mp hk
      · simp only [List.map_append, List.mem_append, List.map_cons, List.map_nil,
          List.mem_singleton, hkeys k]
    · intro k
      unfold mapGet
      rw [lookup_mapSet, List.filter_append]
      by_cases hk : k = u.UserID
      · subst hk
        simp only [if_true, Option.getD_some]
        have := hget u.UserID
        unfold mapGet at this
        rw [this]
        simp
      · have := hget k
        unfold mapGet at this
        simp only [hk, if_false, this]
        have hne : ¬ u.UserID = k := fun h => hk h.symm
        simp [hne]

/-- The work items of a dispatch are the input filtered to each of a list of
distinct keys, the entity IDs of the input. -/
theorem dispatchMonitoringJobs_eq (b : Bot) (users : List MonitoredUser)
    (h : b.Repo.GetMonitoredUsers = .ok users) :
    ∃ ks : List String, ks.Nodup ∧ (∀ k, k ∈ ks ↔ k ∈ users.map fun u => u.UserID) ∧
      dispatchMonitoringJobs b = ks.map fun k => users.filter fun u => decide (u.UserID = k) := by
  obtain ⟨hnd, hkeys, hget⟩ := userGroups_spec users
  refine ⟨(userGroups users).map Prod.fst, hnd, hkeys, ?_⟩
  simp only [dispatchMonitoringJobs, h, List.map_map]
  apply List.map_congr_left
  intro e he
  have h1 := lookup_of_mem_of_nodup _ e hnd he
  have h2 := hget e.1
  unfold mapGet at h2
  rw [h1] at h2
  simpa using h2

/-! ## Fetches -/

theorem fetches_append (s t : List Effect) : fetches (s ++ t) = fetches s ++ fetches t := by
  simp [fetches]

theorem fetches_formatNotificationMessage (b : Bot) (g u n m p : String) :
    fetches (formatNotificationMessage b g u n m p).1 = [] := by
  unfold formatNotificationMessage
  cases b.Repo.GetNotificationFormats g u <;> simp [fetches, Effect.isFetch]

theorem fetches_fetchColors (b : Bot) (u : String) : fetches (fetchColors b u).1 = [] := by
  unfold fetchColors
  cases b.Repo.GetEmbedColorsForUser u <;> simp [fetches, Effect.isFetch]

theorem fetches_forRange {α : Type} (body : Nat → α → List Effect)
    (h : ∀ j x, fetches (body j x) = []) :
    ∀ (xs : List α) (i : Nat), fetches (forRange body i xs) = []
  | [], _ => rfl
  | x :: xs, i => by
    rw [forRange, fetches_append, h, fetches_forRange body h xs (i + 1)]
    rfl

theorem fetches_cons (e : Effect) (t : List Effect) :
    fetches (e :: t) = if e.isFetch then e :: fetches t else fetches t := by
  simp only [fetches, List.filter_cons]

theorem fetches_nil : fetches [] = [] := rfl

theorem fetches_liveNotify (b : Bot) (si : StreamResponse) (cm : List (String × UserEmbedColor))
    (writeOk sendOk : Nat → Bool) (i : Nat) (user : MonitoredUser) :
    fetches (liveNotify b si cm writeOk sendOk i user) = [] := by
  cases hw : writeOk i <;> cases hs : sendOk i <;>
    simp [liveNotify, hw, hs, fetches_append, fetches_cons, fetches_nil, Effect.isFetch,
      fetches_formatNotificationMessage]

theorem fetches_postNotify (b : Bot) (latestPost : Post) (cm : List (String × UserEmbedColor))
    (writeOk sendOk : Nat → Bool) (i : Nat) (user : MonitoredUser) :
    fetches (postNotify b latestPost cm writeOk sendOk i user) = [] := by
  by_cases hne : latestPost.ID = user.LastPostID
  · simp [postNotify, hne, fetches_nil]
  · cases hw : writeOk i <;> cases hs : sendOk i <;>
      simp [postNotify, hne, hw, hs, fetches_append, fetches_cons, fetches_nil, Effect.isFetch,
        fetches_formatNotificationMessage]

/-- The live detector issues one stream-state fetch, for the entity of the
first live-enabled registration, and none when no registration is
live-enabled. -/
theorem fetches_checkUserLiveStreamOptimized (b : Bot) (writeOk sendOk : Nat → Bool)
    (userEntries : List MonitoredUser) :
    fetches (checkUserLiveStreamOptimized b writeOk sendOk userEntries) =
      match (userEntries.filter fun user => user.LiveEnabled).head? with
      | some p => [.GetStreamInfo p.UserID]
      | none => [] := by
  cases hl : userEntries.filter fun user => user.LiveEnabled with
  | nil => simp [checkUserLiveStreamOptimized, hl, fetches]
  | cons p tl =>
    have hp : (userEntries.filter fun user => user.LiveEnabled).head? = some p := by
      rw [hl]; rfl
    cases hf : b.APIClient.GetStreamInfo p.UserID with
    | error err => simp [checkUserLiveStreamOptimized, hl, hf, fetches, Effect.isFetch]
    | ok si =>
      rw [checkUserLiveStreamOptimized_ok b writeOk sendOk userEntries p si hp hf, hl,
        fetches_append, fetches_append, fetches_fetchColors]
      have hloop : fetches (if si.Response.Stream.Status = 2 ∧
          si.Response.Stream.StartedAt > p.LastStreamStart then
            forRange (liveNotify b si (fetchColors b p.UserID).2 writeOk sendOk) 0 (p :: tl)
          else []) = [] := by
        split
        · exact fetches_forRange _ (fetches_liveNotify b si _ writeOk sendOk) _ 0
        · rfl
      rw [hloop]
      simp [fetches, Effect.isFetch]

/-- The content detector issues one content fetch, for the entity of the first
posts-enabled registration, and none when no registration is posts-enabled. -/
theorem fetches_checkUserPostsOptimized (b : Bot) (writeOk sendOk : Nat → Bool)
    (userEntries : List MonitoredUser) :
    fetches (checkUserPostsOptimized b writeOk sendOk userEntries) =
      match (userEntries.filter fun user => user.PostsEnabled).head? with
      | some p => [.GetTimelinePost p.UserID]
      | none => [] := by
  cases hl : userEntries.filter fun user => user.PostsEnabled with
  | nil => simp [checkUserPostsOptimized, hl, fetches]
  | cons p tl =>
    have hp : (userEntries.filter fun user => user.PostsEnabled).head? = some p := by
      rw [hl]; rfl
    cases hf : b.APIClient.GetTimelinePost p.UserID with
    | error err => simp [checkUserPostsOptimized, hl, hf, fetches, Effect.isFetch]
    | ok posts =>
      cases posts with
      | nil => simp [checkUserPostsOptimized, hl, hf, fetches, Effect.isFetch]
      | cons latestPost rest =>
        rw [checkUserPostsOptimized_ok b writeOk sendOk userEntries p latestPost rest hp hf, hl,
          fetches_append, fetches_append, fetches_fetchColors,
          fetches_forRange _ (fetches_postNotify b latestPost _ writeOk sendOk) _ 0]
        simp [fetches, Effect.isFetch]

theorem fetches_refreshAvatar (b : Bot) (cfg : Config) (now : Int) (o : Outcomes)
    (primaryUser : MonitoredUser) (userEntries : List MonitoredUser) :
    fetches (refreshAvatar b cfg now o primaryUser userEntries).1 = [] := by
  simp only [refreshAvatar]
  split_ifs with hc
  · split
    · rename_i fx e heq
      simp only [refreshAvatarURL, Prod.mk.injEq] at heq
      rw [← heq.1]
      simp [fetches, Effect.isFetch]
    · rename_i fx newAvatarLocation heq
      simp only [refreshAvatarURL, Prod.mk.injEq] at heq
      rw [← heq.1, fetches_append, fetches_forRange]
      · simp [fetches, Effect.isFetch]
      · intro j x
        split <;> simp [fetches, Effect.isFetch]
  · rfl

/-- The avatar step keeps the entity ID of every registration of the item. -/
theorem userID_refreshAvatar (b : Bot) (cfg : Config) (now : Int) (o : Outcomes)
    (primaryUser : MonitoredUser) (userEntries : List MonitoredUser) (p : MonitoredUser)
    (hp : p ∈ (refreshAvatar b cfg now o primaryUser userEntries).2) :
    ∃ u ∈ userEntries, u.UserID = p.UserID := by
  simp only [refreshAvatar] at hp
  split_ifs at hp with hc
  · split at hp
    · exact ⟨p, hp, rfl⟩
    · obtain ⟨u, hu, rfl⟩ := List.mem_map.mp hp
      exact ⟨u, hu, rfl⟩
  · exact ⟨p, hp, rfl⟩

theorem count_eq_count_fetches (e : Effect) (he : e.isFetch = true) (t : List Effect) :
    t.count e = (fetches t).count e :=
  (List.count_filter he).symm

/-- One worker iteration issues a given fetch for entity `k` at most once, and
only when the item holds a registration of entity `k`. -/
theorem count_fetch_workerIteration (b : Bot) (cfg : Config) (now : Int) (o : Outcomes)
    (userEntries : List MonitoredUser) (k : String) (e : Effect)
    (he : e = .GetStreamInfo k ∨ e = .GetTimelinePost k) :
    ((workerIteration b cfg now o userEntries).getD []).count e ≤
      if userEntries.any (fun u => decide (u.UserID = k)) then 1 else 0 := by
  cases userEntries with
  | nil => simp [workerIteration]
  | cons q rest =>
    have hfetch : e.isFetch = true := by rcases he with rfl | rfl <;> rfl
    simp only [workerIteration, Option.getD_some]
    rw [count_eq_count_fetches e hfetch, fetches_append, fetches_append, fetches_refreshAvatar,
      fetches_checkUserLiveStreamOptimized, fetches_checkUserPostsOptimized, List.nil_append,
      List.count_append]
    have hany : ∀ p, p ∈ (refreshAvatar b cfg now o q (q :: rest)).2 → p.UserID = k →
        (q :: rest).any (fun u => decide (u.UserID = k)) = true := by
      intro p hp hk
      obtain ⟨u, hu, huk⟩ := userID_refreshAvatar b cfg now o q (q :: rest) p hp
      exact List.any_eq_true.mpr ⟨u, hu, by simpa using huk.trans hk⟩
    have hlive : ∀ p, (List.filter (fun user => user.LiveEnabled)
        (refreshAvatar b cfg now o q (q :: rest)).2).head? = some p →
        p ∈ (refreshAvatar b cfg now o q (q :: rest)).2 :=
      fun p hp => (List.mem_filter.mp (List.mem_of_mem_head? hp)).1
    have hpost : ∀ p, (List.filter (fun user => user.PostsEnabled)
        (refreshAvatar b cfg now o q (q :: rest)).2).head? = some p →
        p ∈ (refreshAvatar b cfg now o q (q :: rest)).2 :=
      fun p hp => (List.mem_filter.mp (List.mem_of_mem_head? hp)).1
    rcases he with rfl | rfl
    · have h2 : List.count (Effect.GetStreamInfo k)
          (match (List.filter (fun user => user.PostsEnabled)
              (refreshAvatar b cfg now o q (q :: rest)).2).head? with
            | some p => [Effect.GetTimelinePost p.UserID]
            | none => []) = 0 := by
        split <;> simp
      rw [h2, Nat.add_zero]
      cases hh : (List.filter (fun user => user.LiveEnabled)
          (refreshAvatar b cfg now o q (q :: rest)).2).head? with
      | none => simp
      | some p =>
        by_cases hk : p.UserID = k
        · rw [hany p (hlive p hh) hk]
          simp [hk]
        · have : ¬ k = p.UserID := fun h => hk h.symm
          simp [List.count_cons, hk]
    · have h2 : List.count (Effect.GetTimelinePost k)
          (match (List.filter (fun user => user.LiveEnabled)
              (refreshAvatar b cfg now o q (q :: rest)).2).head? with
            | some p => [Effect.GetStreamInfo p.UserID]
            | none => []) = 0 := by
        split <;> simp
      rw [h2, Nat.zero_add]
      cases hh : (List.filter (fun user => user.PostsEnabled)
          (refreshAvatar b cfg now o q (q :: rest)).2).head? with
      | none => simp
      | some p =>
        by_cases hk : p.UserID = k
        · rw [hany p (hpost p hh) hk]
          simp [hk]
        · have : ¬ k = p.UserID := fun h => hk h.symm
          simp [List.count_cons, hk]

theorem count_fetch_cycleEffects (b : Bot) (cfg : Config) (k : String) (e : Effect)
    (he : e = .GetStreamInfo k ∨ e = .GetTimelinePost k) :
    ∀ runs : List (Int × Outcomes × List MonitoredUser),
      (cycleEffects b cfg runs).count e ≤
        ((runs.map fun r => r.2.2).map fun item : List MonitoredUser =>
          if item.any (fun u => decide (u.UserID = k)) then 1 else 0).sum
  | [] => by simp [cycleEffects]
  | (now, o, userEntries) :: runs => by
    rw [cycleEffects, List.count_append]
    simp only [List.map_cons, List.sum_cons]
    exact Nat.add_le_add (count_fetch_workerIteration b cfg now o userEntries k e he)
      (count_fetch_cycleEffects b cfg k e he runs)

theorem sum_groups_le_count (users : List MonitoredUser) (k : String) :
    ∀ ks : List String,
      ((ks.map fun k2 => users.filter fun u => decide (u.UserID = k2)).map
        fun item : List MonitoredUser =>
          if item.any (fun u => decide (u.UserID = k)) then 1 else 0).sum ≤ ks.count k
  | [] => by simp
  | k2 :: ks => by
    simp only [List.map_cons, List.sum_cons, List.count_cons]
    have ih := sum_groups_le_count users k ks
    by_cases hk : k2 = k
    · subst hk
      have h1 : (if (users.filter fun u => decide (u.UserID = k2)).any
          (fun u => decide (u.UserID = k2)) = true then 1 else 0) ≤ 1 := by
        split <;> simp
      simp only [beq_self_eq_true, if_true]
      omega
    · have h0 : (users.filter fun u => decide (u.UserID = k2)).any
          (fun u => decide (u.UserID = k)) = false := by
        rw [List.any_eq_false]
        intro u hu
        have h2 : u.UserID = k2 := by simpa using (List.mem_filter.mp hu).2
        simp [h2, hk]
      have hb : (k2 == k) = false := by simpa using hk
      simp only [h0, hb]
      simpa using ih

theorem dispatch_sampleUsers :
    dispatchMonitoringJobs (sampleBotWith sampleUsers) =
      [[sampleUser "g1" 0 "", sampleUser "g3" 0 ""],
        [{ sampleUser "g2" 0 "" with UserID := "f" }]] := by
  decide

/-! ## Membership in detector traces -/

/-- The calls of one iteration of the live loop. -/
theorem mem_liveNotify (b : Bot) (si : StreamResponse) (cm : List (String × UserEmbedColor))
    (writeOk sendOk : Nat → Bool) (i : Nat) (user : MonitoredUser) (e : Effect)
    (h : e ∈ liveNotify b si cm writeOk sendOk i user) :
    e = .UpdateLastStreamStart user si.Response.Stream.StartedAt (writeOk i) ∨
    e = .logError "Error updating last stream start" ∨
    e = .GetNotificationFormats user.GuildID user.UserID ∨
    e = .logError "Could not fetch notification formats" ∨
    (writeOk i = true ∧ ∃ content color, e = .ChannelMessageSendComplex user
      (if user.LiveNotificationChannel = "" then user.NotificationChannel
        else user.LiveNotificationChannel)
      content
      (.liveStream user.Username si user.AvatarLocation user.LiveImageURL color) (sendOk i)) ∨
    e = .IncrementLiveCount ∨
    (∃ channel, e = .logNotificationError "live stream" user channel) := by
  unfold liveNotify at h
  cases hw : writeOk i
  · simp only [hw, Bool.false_eq_true, if_false, List.mem_cons, List.mem_singleton,
      List.not_mem_nil, or_false] at h
    rcases h with h | h
    · left; exact h
    · right; left; exact h
  · simp only [hw, if_true, List.mem_append, List.mem_cons, List.mem_singleton,
      List.not_mem_nil, or_false] at h
    rcases h with (h | h) | h | h
    · left; exact h
    · rcases mem_formatNotificationMessage _ _ _ _ _ _ _ h with h | h
      · right; right; left; exact h
      · right; right; right; left; exact h
    · right; right; right; right; left
      exact ⟨rfl, _, _, h⟩
    · cases hs : sendOk i
      · simp only [hs, Bool.false_eq_true, if_false] at h
        right; right; right; right; right; right
        exact ⟨_, h⟩
      · simp only [hs, if_true] at h
        right; right; right; right; right; left
        exact h

/-- The calls of one iteration of the content loop. -/
theorem mem_postNotify (b : Bot) (latestPost : Post) (cm : List (String × UserEmbedColor))
    (writeOk sendOk : Nat → Bool) (i : Nat) (user : MonitoredUser) (e : Effect)
    (h : e ∈ postNotify b latestPost cm writeOk sendOk i user) :
    latestPost.ID ≠ user.LastPostID ∧
    (e = .UpdateLastPostID user latestPost.ID (writeOk i) ∨
    e = .logError "Error updating last post ID" ∨
    e = .GetNotificationFormats user.GuildID user.UserID ∨
    e = .logError "Could not fetch notification formats" ∨
    (∃ flag, e = .logFirstPost user flag) ∨
    (writeOk i = true ∧ ∃ content color, e = .ChannelMessageSendComplex user
      (if user.PostNotificationChannel = "" then user.NotificationChannel
        else user.PostNotificationChannel)
      content (.post user.Username latestPost user.AvatarLocation color) (sendOk i)) ∨
    e = .IncrementPostCount ∨
    (∃ channel, e = .logNotificationError "post" user channel)) := by
  unfold postNotify at h
  by_cases hne : latestPost.ID = user.LastPostID
  · simp [hne] at h
  · refine ⟨hne, ?_⟩
    rw [if_pos hne] at h
    cases hw : writeOk i
    · simp only [hw, Bool.false_eq_true, if_false, List.mem_cons, List.mem_singleton,
        List.not_mem_nil, or_false] at h
      rcases h with h | h
      · left; exact h
      · right; left; exact h
    · simp only [hw, if_true, List.mem_append, List.mem_cons, List.mem_singleton,
        List.not_mem_nil, or_false] at h
      rcases h with (h | h) | h | h | h
      · left; exact h
      · rcases mem_formatNotificationMessage _ _ _ _ _ _ _ h with h | h
        · right; right; left; exact h
        · right; right; right; left; exact h
      · right; right; right; right; left
        exact ⟨_, h⟩
      · right; right; right; right; right; left
        exact ⟨rfl, _, _, h⟩
      · cases hs : sendOk i
        · simp only [hs, Bool.false_eq_true, if_false] at h
          right; right; right; right; right; right; right
          exact ⟨_, h⟩
        · simp only [hs, if_true] at h
          right; right; right; right; right; right; left
          exact h

/-- A call of a live run is the fetch, its error log, a colour lookup, or a
call of a loop iteration for a live-enabled registration of the item. -/
theorem mem_checkUserLiveStreamOptimized (b : Bot) (writeOk sendOk : Nat → Bool)
    (userEntries : List MonitoredUser) (e : Effect)
    (h : e ∈ checkUserLiveStreamOptimized b writeOk sendOk userEntries) :
    ∃ p, (userEntries.filter fun user => user.LiveEnabled).head? = some p ∧
      (e = .GetStreamInfo p.UserID ∨
      ((∃ err, b.APIClient.GetStreamInfo p.UserID = .error err) ∧
        e = .logError "Error fetching stream info") ∨
      e = .GetEmbedColorsForUser p.UserID ∨ e = .logError "Could not fetch embed colors" ∨
      ∃ si i user, b.APIClient.GetStreamInfo p.UserID = .ok si ∧
        (si.Response.Stream.Status = 2 ∧ si.Response.Stream.StartedAt > p.LastStreamStart) ∧
        (userEntries.filter fun user => user.LiveEnabled)[i]? = some user ∧
        e ∈ liveNotify b si (fetchColors b p.UserID).2 writeOk sendOk i user) := by
  cases hl : userEntries.filter fun user => user.LiveEnabled with
  | nil => simp [checkUserLiveStreamOptimized, hl] at h
  | cons p tl =>
    have hp : (userEntries.filter fun user => user.LiveEnabled).head? = some p := by
      rw [hl]; rfl
    refine ⟨p, rfl, ?_⟩
    cases hf : b.APIClient.GetStreamInfo p.UserID with
    | error err =>
      simp only [checkUserLiveStreamOptimized, hl, hf, List.mem_cons, List.mem_singleton,
        List.not_mem_nil, or_false] at h
      rcases h with h | h
      · left; exact h
      · right; left; exact ⟨⟨err, rfl⟩, h⟩
    | ok si =>
      rw [checkUserLiveStreamOptimized_ok b writeOk sendOk userEntries p si hp hf] at h
      rcases List.mem_append.mp h with h | h
      · rcases List.mem_append.mp h with h | h
        · left; simpa using h
        · rcases mem_fetchColors _ _ _ h with h | h
          · right; right; left; exact h
          · right; right; right; left; exact h
      · right; right; right; right
        split at h
        · rename_i hfire
          obtain ⟨j, x, hj, hx⟩ := (mem_forRange _ _ _ _).mp h
          rw [hl] at hj
          exact ⟨si, j, x, rfl, hfire, hj, by simpa using hx⟩
        · simp at h

/-- A call of a content run is the fetch, its error log, a colour lookup, or a
call of a loop iteration for a posts-enabled registration of the item. -/
theorem mem_checkUserPostsOptimized (b : Bot) (writeOk sendOk : Nat → Bool)
    (userEntries : List MonitoredUser) (e : Effect)
    (h : e ∈ checkUserPostsOptimized b writeOk sendOk userEntries) :
    ∃ p, (userEntries.filter fun user => user.PostsEnabled).head? = some p ∧
      (e = .GetTimelinePost p.UserID ∨
      ((∃ err, b.APIClient.GetTimelinePost p.UserID = .error err) ∧
        e = .logError "Error fetching post info") ∨
      e = .GetEmbedColorsForUser p.UserID ∨ e = .logError "Could not fetch embed colors" ∨
      ∃ latestPost rest i user, b.APIClient.GetTimelinePost p.UserID = .ok (latestPost :: rest) ∧
        (userEntries.filter fun user => user.PostsEnabled)[i]? = some user ∧
        e ∈ postNotify b latestPost (fetchColors b p.UserID).2 writeOk sendOk i user) := by
  cases hl : userEntries.filter fun user => user.PostsEnabled with
  | nil => simp [checkUserPostsOptimized, hl] at h
  | cons p tl =>
    have hp : (userEntries.filter fun user => user.PostsEnabled).head? = some p := by
      rw [hl]; rfl
    refine ⟨p, rfl, ?_⟩
    cases hf : b.APIClient.GetTimelinePost p.UserID with
    | error err =>
      simp only [checkUserPostsOptimized, hl, hf, List.mem_cons, List.mem_singleton,
        List.not_mem_nil, or_false] at h
      rcases h with h | h
      · left; exact h
      · right; left; exact ⟨⟨err, rfl⟩, h⟩
    | ok posts =>
      cases posts with
      | nil =>
        simp only [checkUserPostsOptimized, hl, hf, List.mem_singleton] at h
        left; exact h
      | cons latestPost rest =>
        rw [checkUserPostsOptimized_ok b writeOk sendOk userEntries p latestPost rest hp hf] at h
        rcases List.mem_append.mp h with h | h
        · rcases List.mem_append.mp h with h | h
          · left; simpa using h
          · rcases mem_fetchColors _ _ _ h with h | h
            · right; right; left; exact h
            · right; right; right; left; exact h
        · right; right; right; right
          obtain ⟨j, x, hj, hx⟩ := (mem_forRange _ _ _ _).mp h
          rw [hl] at hj
          exact ⟨latestPost, rest, j, x, rfl, hj, by simpa using hx⟩

theorem touched_liveNotify (b : Bot) (si : StreamResponse)
    (cm : List (String × UserEmbedColor)) (writeOk sendOk : Nat → Bool) (i : Nat)
    (user u : MonitoredUser) (e : Effect)
    (h : e ∈ liveNotify b si cm writeOk sendOk i user)
    (ht : e.writeFor = some u ∨ e.sendTo = some u) : u = user := by
  rcases mem_liveNotify _ _ _ _ _ _ _ _ h with
    rfl | rfl | rfl | rfl | ⟨_, c, col, rfl⟩ | rfl | ⟨ch, rfl⟩ <;>
    simp [Effect.writeFor, Effect.sendTo] at ht <;> exact ht.symm

theorem touched_postNotify (b : Bot) (latestPost : Post)
    (cm : List (String × UserEmbedColor)) (writeOk sendOk : Nat → Bool) (i : Nat)
    (user u : MonitoredUser) (e : Effect)
    (h : e ∈ postNotify b latestPost cm writeOk sendOk i user)
    (ht : e.writeFor = some u ∨ e.sendTo = some u) : u = user := by
  rcases (mem_postNotify _ _ _ _ _ _ _ _ h).2 with
    rfl | rfl | rfl | rfl | ⟨fl, rfl⟩ | ⟨_, c, col, rfl⟩ | rfl | ⟨ch, rfl⟩ <;>
    simp [Effect.writeFor, Effect.sendTo] at ht <;> exact ht.symm

theorem touched_checkUserLiveStreamOptimized (b : Bot) (writeOk sendOk : Nat → Bool)
    (userEntries : List MonitoredUser) (u : MonitoredUser) (e : Effect)
    (h : e ∈ checkUserLiveStreamOptimized b writeOk sendOk userEntries)
    (ht : e.writeFor = some u ∨ e.sendTo = some u) :
    u ∈ userEntries ∧ u.LiveEnabled = true := by
  obtain ⟨p, _, hcases⟩ := mem_checkUserLiveStreamOptimized b writeOk sendOk userEntries e h
  rcases hcases with rfl | ⟨_, rfl⟩ | rfl | rfl | ⟨si, i, user, _, _, hi, he⟩
  · simp [Effect.writeFor, Effect.sendTo] at ht
  · simp [Effect.writeFor, Effect.sendTo] at ht
  · simp [Effect.writeFor, Effect.sendTo] at ht
  · simp [Effect.writeFor, Effect.sendTo] at ht
  · have hu := touched_liveNotify _ _ _ _ _ _ _ _ _ he ht
    subst hu
    simpa using List.mem_filter.mp (List.getElem?_mem hi)

theorem touched_checkUserPostsOptimized (b : Bot) (writeOk sendOk : Nat → Bool)
    (userEntries : List MonitoredUser) (u : MonitoredUser) (e : Effect)
    (h : e ∈ checkUserPostsOptimized b writeOk sendOk userEntries)
    (ht : e.writeFor = some u ∨ e.sendTo = some u) :
    u ∈ userEntries ∧ u.PostsEnabled = true := by
  obtain ⟨p, _, hcases⟩ := mem_checkUserPostsOptimized b writeOk sendOk userEntries e h
  rcases hcases with rfl | ⟨_, rfl⟩ | rfl | rfl | ⟨latestPost, rest, i, user, _, hi, he⟩
  · simp [Effect.writeFor, Effect.sendTo] at ht
  · simp [Effect.writeFor, Effect.sendTo] at ht
  · simp [Effect.writeFor, Effect.sendTo] at ht
  · simp [Effect.writeFor, Effect.sendTo] at ht
  · have hu := touched_postNotify _ _ _ _ _ _ _ _ _ he ht
    subst hu
    simpa using List.mem_filter.mp (List.getElem?_mem hi)

/-- The calls of the avatar step. -/
theorem mem_refreshAvatar (b : Bot) (cfg : Config) (now : Int) (o : Outcomes)
    (primaryUser : MonitoredUser) (userEntries : List MonitoredUser) (e : Effect)
    (h : e ∈ (refreshAvatar b cfg now o primaryUser userEntries).1) :
    e = .GetAccountInfo primaryUser.Username ∨ (∃ what, e = .logError what) ∨
      ∃ user avatarLocation ok, e = .UpdateAvatarInfo user avatarLocation ok := by
  simp only [refreshAvatar] at h
  split_ifs at h with hc
  · split at h
    · rename_i fx err heq
      simp only [refreshAvatarURL, Prod.mk.injEq] at heq
      rw [← heq.1] at h
      simp only [List.singleton_append, List.mem_cons, List.mem_singleton, List.not_mem_nil,
        or_false] at h
      rcases h with h | h
      · left; exact h
      · right; left; exact ⟨_, h⟩
    · rename_i fx newAvatarLocation heq
      simp only [refreshAvatarURL, Prod.mk.injEq] at heq
      rw [← heq.1] at h
      rcases List.mem_append.mp h with h | h
      · left; simpa using h
      · obtain ⟨j, x, _, hx⟩ := (mem_forRange _ _ _ _).mp h
        split at hx
        · right; right
          exact ⟨x, newAvatarLocation, true, by simpa using hx⟩
        · simp only [List.mem_cons, List.mem_singleton, List.not_mem_nil, or_false] at hx
          rcases hx with hx | hx
          · right; right
            exact ⟨x, newAvatarLocation, false, hx⟩
          · right; left
            exact ⟨_, hx⟩
  · simp at h

/-- A row keeps its live watermark or takes the one value `ts` when every
successful live write of the trace writes `ts`. -/
theorem foldl_persistRow_lastStreamStart (ts : Int) (trace : List Effect) :
    ∀ r : MonitoredUser,
      (∀ u t, Effect.UpdateLastStreamStart u t true ∈ trace → t = ts) →
      (trace.foldl persistRow r).LastStreamStart = r.LastStreamStart ∨
        (trace.foldl persistRow r).LastStreamStart = ts := by
  induction trace with
  | nil => intro r _; left; rfl
  | cons e t ih =>
    intro r hall
    have ht : ∀ u q, Effect.UpdateLastStreamStart u q true ∈ t → q = ts :=
      fun u q h => hall u q (List.mem_cons_of_mem _ h)
    simp only [List.foldl_cons]
    rcases ih (persistRow r e) ht with h | h
    · rw [h]
      cases e with
      | UpdateLastStreamStart user timestamp ok =>
        cases ok
        · left; rfl
        · have hq := hall user timestamp (List.mem_cons_self _ _)
          subst hq
          simp only [persistRow]
          split
          · right; rfl
          · left; rfl
      | UpdateLastPostID user postID ok =>
        cases ok
        · left; rfl
        · simp only [persistRow]
          split <;> (left; rfl)
      | _ => left; rfl
    · right; exact h

/-- A row takes the value `ts` when the trace holds a successful live write of
`ts` for its key and every successful live write writes `ts`. -/
theorem foldl_persistRow_stream_written (ts : Int) (trace : List Effect) :
    ∀ r : MonitoredUser,
      (∀ u t, Effect.UpdateLastStreamStart u t true ∈ trace → t = ts) →
      (∃ u, Effect.UpdateLastStreamStart u ts true ∈ trace ∧ r.GuildID = u.GuildID ∧
        r.UserID = u.UserID) →
      (trace.foldl persistRow r).LastStreamStart = ts := by
  induction trace with
  | nil => intro r _ h; simp at h
  | cons e t ih =>
    intro r hall hex
    have ht : ∀ u q, Effect.UpdateLastStreamStart u q true ∈ t → q = ts :=
      fun u q h => hall u q (List.mem_cons_of_mem _ h)
    obtain ⟨u, hu, hg, hi⟩ := hex
    simp only [List.foldl_cons]
    rcases List.mem_cons.mp hu with h | h
    · subst h
      rcases foldl_persistRow_lastStreamStart ts t
        (persistRow r (.UpdateLastStreamStart u ts true)) ht with h | h
      · rw [h]
        simp [persistRow, hg, hi]
      · exact h
    · obtain ⟨k1, k2, _, _⟩ := persistRow_fields r e
      exact ih (persistRow r e) ht ⟨u, h, k1.trans hg, k2.trans hi⟩

/-- The live writes of a run all carry the fetched `StartedAt`. -/
theorem updateLastStreamStart_mem_checkUserLiveStreamOptimized (b : Bot)
    (writeOk sendOk : Nat → Bool) (userEntries : List MonitoredUser) (p : MonitoredUser)
    (si : StreamResponse)
    (hp : (userEntries.filter fun user => user.LiveEnabled).head? = some p)
    (hf : b.APIClient.GetStreamInfo p.UserID = .ok si)
    (u : MonitoredUser) (t : Int) (ok : Bool)
    (h : Effect.UpdateLastStreamStart u t ok ∈
      checkUserLiveStreamOptimized b writeOk sendOk userEntries) :
    t = si.Response.Stream.StartedAt := by
  obtain ⟨p2, hp2, hcases⟩ := mem_checkUserLiveStreamOptimized b writeOk sendOk userEntries _ h
  rw [hp] at hp2
  cases hp2
  rcases hcases with h | ⟨_, h⟩ | h | h | ⟨si2, i, user, hok, _, _, he⟩
  · cases h
  · cases h
  · cases h
  · cases h
  · rw [hf] at hok
    cases hok
    rcases mem_liveNotify _ _ _ _ _ _ _ _ he with
      h | h | h | h | ⟨_, c, col, h⟩ | h | ⟨ch, h⟩ <;> cases h
    rfl

theorem keepAt_sublist {α : Type} (p : Nat → α → Bool) :
    ∀ (xs : List α) (i : Nat), (keepAt p i xs).Sublist xs
  | [], _ => List.Sublist.slnil
  | x :: xs, i => by
    rw [keepAt]
    split
    · exact (keepAt_sublist p xs (i + 1)).cons₂ x
    · exact (keepAt_sublist p xs (i + 1)).cons x

/-! ## Health aggregator -/

/-- The counters after a sequence of `RecordCall`s on counters that are
`uint64` values. -/
theorem foldl_RecordCall (calls : List Bool) :
    ∀ a : Aggregator, a.totalRequests < 2 ^ 64 → a.successfulRequests < 2 ^ 64 →
      (calls.foldl Aggregator.RecordCall a).serviceName = a.serviceName ∧
      (calls.foldl Aggregator.RecordCall a).totalRequests =
        (a.totalRequests + calls.length) % 2 ^ 64 ∧
      (calls.foldl Aggregator.RecordCall a).successfulRequests =
        (a.successfulRequests + calls.count true) % 2 ^ 64 := by
  induction calls with
  | nil =>
    intro a h1 h2
    exact ⟨rfl, (Nat.mod_eq_of_lt h1).symm, (Nat.mod_eq_of_lt h2).symm⟩
  | cons c cs ih =>
    intro a h1 h2
    have hm : 0 < 2 ^ 64 := by decide
    cases c
    · obtain ⟨k1, k2, k3⟩ := ih (a.RecordCall false)
        (by simp only [Aggregator.RecordCall, uint64Add]; exact Nat.mod_lt _ hm)
        (by simpa [Aggregator.RecordCall] using h2)
      simp only [List.foldl_cons, List.length_cons]
      refine ⟨k1, ?_, ?_⟩
      · rw [k2]
        simp only [Aggregator.RecordCall, uint64Add, Bool.false_eq_true, if_false,
          Nat.mod_add_mod]
        congr 1
        omega
      · rw [k3]
        simp [Aggregator.RecordCall]
    · obtain ⟨k1, k2, k3⟩ := ih (a.RecordCall true)
        (by simp only [Aggregator.RecordCall, uint64Add, if_true]; exact Nat.mod_lt _ hm)
        (by simp only [Aggregator.RecordCall, uint64Add, if_true]; exact Nat.mod_lt _ hm)
      simp only [List.foldl_cons, List.length_cons]
      refine ⟨k1, ?_, ?_⟩
      · rw [k2]
        simp only [Aggregator.RecordCall, uint64Add, if_true, Nat.mod_add_mod]
        congr 1
        omega
      · rw [k3]
        simp only [Aggregator.RecordCall, uint64Add, if_true, Nat.mod_add_mod,
          List.count_cons_self]
        congr 1
        omega

theorem runHealth_append (ops1 : List HealthOp) :
    ∀ (state : Aggregator × List APIHealthStat) (ops2 : List HealthOp),
      runHealth state (ops1 ++ ops2) = runHealth (runHealth state ops1) ops2 := by
  induction ops1 with
  | nil => intro state ops2; rfl
  | cons op ops ih =>
    intro state ops2
    obtain ⟨a, rows⟩ := state
    cases op
    · exact ih _ ops2
    · exact ih _ ops2

theorem runHealth_records (calls : List Bool) :
    ∀ (a : Aggregator) (rows : List APIHealthStat),
      runHealth (a, rows) (calls.map HealthOp.record) =
        (calls.foldl Aggregator.RecordCall a, rows) := by
  induction calls with
  | nil => intro a rows; rfl
  | cons c cs ih => intro a rows; simp only [List.map_cons, runHealth, ih, List.foldl_cons]

theorem wrapInt64_eq (x : Int) (h1 : -9223372036854775808 ≤ x) (h2 : x < 9223372036854775808) :
    wrapInt64 x = x := by
  have h : wrapInt64 x = (x + 9223372036854775808) % 18446744073709551616 -
      9223372036854775808 := by
    unfold wrapInt64
    norm_num
  rw [h]
  omega

/-- The start-up loop from counter `w` on: with `d` workers still to start
and more fuel than that, it ends and starts the ids `w, w + 1, ...`. -/
theorem startWorkers_spec (n : Int) (hn : n < 9223372036854775807) :
    ∀ (d : Nat) (w : Int) (fuel : Nat), 1 ≤ w → n + 1 - w = d → d < fuel →
      startWorkers n fuel w = some ((List.range d).map fun i : Nat => w + (i : Int)) := by
  intro d
  induction d with
  | zero =>
    intro w fuel _ hd hfuel
    cases fuel with
    | zero => omega
    | succ f =>
      have hw : ¬ w ≤ n := by omega
      simp [startWorkers, hw]
  | succ d ih =>
    intro w fuel hw hd hfuel
    cases fuel with
    | zero => omega
    | succ f =>
      have hle : w ≤ n := by omega
      have hwrap : wrapInt64 (w + 1) = w + 1 := wrapInt64_eq _ (by omega) (by omega)
      simp only [startWorkers, hle, if_true, hwrap]
      rw [ih (w + 1) f (by omega) (by omega) (by omega), List.range_succ_eq_map]
      simp only [Option.map, List.map_cons, List.map_map, Option.some.injEq, List.cons.injEq]
      refine ⟨by simp, ?_⟩
      apply List.map_congr_left
      intro i _
      simp only [Function.comp, Nat.succ_eq_add_one, Nat.cast_add, Nat.cast_one]
      omega

/-! ## Worker iteration -/

theorem sends_eq_nil_of (t : List Effect) (h : ∀ e ∈ t, e.sendTo = none) : sends t = [] := by
  induction t with
  | nil => rfl
  | cons e t ih =>
    rw [sends_cons, h e (List.mem_cons_self _ _), ih fun x hx => h x (List.mem_cons_of_mem _ hx)]
    rfl

theorem watermarkWrites_eq_nil_of (t : List Effect) (h : ∀ e ∈ t, e.writeFor = none) :
    watermarkWrites t = [] := by
  induction t with
  | nil => rfl
  | cons e t ih =>
    rw [watermarkWrites_cons, h e (List.mem_cons_self _ _),
      ih fun x hx => h x (List.mem_cons_of_mem _ hx)]
    rfl

theorem sends_refreshAvatar (b : Bot) (cfg : Config) (now : Int) (o : Outcomes)
    (primaryUser : MonitoredUser) (userEntries : List MonitoredUser) :
    sends (refreshAvatar b cfg now o primaryUser userEntries).1 = [] ∧
      watermarkWrites (refreshAvatar b cfg now o primaryUser userEntries).1 = [] := by
  constructor
  · apply sends_eq_nil_of
    intro e he
    rcases mem_refreshAvatar _ _ _ _ _ _ _ he with rfl | ⟨w, rfl⟩ | ⟨u, a, ok, rfl⟩ <;> rfl
  · apply watermarkWrites_eq_nil_of
    intro e he
    rcases mem_refreshAvatar _ _ _ _ _ _ _ he with rfl | ⟨w, rfl⟩ | ⟨u, a, ok, rfl⟩ <;> rfl

/-- The item after the avatar step: the item itself, or the item with one new
avatar reference in every entry. -/
theorem refreshAvatar_snd (b : Bot) (cfg : Config) (now : Int) (o : Outcomes)
    (primaryUser : MonitoredUser) (userEntries : List MonitoredUser) :
    (refreshAvatar b cfg now o primaryUser userEntries).2 = userEntries ∨
      ∃ newAvatarLocation, (refreshAvatar b cfg now o primaryUser userEntries).2 =
        userEntries.map fun user => { user with AvatarLocation := newAvatarLocation } := by
  simp only [refreshAvatar]
  split_ifs with hc
  · split
    · left; rfl
    · right; exact ⟨_, rfl⟩
  · left; rfl

theorem flags_refreshAvatar (b : Bot) (cfg : Config) (now : Int) (o : Outcomes)
    (primaryUser : MonitoredUser) (userEntries : List MonitoredUser) (p : MonitoredUser)
    (hp : p ∈ (refreshAvatar b cfg now o primaryUser userEntries).2) :
    ∃ u ∈ userEntries, u.LiveEnabled = p.LiveEnabled ∧ u.PostsEnabled = p.PostsEnabled := by
  rcases refreshAvatar_snd b cfg now o primaryUser userEntries with h | ⟨loc, h⟩
  · rw [h] at hp
    exact ⟨p, hp, rfl, rfl⟩
  · rw [h] at hp
    obtain ⟨u, hu, rfl⟩ := List.mem_map.mp hp
    exact ⟨u, hu, rfl, rfl⟩

theorem detectors_noop_of_disabled (b : Bot) (writeOk sendOk : Nat → Bool)
    (userEntries : List MonitoredUser) :
    ((∀ u ∈ userEntries, u.LiveEnabled = false) →
      checkUserLiveStreamOptimized b writeOk sendOk userEntries = []) ∧
    ((∀ u ∈ userEntries, u.PostsEnabled = false) →
      checkUserPostsOptimized b writeOk sendOk userEntries = []) := by
  constructor
  · intro hall
    have hl : (userEntries.filter fun user => user.LiveEnabled) = [] := by
      rw [List.filter_eq_nil_iff]
      intro u hu
      simp [hall u hu]
    simp [checkUserLiveStreamOptimized, hl]
  · intro hall
    have hl : (userEntries.filter fun user => user.PostsEnabled) = [] := by
      rw [List.filter_eq_nil_iff]
      intro u hu
      simp [hall u hu]
    simp [checkUserPostsOptimized, hl]

theorem formatNotificationMessage_congr (b b2 : Bot) (hrepo : b2.Repo = b.Repo)
    (g u n m p : String) :
    formatNotificationMessage b2 g u n m p = formatNotificationMessage b g u n m p := by
  simp only [formatNotificationMessage, hrepo]

theorem fetchColors_congr (b b2 : Bot) (hrepo : b2.Repo = b.Repo) (u : String) :
    fetchColors b2 u = fetchColors b u := by
  simp only [fetchColors, hrepo]

theorem postNotify_congr (b b2 : Bot) (hrepo : b2.Repo = b.Repo) (latestPost : Post)
    (cm : List (String × UserEmbedColor)) (writeOk sendOk : Nat → Bool) :
    postNotify b2 latestPost cm writeOk sendOk = postNotify b latestPost cm writeOk sendOk := by
  funext i user
  simp only [postNotify, formatNotificationMessage_congr b b2 hrepo]

theorem isPostStep_checkUserLiveStreamOptimized (b : Bot) (writeOk sendOk : Nat → Bool)
    (userEntries : List MonitoredUser) (e : Effect)
    (h : e ∈ checkUserLiveStreamOptimized b writeOk sendOk userEntries) :
    e.isPostStep = false := by
  obtain ⟨p, _, hcases⟩ := mem_checkUserLiveStreamOptimized b writeOk sendOk userEntries e h
  rcases hcases with rfl | ⟨_, rfl⟩ | rfl | rfl | ⟨si, i, user, _, _, _, he⟩
  · rfl
  · rfl
  · rfl
  · rfl
  · rcases mem_liveNotify _ _ _ _ _ _ _ _ he with
      rfl | rfl | rfl | rfl | ⟨_, c, col, rfl⟩ | rfl | ⟨ch, rfl⟩ <;> rfl

theorem isLiveStep_checkUserPostsOptimized (b : Bot) (writeOk sendOk : Nat → Bool)
    (userEntries : List MonitoredUser) (e : Effect)
    (h : e ∈ checkUserPostsOptimized b writeOk sendOk userEntries) :
    e.isLiveStep = false := by
  obtain ⟨p, _, hcases⟩ := mem_checkUserPostsOptimized b writeOk sendOk userEntries e h
  rcases hcases with rfl | ⟨_, rfl⟩ | rfl | rfl | ⟨latestPost, rest, i, user, _, _, he⟩
  · rfl
  · rfl
  · rfl
  · rfl
  · rcases (mem_postNotify _ _ _ _ _ _ _ _ he).2 with
      rfl | rfl | rfl | rfl | ⟨fl, rfl⟩ | ⟨_, c, col, rfl⟩ | rfl | ⟨ch, rfl⟩ <;> rfl

/-- In a trace made of a part without content steps followed by a part
without live steps, no live step comes after a content step. -/
theorem no_liveStep_after_postStep (s t : List Effect)
    (hs : ∀ e ∈ s, e.isPostStep = false) (ht : ∀ e ∈ t, e.isLiveStep = false)
    (pre post : List Effect) (e : Effect) (h : s ++ t = pre ++ e :: post)
    (he : e.isPostStep = true) : ∀ e2 ∈ post, e2.isLiveStep = false := by
  rcases List.append_eq_append_iff.mp h with ⟨a, _, hb⟩ | ⟨c, hc, hd⟩
  · intro e2 h2
    exact ht e2 (by rw [hb]; exact List.mem_append_right _ (List.mem_cons_of_mem _ h2))
  · cases c with
    | nil =>
      simp only [List.nil_append] at hd
      intro e2 h2
      exact ht e2 (by rw [← hd]; exact List.mem_cons_of_mem _ h2)
    | cons x c =>
      simp only [List.cons_append, List.cons.injEq] at hd
      have hmem : e ∈ s := by
        rw [hc, ← hd.1]
        exact List.mem_append_right _ (List.mem_cons_self _ _)
      rw [hs e hmem] at he
      cases he

/-- The send of a live loop iteration whose write succeeded, with the text of
the formatter for the live placeholder. -/
theorem send_mem_liveNotify (b : Bot) (si : StreamResponse)
    (cm : List (String × UserEmbedColor)) (writeOk sendOk : Nat → Bool) (i : Nat)
    (user : MonitoredUser) (hw : writeOk i = true) :
    ∃ channel embed, Effect.ChannelMessageSendComplex user channel
      (formatNotificationMessage b user.GuildID user.UserID user.Username user.LiveMentionRole
        "{liveMention}").2 embed (sendOk i) ∈ liveNotify b si cm writeOk sendOk i user := by
  simp only [liveNotify, hw, if_true]
  exact ⟨_, _, List.mem_append_right _ (List.mem_cons_self _ _)⟩

/-- The send of a content loop iteration that fires and whose write succeeded,
with the text of the formatter for the post placeholder. -/
theorem send_mem_postNotify (b : Bot) (latestPost : Post)
    (cm : List (String × UserEmbedColor)) (writeOk sendOk : Nat → Bool) (i : Nat)
    (user : MonitoredUser) (hne : latestPost.ID ≠ user.LastPostID) (hw : writeOk i = true) :
    ∃ channel embed, Effect.ChannelMessageSendComplex user channel
      (formatNotificationMessage b user.GuildID user.UserID user.Username user.PostMentionRole
        "{postMention}").2 embed (sendOk i) ∈ postNotify b latestPost cm writeOk sendOk i user := by
  simp only [postNotify, if_pos hne, hw, if_true]
  exact ⟨_, _, List.mem_append_right _ (List.mem_cons_of_mem _ (List.mem_cons_self _ _))⟩

theorem render_of_empty_template (formats : Option UserNotificationFormat)
    (username mentionRole placeholder : String)
    (h : customFormatOf formats placeholder = "") :
    renderNotificationMessage formats username mentionRole placeholder =
      if mentionRole = "" then "" else "<@&" ++ mentionRole ++ ">" := by
  simp only [renderNotificationMessage, h, ne_eq, not_true_eq_false, if_false, ite_not]

/-! ## Avatar step -/

theorem isAvatarStep_checkUserLiveStreamOptimized (b : Bot) (writeOk sendOk : Nat → Bool)
    (userEntries : List MonitoredUser) (e : Effect)
    (h : e ∈ checkUserLiveStreamOptimized b writeOk sendOk userEntries) :
    e.isAvatarStep = false := by
  obtain ⟨p, _, hcases⟩ := mem_checkUserLiveStreamOptimized b writeOk sendOk userEntries e h
  rcases hcases with rfl | ⟨_, rfl⟩ | rfl | rfl | ⟨si, i, user, _, _, _, he⟩
  · rfl
  · rfl
  · rfl
  · rfl
  · rcases mem_liveNotify _ _ _ _ _ _ _ _ he with
      rfl | rfl | rfl | rfl | ⟨_, c, col, rfl⟩ | rfl | ⟨ch, rfl⟩ <;> rfl

theorem isAvatarStep_checkUserPostsOptimized (b : Bot) (writeOk sendOk : Nat → Bool)
    (userEntries : List MonitoredUser) (e : Effect)
    (h : e ∈ checkUserPostsOptimized b writeOk sendOk userEntries) :
    e.isAvatarStep = false := by
  obtain ⟨p, _, hcases⟩ := mem_checkUserPostsOptimized b writeOk sendOk userEntries e h
  rcases hcases with rfl | ⟨_, rfl⟩ | rfl | rfl | ⟨latestPost, rest, i, user, _, _, he⟩
  · rfl
  · rfl
  · rfl
  · rfl
  · rcases (mem_postNotify _ _ _ _ _ _ _ _ he).2 with
      rfl | rfl | rfl | rfl | ⟨fl, rfl⟩ | ⟨_, c, col, rfl⟩ | rfl | ⟨ch, rfl⟩ <;> rfl

/-- In the range of Unix times and of intervals whose seconds fit an `int64`,
the test of the avatar step is the plain comparison. -/
theorem avatar_test_plain (now updatedAt hours : Int)
    (h1 : -4611686018427387904 ≤ now) (h2 : now < 4611686018427387904)
    (h3 : -4611686018427387904 ≤ updatedAt) (h4 : updatedAt < 4611686018427387904)
    (h5 : -2562047788015215 ≤ hours) (h6 : hours ≤ 2562047788015215) :
    (wrapInt64 (now - updatedAt) > wrapInt64 (wrapInt64 (hours * 60) * 60)) ↔
      now - updatedAt > hours * 3600 := by
  rw [wrapInt64_eq (now - updatedAt) (by omega) (by omega),
    wrapInt64_eq (hours * 60) (by omega) (by omega),
    wrapInt64_eq (hours * 60 * 60) (by omega) (by omega)]
  constructor <;> intro h <;> omega

/-- The avatar step when its test fails. -/
theorem refreshAvatar_skip (b : Bot) (cfg : Config) (now : Int) (o : Outcomes)
    (primaryUser : MonitoredUser) (userEntries : List MonitoredUser)
    (hc : ¬ wrapInt64 (now - primaryUser.AvatarLocationUpdatedAt) >
      wrapInt64 (wrapInt64 (cfg.AvatarRefreshIntervalHours * 60) * 60)) :
    refreshAvatar b cfg now o primaryUser userEntries = ([], userEntries) := by
  simp only [refreshAvatar, hc, if_false]

/-- The avatar step when its test holds and the fetch fails. -/
theorem refreshAvatar_error (b : Bot) (cfg : Config) (now : Int) (o : Outcomes)
    (primaryUser : MonitoredUser) (userEntries : List MonitoredUser)
    (hc : wrapInt64 (now - primaryUser.AvatarLocationUpdatedAt) >
      wrapInt64 (wrapInt64 (cfg.AvatarRefreshIntervalHours * 60) * 60))
    (err : String) (hf : (refreshAvatarURL b primaryUser.Username).2 = .error err) :
    refreshAvatar b cfg now o primaryUser userEntries =
      ([.GetAccountInfo primaryUser.Username, .logError "Error refreshing avatar URL"],
        userEntries) := by
  have hurl : refreshAvatarURL b primaryUser.Username =
      ([.GetAccountInfo primaryUser.Username], .error err) := Prod.ext rfl hf
  simp only [refreshAvatar, hc, if_true, hurl]
  rfl

/-- The avatar step when its test holds and the fetch succeeds. -/
theorem refreshAvatar_ok (b : Bot) (cfg : Config) (now : Int) (o : Outcomes)
    (primaryUser : MonitoredUser) (userEntries : List MonitoredUser)
    (hc : wrapInt64 (now - primaryUser.AvatarLocationUpdatedAt) >
      wrapInt64 (wrapInt64 (cfg.AvatarRefreshIntervalHours * 60) * 60))
    (newAvatarLocation : String)
    (hf : (refreshAvatarURL b primaryUser.Username).2 = .ok newAvatarLocation) :
    refreshAvatar b cfg now o primaryUser userEntries =
      ([.GetAccountInfo primaryUser.Username] ++ forRange (fun i user =>
          if o.avatarWriteOk i then [.UpdateAvatarInfo user newAvatarLocation true]
          else [.UpdateAvatarInfo user newAvatarLocation false,
                .logError "Error updating avatar URL in DB"]) 0 userEntries,
        userEntries.map fun user => { user with AvatarLocation := newAvatarLocation }) := by
  have hurl : refreshAvatarURL b primaryUser.Username =
      ([.GetAccountInfo primaryUser.Username], .ok newAvatarLocation) := Prod.ext rfl hf
  simp only [refreshAvatar, hc, if_true, hurl]

theorem avatarWrites_append (s t : List Effect) :
    avatarWrites (s ++ t) = avatarWrites s ++ avatarWrites t := by
  simp [avatarWrites, List.filterMap_append]

theorem avatarWrites_avatarLoop (ok : Nat → Bool) (newAvatarLocation : String) :
    ∀ (xs : List MonitoredUser) (i : Nat),
      avatarWrites (forRange (fun i user =>
          if ok i then [Effect.UpdateAvatarInfo user newAvatarLocation true]
          else [Effect.UpdateAvatarInfo user newAvatarLocation false,
                Effect.logError "Error updating avatar URL in DB"]) i xs) = xs
  | [], _ => rfl
  | x :: xs, i => by
    rw [forRange, avatarWrites_append, avatarWrites_avatarLoop ok newAvatarLocation xs (i + 1)]
    cases ok i <;> simp [avatarWrites, Effect.avatarWriteFor]

theorem avatarWrites_eq_nil_of (t : List Effect) (h : ∀ e ∈ t, e.isAvatarStep = false) :
    avatarWrites t = [] := by
  induction t with
  | nil => rfl
  | cons e t ih =>
    have he := h e (List.mem_cons_self _ _)
    have hrest := ih fun x hx => h x (List.mem_cons_of_mem _ hx)
    cases e <;> simp_all [avatarWrites, Effect.avatarWriteFor, Effect.isAvatarStep]

/-! ## Concurrent executions -/

/-- A goroutine that runs `RecordCall` without interference performs the
sequential `RecordCall` and leaves the durable totals alone. -/
theorem run_RecordCall_alone (a : Aggregator) (d : DurableResult) (success : Bool)
    (total successful : Nat) :
    (Concurrent.run ⟨a, d, [⟨RecordCallSteps success, total, successful⟩]⟩
        (List.replicate (RecordCallSteps success).length 0)).map
      (fun s => (s.aggregator, s.durable)) = some (a.RecordCall success, d) := by
  cases success <;> rfl

/-- A goroutine that runs `FlushToDB` without interference performs the
sequential `FlushToDB`. -/
theorem run_FlushToDB_alone (a : Aggregator) (rows : List APIHealthStat) (dbOk : Bool)
    (total successful : Nat) :
    (Concurrent.run ⟨a, ⟨rows, [], false⟩, [⟨FlushToDBSteps dbOk, total, successful⟩]⟩
        [0, 0, 0]).map (fun s => (s.aggregator, s.durable)) =
      some ((a.FlushToDB dbOk rows).aggregator, (a.FlushToDB dbOk rows).durable) := by
  by_cases h : a.totalRequests = 0
  · simp [Concurrent.run, Concurrent.step, FlushToDBSteps, Aggregator.FlushToDB, h]
  · simp [Concurrent.run, Concurrent.step, FlushToDBSteps, Aggregator.FlushToDB, h]

/-! ## `strings.Split` on a one-character separator -/

theorem splitScan_no_sep (sp : Char) :
    ∀ (a cur : List Char), sp ∉ a → GoStrings.splitScan [sp] 0 cur a = [cur ++ a]
  | [], cur, _ => by simp [GoStrings.splitScan]
  | c :: cs, cur, h => by
    have hc : ¬ sp = c := by
      intro e
      subst e
      exact h (List.mem_cons_self _ _)
    have hcs : sp ∉ cs := fun m => h (List.mem_cons_of_mem _ m)
    simp [GoStrings.splitScan, List.isPrefixOf, hc, splitScan_no_sep sp cs (cur ++ [c]) hcs]

theorem splitScan_append_sep (sp : Char) (rest : List Char) :
    ∀ (a cur : List Char), sp ∉ a →
      GoStrings.splitScan [sp] 0 cur (a ++ sp :: rest) =
        (cur ++ a) :: GoStrings.splitScan [sp] 0 [] rest
  | [], cur, _ => by
    simp [GoStrings.splitScan, List.isPrefixOf]
  | c :: cs, cur, h => by
    have hc : ¬ sp = c := by
      intro e
      subst e
      exact h (List.mem_cons_self _ _)
    have hcs : sp ∉ cs := fun m => h (List.mem_cons_of_mem _ m)
    simp [GoStrings.splitScan, List.isPrefixOf, hc,
      splitScan_append_sep sp rest cs (cur ++ [c]) hcs]

/-- The model of `strings.Split` on inputs whose Go results are documented:
adjacent separators give an empty piece, an input without the separator is
returned whole, and an empty separator explodes the input. -/
theorem Split_examples :
    GoStrings.Split "a,b,c" "," = ["a", "b", "c"] ∧
    GoStrings.Split "a man a plan a canal panama" "a " =
      ["", "man ", "plan ", "canal panama"] ∧
    GoStrings.Split " xyz " "" = [" ", "x", "y", "z", " "] ∧
    GoStrings.Split "" "Bernardo O" = [""] ∧
    GoStrings.Split "a__b" "_" = ["a", "", "b"] := by
  decide

/-- Splitting `format_modal_<type>_<entityID>` on the underscore when neither
the type nor the entity ID contains one. -/
theorem Split_customID (notifType userID : String) (ht : ('_' : Char) ∉ notifType.data)
    (hu : ('_' : Char) ∉ userID.data) :
    GoStrings.Split ("format_modal_" ++ notifType ++ "_" ++ userID) "_" =
      ["format", "modal", notifType, userID] := by
  have hd : ("format_modal_" ++ notifType ++ "_" ++ userID).data =
      "format".data ++ '_' :: ("modal".data ++ '_' :: (notifType.data ++ '_' :: userID.data)) := by
    simp [String.data_append]
  have hsep : "_".data = ['_'] := rfl
  simp only [GoStrings.Split, GoStrings.splitChars, hd, hsep]
  rw [if_neg (by simp)]
  rw [splitScan_append_sep _ _ _ _ (by decide), splitScan_append_sep _ _ _ _ (by decide),
    splitScan_append_sep _ _ _ _ ht, splitScan_no_sep _ _ _ hu]
  rfl

/-! ## Detectors whose fetch fails -/

/-- Steps 2 to 4 of `formatNotificationMessage` as a formula in the template
chosen in step 1. -/
theorem render_of_template (formats : Option UserNotificationFormat)
    (username mentionRole placeholder template : String)
    (h : customFormatOf formats placeholder = template) :
    renderNotificationMessage formats username mentionRole placeholder =
      if template = "" then (if mentionRole = "" then "" else "<@&" ++ mentionRole ++ ">")
      else if GoStrings.Contains template placeholder = true then
        GoStrings.Replace (GoStrings.Replace template "{username}" username) placeholder
          (if mentionRole = "" then "" else "<@&" ++ mentionRole ++ ">")
      else if mentionRole = "" then GoStrings.Replace template "{username}" username
      else "<@&" ++ mentionRole ++ ">" ++ " " ++ GoStrings.Replace template "{username}" username := by
  subst h
  by_cases hm : mentionRole = ""
  · by_cases ht : customFormatOf formats placeholder = ""
    · simp [renderNotificationMessage, ht, hm]
    · by_cases hc : GoStrings.Contains (customFormatOf formats placeholder) placeholder = true
      · simp [renderNotificationMessage, ht, hm, hc]
      · simp [renderNotificationMessage, ht, hm, hc]
  · have hmk : "<@&" ++ mentionRole ++ ">" ≠ "" := by
      intro h
      have := congrArg String.length h
      simp only [String.length_append] at this
      have h1 : ">".length = 1 := by decide
      have h2 : "".length = 0 := by decide
      have h3 : "<@&".length = 3 := by decide
      omega
    by_cases ht : customFormatOf formats placeholder = ""
    · simp [renderNotificationMessage, ht, hm]
    · by_cases hc : GoStrings.Contains (customFormatOf formats placeholder) placeholder = true
      · simp [renderNotificationMessage, ht, hm, hc]
      · simp [renderNotificationMessage, ht, hm, hc, hmk]

/-! ## The claims -/

/-- Claim C1 (code defect). The claim asks that a live notification fires for a
registration exactly when the stream is live and `StartedAt` exceeds that
registration's own `LastStreamStart`. The code tests the watermark of the first
live-enabled registration of the group for all of them: with watermarks 0 and
100 and `StartedAt = 100` the second registration is notified although
`100 > 100` fails, and with watermarks 200 and 100 and `StartedAt = 101` it is
not notified although `101 > 100` holds. -/
theorem live_fires_on_primary_watermark :
    sends (checkUserLiveStreamOptimized (sampleBot 2 100 []) allOk allOk
        [sampleUser "g1" 0 "", sampleUser "g2" 100 ""]) =
      [sampleUser "g1" 0 "", sampleUser "g2" 100 ""] ∧
    sends (checkUserLiveStreamOptimized (sampleBot 2 101 []) allOk allOk
        [sampleUser "g1" 200 "", sampleUser "g2" 100 ""]) = [] := by
  decide

/-- Claim C2. When the content fetch of a work item returns a non-empty list and
the watermark writes succeed, a posts-enabled registration of the item is sent
a content notification if and only if the ID of the newest fetched item differs
from its own `LastPostID`; the values `""` and `"0"` of `LastPostID` play no
part in that decision and only fix the first-post flag of the notification,
which is true exactly when `LastPostID` is `""` or `"0"`. -/
theorem posts_fire_iff_newest_differs (b : Bot) (sendOk : Nat → Bool)
    (userEntries : List MonitoredUser) (p : MonitoredUser) (latestPost : Post) (rest : List Post)
    (user : MonitoredUser)
    (hp : (userEntries.filter fun user => user.PostsEnabled).head? = some p)
    (hf : b.APIClient.GetTimelinePost p.UserID = .ok (latestPost :: rest))
    (hu : user ∈ userEntries) (he : user.PostsEnabled = true) :
    (user ∈ sends (checkUserPostsOptimized b allOk sendOk userEntries) ↔
      latestPost.ID ≠ user.LastPostID) ∧
    (latestPost.ID ≠ user.LastPostID →
      Effect.logFirstPost user (decide (user.LastPostID = "" ∨ user.LastPostID = "0")) ∈
        checkUserPostsOptimized b allOk sendOk userEntries) ∧
    (∀ flag, Effect.logFirstPost user flag ∈ checkUserPostsOptimized b allOk sendOk userEntries →
      flag = decide (user.LastPostID = "" ∨ user.LastPostID = "0")) := by
  have hmem : user ∈ userEntries.filter fun user => user.PostsEnabled :=
    List.mem_filter.mpr ⟨hu, he⟩
  refine ⟨?_, ?_, ?_⟩
  · rw [sends_checkUserPostsOptimized b allOk sendOk userEntries p latestPost rest hp hf]
    have hk := keepAt_const_true (fun u : MonitoredUser => decide (latestPost.ID ≠ u.LastPostID))
      (userEntries.filter fun user => user.PostsEnabled) 0
    simp only [allOk, Bool.and_true] at hk ⊢
    rw [hk, List.mem_filter]
    simp [hmem]
  · intro hne
    rw [checkUserPostsOptimized_ok b allOk sendOk userEntries p latestPost rest hp hf]
    obtain ⟨j, hj⟩ := List.getElem?_of_mem hmem
    refine List.mem_append_right _ ((mem_forRange _ _ _ _).mpr ⟨j, user, hj, ?_⟩)
    simp [postNotify, hne, allOk]
  · intro flag hflag
    rw [checkUserPostsOptimized_ok b allOk sendOk userEntries p latestPost rest hp hf] at hflag
    rcases List.mem_append.mp hflag with h | h
    · rcases List.mem_append.mp h with h | h
      · simp at h
      · unfold fetchColors at h
        cases hc : b.Repo.GetEmbedColorsForUser p.UserID <;> simp [hc] at h
    · obtain ⟨j, x, _, hx⟩ := (mem_forRange _ _ _ _).mp h
      obtain ⟨hux, hfl⟩ := logFirstPost_mem_postNotify _ _ _ _ _ _ _ _ _ hx
      subst hux
      exact hfl

/-- Witness of C2: for the sentinel watermark `""` and newest ID `"abc"` the
registration is notified and the first-post flag is set. -/
theorem posts_fire_iff_newest_differs_witness :
    (sampleUser "g1" 0 "" ∈ sends (checkUserPostsOptimized (sampleBot 0 0 [⟨"abc", ""⟩]) allOk
        allOk [sampleUser "g1" 0 ""]) ↔ "abc" ≠ "") ∧
    Effect.logFirstPost (sampleUser "g1" 0 "") true ∈
      checkUserPostsOptimized (sampleBot 0 0 [⟨"abc", ""⟩]) allOk allOk [sampleUser "g1" 0 ""] :=
  have h := posts_fire_iff_newest_differs (sampleBot 0 0 [⟨"abc", ""⟩]) allOk
    [sampleUser "g1" 0 ""] (sampleUser "g1" 0 "") ⟨"abc", ""⟩ [] (sampleUser "g1" 0 "")
    (by decide) rfl (by decide) rfl
  ⟨h.1, h.2.1 (by decide)⟩

/-- Claim C3 (code defect, the one of C1). The claim asks that no registration
is sent two live notifications for the same start timestamp over a sequence of
runs that each read the persisted rows. Two registrations with watermark 0 and
a stream started at 5: in the first run the write for the first registration
fails, the second is written and notified; the second run reads the rows, tests
the watermark 0 of the first registration and notifies the second again for the
timestamp 5 it already records. -/
theorem live_duplicate_after_failed_sibling_write :
    persist [sampleUser "g1" 0 "", sampleUser "g2" 0 ""]
        (checkUserLiveStreamOptimized (sampleBot 2 5 []) (fun i => decide (i ≠ 0)) allOk
          [sampleUser "g1" 0 "", sampleUser "g2" 0 ""]) =
      [sampleUser "g1" 0 "", sampleUser "g2" 5 ""] ∧
    liveSendsTo "g2" "e"
        (checkUserLiveStreamOptimized (sampleBot 2 5 []) (fun i => decide (i ≠ 0)) allOk
          [sampleUser "g1" 0 "", sampleUser "g2" 0 ""]) = [5] ∧
    liveSendsTo "g2" "e"
        (checkUserLiveStreamOptimized (sampleBot 2 5 []) allOk allOk
          [sampleUser "g1" 0 "", sampleUser "g2" 5 ""]) = [5] := by
  decide

/-- Claim C4. Content detection is idempotent on a fixed snapshot: when a run
whose watermark writes succeed is followed by a run of the same bot (the same
fetched list) on the rows as the first run persisted them, the second run
attempts no send and no watermark write, whatever its own outcomes would be. -/
theorem posts_second_run_is_quiet (b : Bot) (sendOk writeOk2 sendOk2 : Nat → Bool)
    (userEntries : List MonitoredUser) :
    sends (checkUserPostsOptimized b writeOk2 sendOk2
        (persist userEntries (checkUserPostsOptimized b allOk sendOk userEntries))) = [] ∧
    watermarkWrites (checkUserPostsOptimized b writeOk2 sendOk2
        (persist userEntries (checkUserPostsOptimized b allOk sendOk userEntries))) = [] := by
  apply checkUserPostsOptimized_quiet
  intro p2 latestPost rest hp2 hf2 u2 hu2
  rw [filter_postsEnabled_persist] at hp2 hu2
  rw [List.head?_map] at hp2
  cases hh : (userEntries.filter fun user => user.PostsEnabled).head? with
  | none => simp [hh] at hp2
  | some p =>
    simp only [hh, Option.map, Option.some.injEq] at hp2
    subst hp2
    rw [(foldl_persistRow_fields _ p).2.1] at hf2
    obtain ⟨u, hu, rfl⟩ := List.mem_map.mp hu2
    have hall := updateLastPostID_mem_checkUserPostsOptimized b allOk sendOk userEntries p
      latestPost rest hh hf2
    by_cases heq : u.LastPostID = latestPost.ID
    · rcases foldl_persistRow_lastPostID latestPost.ID _ u (fun v q h => hall v q true h)
        with h | h
      · exact h.trans heq
      · exact h
    · refine foldl_persistRow_written latestPost.ID _ u (fun v q h => hall v q true h)
        ⟨u, ?_, rfl, rfl⟩
      rw [checkUserPostsOptimized_ok b allOk sendOk userEntries p latestPost rest hh hf2]
      obtain ⟨j, hj⟩ := List.getElem?_of_mem hu
      refine List.mem_append_right _ ((mem_forRange _ _ _ _).mpr ⟨j, u, hj, ?_⟩)
      simp [postNotify, Ne.symm heq, allOk]

/-- Witness of C4: with `LastPostID = ""` and newest ID `"abc"` the first run
notifies the registration and persists `"abc"`, the second run on the
persisted rows notifies nobody. -/
theorem posts_second_run_is_quiet_witness :
    sends (checkUserPostsOptimized (sampleBot 0 0 [⟨"abc", ""⟩]) allOk allOk
        [sampleUser "g1" 0 ""]) = [sampleUser "g1" 0 ""] ∧
    persist [sampleUser "g1" 0 ""] (checkUserPostsOptimized (sampleBot 0 0 [⟨"abc", ""⟩]) allOk
        allOk [sampleUser "g1" 0 ""]) = [sampleUser "g1" 0 "abc"] ∧
    sends (checkUserPostsOptimized (sampleBot 0 0 [⟨"abc", ""⟩]) allOk allOk
        (persist [sampleUser "g1" 0 ""] (checkUserPostsOptimized (sampleBot 0 0 [⟨"abc", ""⟩])
          allOk allOk [sampleUser "g1" 0 ""]))) = [] :=
  ⟨by decide, by decide,
    (posts_second_run_is_quiet (sampleBot 0 0 [⟨"abc", ""⟩]) allOk allOk allOk
      [sampleUser "g1" 0 ""]).1⟩

/-- Claim C5. In both detectors a send to a registration comes only after the
successful write of the new watermark (the fetched `StartedAt`, respectively the
newest item ID) for that same registration in the same run, with no other write
or send in between; the registrations that are sent to are exactly those (of
the firing ones) whose own write succeeded, so a failed write means no send for
that registration; and the write is attempted for every firing registration
whatever the outcomes of the other writes. -/
theorem send_only_after_own_write (b : Bot) (writeOk sendOk : Nat → Bool)
    (userEntries : List MonitoredUser) :
    (∀ p si, (userEntries.filter fun user => user.LiveEnabled).head? = some p →
      b.APIClient.GetStreamInfo p.UserID = .ok si →
      SendsFollow (fun u => .UpdateLastStreamStart u si.Response.Stream.StartedAt true)
        (checkUserLiveStreamOptimized b writeOk sendOk userEntries) ∧
      (si.Response.Stream.Status = 2 ∧ si.Response.Stream.StartedAt > p.LastStreamStart →
        sends (checkUserLiveStreamOptimized b writeOk sendOk userEntries) =
          keepAt (fun j _ => writeOk j) 0 (userEntries.filter fun user => user.LiveEnabled) ∧
        watermarkWrites (checkUserLiveStreamOptimized b writeOk sendOk userEntries) =
          userEntries.filter fun user => user.LiveEnabled)) ∧
    (∀ p latestPost rest, (userEntries.filter fun user => user.PostsEnabled).head? = some p →
      b.APIClient.GetTimelinePost p.UserID = .ok (latestPost :: rest) →
      SendsFollow (fun u => .UpdateLastPostID u latestPost.ID true)
        (checkUserPostsOptimized b writeOk sendOk userEntries) ∧
      sends (checkUserPostsOptimized b writeOk sendOk userEntries) =
        keepAt (fun j u => decide (latestPost.ID ≠ u.LastPostID) && writeOk j) 0
          (userEntries.filter fun user => user.PostsEnabled) ∧
      watermarkWrites (checkUserPostsOptimized b writeOk sendOk userEntries) =
        (userEntries.filter fun user => user.PostsEnabled).filter
          fun u => decide (latestPost.ID ≠ u.LastPostID)) := by
  constructor
  · intro p si hp hf
    refine ⟨?_, fun hfire => ⟨?_, ?_⟩⟩
    · rw [checkUserLiveStreamOptimized_ok b writeOk sendOk userEntries p si hp hf]
      apply sendsFollow_append
      · apply sendsFollow_of_sends_nil
        simp [sends_append, sends_cons, sends_nil, sends_fetchColors, Effect.sendTo]
      · split
        · exact sendsFollow_forRange _ _ (sendsFollow_liveNotify b si _ writeOk sendOk) _ 0
        · exact sendsFollow_of_sends_nil _ _ rfl
    · rw [sends_checkUserLiveStreamOptimized b writeOk sendOk userEntries p si hp hf,
        if_pos hfire]
    · rw [watermarkWrites_checkUserLiveStreamOptimized b writeOk sendOk userEntries p si hp hf,
        if_pos hfire]
  · intro p latestPost rest hp hf
    refine ⟨?_, ?_, ?_⟩
    · rw [checkUserPostsOptimized_ok b writeOk sendOk userEntries p latestPost rest hp hf]
      apply sendsFollow_append
      · apply sendsFollow_of_sends_nil
        simp [sends_append, sends_cons, sends_nil, sends_fetchColors, Effect.sendTo]
      · exact sendsFollow_forRange _ _ (sendsFollow_postNotify b latestPost _ writeOk sendOk) _ 0
    · exact sends_checkUserPostsOptimized b writeOk sendOk userEntries p latestPost rest hp hf
    · exact watermarkWrites_checkUserPostsOptimized b writeOk sendOk userEntries p latestPost
        rest hp hf

/-- Witness of C5: in a firing group of two whose first write fails, both
writes are attempted and only the second registration is sent to, in the live
and in the content detector. -/
theorem send_only_after_own_write_witness :
    (sends (checkUserLiveStreamOptimized (sampleBot 2 5 [⟨"abc", ""⟩])
        (fun i => decide (i ≠ 0)) allOk [sampleUser "g1" 0 "", sampleUser "g2" 0 ""]) =
      [sampleUser "g2" 0 ""] ∧
    watermarkWrites (checkUserLiveStreamOptimized (sampleBot 2 5 [⟨"abc", ""⟩])
        (fun i => decide (i ≠ 0)) allOk [sampleUser "g1" 0 "", sampleUser "g2" 0 ""]) =
      [sampleUser "g1" 0 "", sampleUser "g2" 0 ""]) ∧
    (sends (checkUserPostsOptimized (sampleBot 2 5 [⟨"abc", ""⟩])
        (fun i => decide (i ≠ 0)) allOk [sampleUser "g1" 0 "", sampleUser "g2" 0 ""]) =
      [sampleUser "g2" 0 ""] ∧
    watermarkWrites (checkUserPostsOptimized (sampleBot 2 5 [⟨"abc", ""⟩])
        (fun i => decide (i ≠ 0)) allOk [sampleUser "g1" 0 "", sampleUser "g2" 0 ""]) =
      [sampleUser "g1" 0 "", sampleUser "g2" 0 ""]) :=
  have h := send_only_after_own_write (sampleBot 2 5 [⟨"abc", ""⟩]) (fun i => decide (i ≠ 0))
    allOk [sampleUser "g1" 0 "", sampleUser "g2" 0 ""]
  ⟨(h.1 (sampleUser "g1" 0 "") ⟨⟨⟨2, 5⟩⟩⟩ (by decide) rfl).2 (by decide),
    (h.2 (sampleUser "g1" 0 "") ⟨"abc", ""⟩ [] (by decide) rfl).2⟩

theorem sends_checkUserLiveStreamOptimized_congr (b : Bot) (writeOk sendOk sendOk2 : Nat → Bool)
    (userEntries : List MonitoredUser) :
    sends (checkUserLiveStreamOptimized b writeOk sendOk userEntries) =
        sends (checkUserLiveStreamOptimized b writeOk sendOk2 userEntries) ∧
      watermarkWrites (checkUserLiveStreamOptimized b writeOk sendOk userEntries) =
        watermarkWrites (checkUserLiveStreamOptimized b writeOk sendOk2 userEntries) := by
  cases hl : userEntries.filter fun user => user.LiveEnabled with
  | nil => simp [checkUserLiveStreamOptimized, hl]
  | cons p tl =>
    have hp : (userEntries.filter fun user => user.LiveEnabled).head? = some p := by
      rw [hl]; rfl
    cases hf : b.APIClient.GetStreamInfo p.UserID with
    | error err => simp [checkUserLiveStreamOptimized, hl, hf]
    | ok si =>
      rw [sends_checkUserLiveStreamOptimized b writeOk sendOk userEntries p si hp hf,
        sends_checkUserLiveStreamOptimized b writeOk sendOk2 userEntries p si hp hf,
        watermarkWrites_checkUserLiveStreamOptimized b writeOk sendOk userEntries p si hp hf,
        watermarkWrites_checkUserLiveStreamOptimized b writeOk sendOk2 userEntries p si hp hf]
      exact ⟨rfl, rfl⟩

theorem sends_checkUserPostsOptimized_congr (b : Bot) (writeOk sendOk sendOk2 : Nat → Bool)
    (userEntries : List MonitoredUser) :
    sends (checkUserPostsOptimized b writeOk sendOk userEntries) =
        sends (checkUserPostsOptimized b writeOk sendOk2 userEntries) ∧
      watermarkWrites (checkUserPostsOptimized b writeOk sendOk userEntries) =
        watermarkWrites (checkUserPostsOptimized b writeOk sendOk2 userEntries) := by
  cases hl : userEntries.filter fun user => user.PostsEnabled with
  | nil => simp [checkUserPostsOptimized, hl]
  | cons p tl =>
    have hp : (userEntries.filter fun user => user.PostsEnabled).head? = some p := by
      rw [hl]; rfl
    cases hf : b.APIClient.GetTimelinePost p.UserID with
    | error err => simp [checkUserPostsOptimized, hl, hf]
    | ok posts =>
      cases posts with
      | nil => simp [checkUserPostsOptimized, hl, hf]
      | cons latestPost rest =>
        rw [sends_checkUserPostsOptimized b writeOk sendOk userEntries p latestPost rest hp hf,
          sends_checkUserPostsOptimized b writeOk sendOk2 userEntries p latestPost rest hp hf,
          watermarkWrites_checkUserPostsOptimized b writeOk sendOk userEntries p latestPost rest
            hp hf,
          watermarkWrites_checkUserPostsOptimized b writeOk sendOk2 userEntries p latestPost rest
            hp hf]
        exact ⟨rfl, rfl⟩

/-- Claim C6. A send failure is isolated to one registration: in both detectors
the registrations for which a watermark write is attempted and those for which
a send is attempted are, for every pattern of send outcomes, the same (and in
the same order) as when all sends succeed. -/
theorem send_failure_is_isolated (b : Bot) (writeOk sendOk : Nat → Bool)
    (userEntries : List MonitoredUser) :
    (watermarkWrites (checkUserLiveStreamOptimized b writeOk sendOk userEntries) =
        watermarkWrites (checkUserLiveStreamOptimized b writeOk allOk userEntries) ∧
      sends (checkUserLiveStreamOptimized b writeOk sendOk userEntries) =
        sends (checkUserLiveStreamOptimized b writeOk allOk userEntries)) ∧
    (watermarkWrites (checkUserPostsOptimized b writeOk sendOk userEntries) =
        watermarkWrites (checkUserPostsOptimized b writeOk allOk userEntries) ∧
      sends (checkUserPostsOptimized b writeOk sendOk userEntries) =
        sends (checkUserPostsOptimized b writeOk allOk userEntries)) :=
  ⟨(sends_checkUserLiveStreamOptimized_congr b writeOk sendOk allOk userEntries).symm,
    (sends_checkUserPostsOptimized_congr b writeOk sendOk allOk userEntries).symm⟩

/-- Witness of C6: in a firing group of three where the send for the first
registration fails, the write and the send are attempted for all three. -/
theorem send_failure_is_isolated_witness :
    Effect.logNotificationError "live stream" (sampleUser "g1" 0 "") "general" ∈
      checkUserLiveStreamOptimized (sampleBot 2 5 []) allOk (fun i => decide (i ≠ 0))
        [sampleUser "g1" 0 "", sampleUser "g2" 0 "", sampleUser "g3" 0 ""] ∧
    watermarkWrites (checkUserLiveStreamOptimized (sampleBot 2 5 []) allOk
        (fun i => decide (i ≠ 0))
        [sampleUser "g1" 0 "", sampleUser "g2" 0 "", sampleUser "g3" 0 ""]) =
      [sampleUser "g1" 0 "", sampleUser "g2" 0 "", sampleUser "g3" 0 ""] ∧
    sends (checkUserLiveStreamOptimized (sampleBot 2 5 []) allOk (fun i => decide (i ≠ 0))
        [sampleUser "g1" 0 "", sampleUser "g2" 0 "", sampleUser "g3" 0 ""]) =
      [sampleUser "g1" 0 "", sampleUser "g2" 0 "", sampleUser "g3" 0 ""] :=
  have h := send_failure_is_isolated (sampleBot 2 5 []) allOk (fun i => decide (i ≠ 0))
    [sampleUser "g1" 0 "", sampleUser "g2" 0 "", sampleUser "g3" 0 ""]
  ⟨by decide, h.1.1.trans (by decide), h.1.2.trans (by decide)⟩

/-- Claim C7, the claim as stated fails. With the upstream timeline
`["100", "200"]` (oldest first) and a registration that records `"200"`, a stale
fetch whose newest item is the older `"100"` makes `checkUserPostsOptimized`
replace `LastPostID` by `"100"` and send a notification. -/
theorem posts_watermark_regresses_on_stale_fetch :
    arrivedNoLaterThan ["100", "200"] "100" "200" ∧
    persist [sampleUser "g1" 0 "200"]
        (checkUserPostsOptimized (sampleBot 0 0 [⟨"100", ""⟩]) allOk allOk
          [sampleUser "g1" 0 "200"]) = [sampleUser "g1" 0 "100"] ∧
    sends (checkUserPostsOptimized (sampleBot 0 0 [⟨"100", ""⟩]) allOk allOk
        [sampleUser "g1" 0 "200"]) = [sampleUser "g1" 0 "200"] := by
  unfold arrivedNoLaterThan
  decide

/-- Claim C7, amended. The content detector compares IDs for equality only. For
a posts-enabled registration at position `j` of a work item whose fetch returns
a non-empty list: if the newest fetched ID equals its `LastPostID` (a duplicate
fetch), no write and no send is attempted for it and its persisted `LastPostID`
is unchanged after the run; if the newest fetched ID differs (whether the item
is newer or older upstream) and the writes succeed, its persisted `LastPostID`
after the run is the newest fetched ID. -/
theorem posts_watermark_follows_newest_id (b : Bot) (writeOk sendOk : Nat → Bool)
    (userEntries : List MonitoredUser) (p : MonitoredUser) (latestPost : Post) (rest : List Post)
    (user : MonitoredUser) (j : Nat)
    (hp : (userEntries.filter fun user => user.PostsEnabled).head? = some p)
    (hf : b.APIClient.GetTimelinePost p.UserID = .ok (latestPost :: rest))
    (hu : userEntries[j]? = some user) (he : user.PostsEnabled = true) :
    (latestPost.ID = user.LastPostID →
      user ∉ watermarkWrites (checkUserPostsOptimized b writeOk sendOk userEntries) ∧
      user ∉ sends (checkUserPostsOptimized b writeOk sendOk userEntries) ∧
      ((persist userEntries (checkUserPostsOptimized b writeOk sendOk userEntries))[j]?).map
        (fun r => r.LastPostID) = some user.LastPostID) ∧
    (latestPost.ID ≠ user.LastPostID →
      ((persist userEntries (checkUserPostsOptimized b allOk sendOk userEntries))[j]?).map
        (fun r => r.LastPostID) = some latestPost.ID) := by
  have hmemE : user ∈ userEntries := List.getElem?_mem hu
  have hmem : user ∈ userEntries.filter fun user => user.PostsEnabled :=
    List.mem_filter.mpr ⟨hmemE, he⟩
  constructor
  · intro heq
    refine ⟨?_, ?_, ?_⟩
    · rw [watermarkWrites_checkUserPostsOptimized b writeOk sendOk userEntries p latestPost rest
        hp hf, List.mem_filter]
      simp [heq]
    · intro hs
      have hsub : user ∈ watermarkWrites (checkUserPostsOptimized b writeOk sendOk userEntries) →
          False := by
        rw [watermarkWrites_checkUserPostsOptimized b writeOk sendOk userEntries p latestPost rest
          hp hf, List.mem_filter]
        simp [heq]
      rw [sends_checkUserPostsOptimized b writeOk sendOk userEntries p latestPost rest hp hf]
        at hs
      have hk : ∀ (xs : List MonitoredUser) (i : Nat),
          user ∈ keepAt (fun j u => decide (latestPost.ID ≠ u.LastPostID) && writeOk j) i xs →
          False := by
        intro xs
        induction xs with
        | nil => intro i h; simp [keepAt] at h
        | cons x xs ih =>
          intro i h
          simp only [keepAt] at h
          split at h
          · rename_i hx
            rcases List.mem_cons.mp h with h | h
            · subst h
              simp [heq] at hx
            · exact ih _ h
          · exact ih _ h
      exact hk _ _ hs
    · rw [persist_eq_map, List.getElem?_map, hu]
      simp only [Option.map]
      rcases foldl_persistRow_lastPostID latestPost.ID _ user
        (fun v q h => updateLastPostID_mem_checkUserPostsOptimized b writeOk sendOk userEntries p
          latestPost rest hp hf v q true h) with h | h
      · rw [h]
      · rw [h, heq]
  · intro hne
    rw [persist_eq_map, List.getElem?_map, hu]
    simp only [Option.map]
    congr 1
    refine foldl_persistRow_written latestPost.ID _ user
      (fun v q h => updateLastPostID_mem_checkUserPostsOptimized b allOk sendOk userEntries p
        latestPost rest hp hf v q true h) ⟨user, ?_, rfl, rfl⟩
    rw [checkUserPostsOptimized_ok b allOk sendOk userEntries p latestPost rest hp hf]
    obtain ⟨k, hk⟩ := List.getElem?_of_mem hmem
    refine List.mem_append_right _ ((mem_forRange _ _ _ _).mpr ⟨k, user, hk, ?_⟩)
    simp [postNotify, hne, allOk]

/-- Witness of the amended C7: a duplicate fetch leaves `"abc"` in place, a
fetch of a different newest ID replaces it. -/
theorem posts_watermark_follows_newest_id_witness :
    ((persist [sampleUser "g1" 0 "abc"]
        (checkUserPostsOptimized (sampleBot 0 0 [⟨"abc", ""⟩]) allOk allOk
          [sampleUser "g1" 0 "abc"]))[0]?).map (fun r => r.LastPostID) = some "abc" ∧
    ((persist [sampleUser "g1" 0 "abc"]
        (checkUserPostsOptimized (sampleBot 0 0 [⟨"abd", ""⟩]) allOk allOk
          [sampleUser "g1" 0 "abc"]))[0]?).map (fun r => r.LastPostID) = some "abd" :=
  ⟨((posts_watermark_follows_newest_id (sampleBot 0 0 [⟨"abc", ""⟩]) allOk allOk
      [sampleUser "g1" 0 "abc"] (sampleUser "g1" 0 "abc") ⟨"abc", ""⟩ [] (sampleUser "g1" 0 "abc")
      0 (by decide) rfl rfl rfl).1 rfl).2.2,
    (posts_watermark_follows_newest_id (sampleBot 0 0 [⟨"abd", ""⟩]) allOk allOk
      [sampleUser "g1" 0 "abc"] (sampleUser "g1" 0 "abc") ⟨"abd", ""⟩ [] (sampleUser "g1" 0 "abc")
      0 (by decide) rfl rfl rfl).2 (by decide)⟩

theorem count_filter_userID (users : List MonitoredUser) (u : MonitoredUser) (k : String) :
    (users.filter fun v => decide (v.UserID = k)).count u =
      if u.UserID = k then users.count u else 0 := by
  by_cases h : u.UserID = k
  · rw [if_pos h]
    exact List.count_filter (by simpa using h)
  · rw [if_neg h]
    apply List.count_eq_zero_of_not_mem
    intro hm
    exact h (by simpa using (List.mem_filter.mp hm).2)

theorem count_flatten_groups (users : List MonitoredUser) (u : MonitoredUser) :
    ∀ ks : List String, ks.Nodup →
      (ks.map fun k => users.filter fun v => decide (v.UserID = k)).flatten.count u =
        if u.UserID ∈ ks then users.count u else 0
  | [], _ => by simp
  | k :: ks, hnd => by
    rw [List.nodup_cons] at hnd
    rw [List.map_cons, List.flatten_cons, List.count_append, count_filter_userID,
      count_flatten_groups users u ks hnd.2]
    by_cases h : u.UserID = k
    · have hk : u.UserID ∉ ks := h ▸ hnd.1
      simp [h, hk]
      intro hk2
      exact absurd hk2 (h ▸ hnd.1)
    · simp [h]

/-- Claim C8. For every list of registrations returned by the store the work
items enqueued by `dispatchMonitoringJobs` are, up to the order in which Go
ranges over the map, exactly one item per distinct `UserID` of the list, the
item of an entity ID being the sub-list of the registrations with that
`UserID` in input order; every registration occurs in the items as often as in
the input. -/
theorem dispatch_groups_by_entity (b : Bot) (users : List MonitoredUser)
    (h : b.Repo.GetMonitoredUsers = .ok users) :
    (dispatchMonitoringJobs b).Perm
      ((users.map fun u => u.UserID).dedup.map fun k =>
        users.filter fun u => decide (u.UserID = k)) ∧
    ∀ u, (dispatchMonitoringJobs b).flatten.count u = users.count u := by
  obtain ⟨ks, hnd, hkeys, heq⟩ := dispatchMonitoringJobs_eq b users h
  rw [heq]
  constructor
  · apply List.Perm.map
    rw [List.perm_ext_iff_of_nodup hnd (List.nodup_dedup _)]
    intro k
    rw [hkeys, List.mem_dedup]
  · intro u
    rw [count_flatten_groups users u ks hnd]
    by_cases hu : u ∈ users
    · have : u.UserID ∈ ks := (hkeys _).mpr (List.mem_map_of_mem _ hu)
      simp [this]
    · simp [List.count_eq_zero_of_not_mem hu]

/-- Witness of C8: registrations of entities `e`, `f`, `e` give the items
`[g1, g3]` for `e` and `[g2]` for `f`. -/
theorem dispatch_groups_by_entity_witness :
    dispatchMonitoringJobs (sampleBotWith sampleUsers) =
      [[sampleUser "g1" 0 "", sampleUser "g3" 0 ""],
        [{ sampleUser "g2" 0 "" with UserID := "f" }]] ∧
    (dispatchMonitoringJobs (sampleBotWith sampleUsers)).Perm
      ((sampleUsers.map fun u => u.UserID).dedup.map fun k =>
        sampleUsers.filter fun u => decide (u.UserID = k)) :=
  ⟨by decide, (dispatch_groups_by_entity (sampleBotWith sampleUsers) sampleUsers rfl).1⟩

/-- Claim C9. Per work item the live detector issues exactly one stream-state
fetch when some registration of the item is live-enabled and none otherwise,
and the content detector exactly one content fetch when some registration is
posts-enabled and none otherwise, however many registrations the item holds.
Within one cycle, that is for the work items of one dispatch processed in any
order, at any times and with any outcomes, the stream-state fetch and the
content fetch are each issued at most once per entity ID. -/
theorem fetch_once_per_entity (b : Bot) (cfg : Config) :
    (∀ (writeOk sendOk : Nat → Bool) (userEntries : List MonitoredUser),
      fetches (checkUserLiveStreamOptimized b writeOk sendOk userEntries) =
        (match (userEntries.filter fun user => user.LiveEnabled).head? with
          | some p => [.GetStreamInfo p.UserID]
          | none => []) ∧
      fetches (checkUserPostsOptimized b writeOk sendOk userEntries) =
        (match (userEntries.filter fun user => user.PostsEnabled).head? with
          | some p => [.GetTimelinePost p.UserID]
          | none => [])) ∧
    (∀ (runs : List (Int × Outcomes × List MonitoredUser)) (k : String),
      (runs.map fun r => r.2.2).Perm (dispatchMonitoringJobs b) →
      (cycleEffects b cfg runs).count (.GetStreamInfo k) ≤ 1 ∧
      (cycleEffects b cfg runs).count (.GetTimelinePost k) ≤ 1) := by
  refine ⟨fun writeOk sendOk userEntries =>
    ⟨fetches_checkUserLiveStreamOptimized b writeOk sendOk userEntries,
      fetches_checkUserPostsOptimized b writeOk sendOk userEntries⟩, ?_⟩
  intro runs k hperm
  have hbound : ((runs.map fun r => r.2.2).map fun item : List MonitoredUser =>
      if item.any (fun u => decide (u.UserID = k)) then 1 else 0).sum ≤ 1 := by
    rw [(hperm.map _).sum_eq]
    cases hg : b.Repo.GetMonitoredUsers with
    | error err => simp [dispatchMonitoringJobs, hg]
    | ok users =>
      obtain ⟨ks, hnd, _, heq⟩ := dispatchMonitoringJobs_eq b users hg
      rw [heq]
      exact (sum_groups_le_count users k ks).trans (List.nodup_iff_count_le_one.mp hnd k)
  exact ⟨(count_fetch_cycleEffects b cfg k _ (Or.inl rfl) runs).trans hbound,
    (count_fetch_cycleEffects b cfg k _ (Or.inr rfl) runs).trans hbound⟩

/-- Witness of C9: the two work items of the sample rows, processed in the
order opposite to their insertion; the entity `e`, watched by two guilds, is
fetched once for its stream state and once for its content. -/
theorem fetch_once_per_entity_witness :
    (cycleEffects (sampleBotWith sampleUsers) sampleConfig
        [(0, sampleOutcomes, [{ sampleUser "g2" 0 "" with UserID := "f" }]),
          (0, sampleOutcomes, [sampleUser "g1" 0 "", sampleUser "g3" 0 ""])]).count
        (.GetStreamInfo "e") ≤ 1 ∧
    (cycleEffects (sampleBotWith sampleUsers) sampleConfig
        [(0, sampleOutcomes, [{ sampleUser "g2" 0 "" with UserID := "f" }]),
          (0, sampleOutcomes, [sampleUser "g1" 0 "", sampleUser "g3" 0 ""])]).count
        (.GetTimelinePost "e") ≤ 1 :=
  (fetch_once_per_entity (sampleBotWith sampleUsers) sampleConfig).2
    [(0, sampleOutcomes, [{ sampleUser "g2" 0 "" with UserID := "f" }]),
      (0, sampleOutcomes, [sampleUser "g1" 0 "", sampleUser "g3" 0 ""])] "e"
    (by rw [dispatch_sampleUsers]; exact List.Perm.swap _ _ _)

/-- Claim C10. When no template is configured for the placeholder (no format
record is found, the lookup fails, or the stored template is empty),
`formatNotificationMessage` returns the mention markup `<@&ID>` alone when the
mention target is non-empty and the empty string when it is empty, for every
display name and placeholder. -/
theorem format_without_template (b : Bot)
    (guildID userID username mentionRole placeholder : String)
    (h : ∀ f, b.Repo.GetNotificationFormats guildID userID = .ok (some f) →
      customFormatOf (some f) placeholder = "") :
    (formatNotificationMessage b guildID userID username mentionRole placeholder).2 =
      if mentionRole = "" then "" else "<@&" ++ mentionRole ++ ">" := by
  have hrender : ∀ formats, customFormatOf formats placeholder = "" →
      renderNotificationMessage formats username mentionRole placeholder =
        if mentionRole = "" then "" else "<@&" ++ mentionRole ++ ">" := by
    intro formats hc
    simp only [renderNotificationMessage, hc, ne_eq, not_true_eq_false, if_false, ite_not]
  unfold formatNotificationMessage
  cases hr : b.Repo.GetNotificationFormats guildID userID with
  | error err => exact hrender none rfl
  | ok formats =>
    cases formats with
    | none => exact hrender none rfl
    | some f => exact hrender (some f) (h f hr)

/-- Witness of C10: with no record stored, mention `""` gives `""`; with a
record that holds a post template only, the live mention `"R1"` gives
`"<@&R1>"`. -/
theorem format_without_template_witness :
    (formatNotificationMessage (sampleBot 0 0 []) "g1" "e" "Alice" "" "{liveMention}").2 = "" ∧
    (formatNotificationMessage (sampleBotWithFormat ⟨"g1", "e", "{username} posted", ""⟩)
      "g1" "e" "Alice" "R1" "{liveMention}").2 = "<@&R1>" :=
  ⟨format_without_template (sampleBot 0 0 []) "g1" "e" "Alice" "" "{liveMention}"
      (fun _ hf => by cases hf),
    format_without_template (sampleBotWithFormat ⟨"g1", "e", "{username} posted", ""⟩)
      "g1" "e" "Alice" "R1" "{liveMention}"
      (fun f hf => by
        have h1 : (⟨"g1", "e", "{username} posted", ""⟩ : UserNotificationFormat) = f :=
          Option.some.inj (Except.ok.inj hf)
        subst h1
        rfl)⟩

/-- Claim C11. For a stored template that is non-empty and contains the
mention placeholder, `formatNotificationMessage` returns the template in which
first `{username}` is replaced by the display name and then every occurrence of
the placeholder is replaced by the mention markup `<@&ID>`, or by the empty
string when no mention target is set; nothing is prepended. -/
theorem format_with_placeholder (b : Bot)
    (guildID userID username mentionRole placeholder template : String)
    (f : UserNotificationFormat)
    (hr : b.Repo.GetNotificationFormats guildID userID = .ok (some f))
    (ht : customFormatOf (some f) placeholder = template) (hne : template ≠ "")
    (hc : GoStrings.Contains template placeholder = true) :
    (formatNotificationMessage b guildID userID username mentionRole placeholder).2 =
      GoStrings.Replace (GoStrings.Replace template "{username}" username) placeholder
        (if mentionRole = "" then "" else "<@&" ++ mentionRole ++ ">") := by
  subst ht
  simp only [formatNotificationMessage, hr, renderNotificationMessage, hne, hc, ne_eq,
    not_false_eq_true, if_true, ite_not]

/-- Witness of C11: the template `{liveMention} {username} is live` with
mention `R1` and name `Alice` gives `<@&R1> Alice is live`. -/
theorem format_with_placeholder_witness :
    (formatNotificationMessage
      (sampleBotWithFormat ⟨"g1", "e", "", "{liveMention} {username} is live"⟩)
      "g1" "e" "Alice" "R1" "{liveMention}").2 = "<@&R1> Alice is live" :=
  format_with_placeholder
    (sampleBotWithFormat ⟨"g1", "e", "", "{liveMention} {username} is live"⟩)
    "g1" "e" "Alice" "R1" "{liveMention}" "{liveMention} {username} is live"
    ⟨"g1", "e", "", "{liveMention} {username} is live"⟩ rfl rfl (by decide) (by decide)

/-- Claim C12. For a stored template that is non-empty and does not contain
the mention placeholder, `formatNotificationMessage` returns the mention
markup, one space and the template with `{username}` replaced by the display
name when a mention target is set, and exactly the template with `{username}`
replaced when no mention target is set. -/
theorem format_without_placeholder (b : Bot)
    (guildID userID username mentionRole placeholder template : String)
    (f : UserNotificationFormat)
    (hr : b.Repo.GetNotificationFormats guildID userID = .ok (some f))
    (ht : customFormatOf (some f) placeholder = template) (hne : template ≠ "")
    (hc : GoStrings.Contains template placeholder = false) :
    (formatNotificationMessage b guildID userID username mentionRole placeholder).2 =
      if mentionRole = "" then GoStrings.Replace template "{username}" username
      else "<@&" ++ mentionRole ++ ">" ++ " " ++ GoStrings.Replace template "{username}" username := by
  subst ht
  by_cases hm : mentionRole = ""
  · simp [formatNotificationMessage, hr, renderNotificationMessage, hne, hc, hm]
  · have hmk : "<@&" ++ mentionRole ++ ">" ≠ "" := by
      intro h
      have := congrArg String.length h
      simp only [String.length_append] at this
      have h1 : ">".length = 1 := by decide
      have h2 : "".length = 0 := by decide
      have h3 : "<@&".length = 3 := by decide
      omega
    simp [formatNotificationMessage, hr, renderNotificationMessage, hne, hc, hm, hmk]

/-- Witness of C12: `{username} posted` with mention `R2` and name `Alice`
gives `<@&R2> Alice posted`; `Hi {username}!` with no mention gives
`Hi Alice!`. -/
theorem format_without_placeholder_witness :
    (formatNotificationMessage (sampleBotWithFormat ⟨"g1", "e", "{username} posted", ""⟩)
      "g1" "e" "Alice" "R2" "{postMention}").2 = "<@&R2> Alice posted" ∧
    (formatNotificationMessage (sampleBotWithFormat ⟨"g1", "e", "", "Hi {username}!"⟩)
      "g1" "e" "Alice" "" "{liveMention}").2 = "Hi Alice!" :=
  ⟨format_without_placeholder (sampleBotWithFormat ⟨"g1", "e", "{username} posted", ""⟩)
      "g1" "e" "Alice" "R2" "{postMention}" "{username} posted"
      ⟨"g1", "e", "{username} posted", ""⟩ rfl rfl (by decide) (by decide),
    format_without_placeholder (sampleBotWithFormat ⟨"g1", "e", "", "Hi {username}!"⟩)
      "g1" "e" "Alice" "" "{liveMention}" "Hi {username}!"
      ⟨"g1", "e", "", "Hi {username}!"⟩ rfl rfl (by decide) (by decide)⟩

/-- Claim C14. A detector never touches a registration for which its kind is
disabled: every registration for which `checkUserLiveStreamOptimized` attempts
a watermark write or a send is a live-enabled registration of the item, and
every one for which `checkUserPostsOptimized` does is a posts-enabled one; live
detection never writes a last post ID and content detection never writes a last
stream start; and when no registration of the item has the kind enabled the
detector makes no call at all (no fetch, no write, no send). -/
theorem detectors_touch_only_enabled (b : Bot) (writeOk sendOk : Nat → Bool)
    (userEntries : List MonitoredUser) :
    (∀ u, u ∈ watermarkWrites (checkUserLiveStreamOptimized b writeOk sendOk userEntries) ∨
        u ∈ sends (checkUserLiveStreamOptimized b writeOk sendOk userEntries) →
      u ∈ userEntries ∧ u.LiveEnabled = true) ∧
    (∀ u, u ∈ watermarkWrites (checkUserPostsOptimized b writeOk sendOk userEntries) ∨
        u ∈ sends (checkUserPostsOptimized b writeOk sendOk userEntries) →
      u ∈ userEntries ∧ u.PostsEnabled = true) ∧
    (∀ u postID ok, Effect.UpdateLastPostID u postID ok ∉
      checkUserLiveStreamOptimized b writeOk sendOk userEntries) ∧
    (∀ u timestamp ok, Effect.UpdateLastStreamStart u timestamp ok ∉
      checkUserPostsOptimized b writeOk sendOk userEntries) ∧
    ((∀ u ∈ userEntries, u.LiveEnabled = false) →
      checkUserLiveStreamOptimized b writeOk sendOk userEntries = []) ∧
    ((∀ u ∈ userEntries, u.PostsEnabled = false) →
      checkUserPostsOptimized b writeOk sendOk userEntries = []) := by
  refine ⟨?_, ?_, ?_, ?_, ?_, ?_⟩
  · rintro u (hu | hu)
    · obtain ⟨e, he, hw⟩ := List.mem_filterMap.mp hu
      exact touched_checkUserLiveStreamOptimized b writeOk sendOk userEntries u e he (Or.inl hw)
    · obtain ⟨e, he, hw⟩ := List.mem_filterMap.mp hu
      exact touched_checkUserLiveStreamOptimized b writeOk sendOk userEntries u e he (Or.inr hw)
  · rintro u (hu | hu)
    · obtain ⟨e, he, hw⟩ := List.mem_filterMap.mp hu
      exact touched_checkUserPostsOptimized b writeOk sendOk userEntries u e he (Or.inl hw)
    · obtain ⟨e, he, hw⟩ := List.mem_filterMap.mp hu
      exact touched_checkUserPostsOptimized b writeOk sendOk userEntries u e he (Or.inr hw)
  · intro u postID ok h
    obtain ⟨p, _, hcases⟩ := mem_checkUserLiveStreamOptimized b writeOk sendOk userEntries _ h
    rcases hcases with h | ⟨_, h⟩ | h | h | ⟨si, i, user, _, _, _, he⟩
    · cases h
    · cases h
    · cases h
    · cases h
    · rcases mem_liveNotify _ _ _ _ _ _ _ _ he with
        h | h | h | h | ⟨_, c, col, h⟩ | h | ⟨ch, h⟩ <;> cases h
  · intro u timestamp ok h
    obtain ⟨p, _, hcases⟩ := mem_checkUserPostsOptimized b writeOk sendOk userEntries _ h
    rcases hcases with h | ⟨_, h⟩ | h | h | ⟨latestPost, rest, i, user, _, _, he⟩
    · cases h
    · cases h
    · cases h
    · cases h
    · rcases (mem_postNotify _ _ _ _ _ _ _ _ he).2 with
        h | h | h | h | ⟨fl, h⟩ | ⟨_, c, col, h⟩ | h | ⟨ch, h⟩ <;> cases h
  · intro hall
    have hl : (userEntries.filter fun user => user.LiveEnabled) = [] := by
      rw [List.filter_eq_nil_iff]
      intro u hu
      simp [hall u hu]
    simp [checkUserLiveStreamOptimized, hl]
  · intro hall
    have hl : (userEntries.filter fun user => user.PostsEnabled) = [] := by
      rw [List.filter_eq_nil_iff]
      intro u hu
      simp [hall u hu]
    simp [checkUserPostsOptimized, hl]

/-- Witness of C14: in an item of a fully enabled and a fully disabled
registration only the enabled one is written and sent to, and an item of
disabled registrations alone causes no call. -/
theorem detectors_touch_only_enabled_witness :
    (sampleUser "g1" 0 "" ∈ [sampleUser "g1" 0 "",
        sampleDisabledUser] ∧
      (sampleUser "g1" 0 "").LiveEnabled = true) ∧
    checkUserLiveStreamOptimized (sampleBot 2 5 [⟨"abc", ""⟩]) allOk allOk
      [sampleDisabledUser] = [] :=
  have h := detectors_touch_only_enabled (sampleBot 2 5 [⟨"abc", ""⟩]) allOk allOk
    [sampleUser "g1" 0 "", sampleDisabledUser]
  have h2 := detectors_touch_only_enabled (sampleBot 2 5 [⟨"abc", ""⟩]) allOk allOk
    [sampleDisabledUser]
  ⟨h.1 (sampleUser "g1" 0 "") (Or.inr (by decide)), h2.2.2.2.2.1 (by decide)⟩

/-- Claim C15. Every live notification goes to the registration's
`LiveNotificationChannel` when that is non-empty and to its
`NotificationChannel` otherwise, and every content notification goes to its
`PostNotificationChannel` when that is non-empty and to its
`NotificationChannel` otherwise. -/
theorem destination_channel (b : Bot) (writeOk sendOk : Nat → Bool)
    (userEntries : List MonitoredUser) (user : MonitoredUser) (channel content : String)
    (embed : MessageEmbed) (ok : Bool) :
    (Effect.ChannelMessageSendComplex user channel content embed ok ∈
        checkUserLiveStreamOptimized b writeOk sendOk userEntries →
      channel = if user.LiveNotificationChannel ≠ "" then user.LiveNotificationChannel
        else user.NotificationChannel) ∧
    (Effect.ChannelMessageSendComplex user channel content embed ok ∈
        checkUserPostsOptimized b writeOk sendOk userEntries →
      channel = if user.PostNotificationChannel ≠ "" then user.PostNotificationChannel
        else user.NotificationChannel) := by
  constructor
  · intro h
    obtain ⟨p, _, hcases⟩ := mem_checkUserLiveStreamOptimized b writeOk sendOk userEntries _ h
    rcases hcases with h | ⟨_, h⟩ | h | h | ⟨si, i, x, _, _, _, he⟩
    · cases h
    · cases h
    · cases h
    · cases h
    · rcases mem_liveNotify _ _ _ _ _ _ _ _ he with
        h | h | h | h | ⟨_, c, col, h⟩ | h | ⟨ch, h⟩
      · cases h
      · cases h
      · cases h
      · cases h
      · injection h with h1 h2
        subst h1 h2
        simp only [ne_eq, ite_not]
      · cases h
      · cases h
  · intro h
    obtain ⟨p, _, hcases⟩ := mem_checkUserPostsOptimized b writeOk sendOk userEntries _ h
    rcases hcases with h | ⟨_, h⟩ | h | h | ⟨latestPost, rest, i, x, _, _, he⟩
    · cases h
    · cases h
    · cases h
    · cases h
    · rcases (mem_postNotify _ _ _ _ _ _ _ _ he).2 with
        h | h | h | h | ⟨fl, h⟩ | ⟨_, c, col, h⟩ | h | ⟨ch, h⟩
      · cases h
      · cases h
      · cases h
      · cases h
      · cases h
      · injection h with h1 h2
        subst h1 h2
        simp only [ne_eq, ite_not]
      · cases h
      · cases h

/-- Witness of C15: a registration with channels of its own is notified on
`live` and `posts`, one without on its general channel. -/
theorem destination_channel_witness :
    ("live" = if sampleChannelUser.LiveNotificationChannel ≠ "" then
        sampleChannelUser.LiveNotificationChannel else sampleChannelUser.NotificationChannel) ∧
    ("posts" = if sampleChannelUser.PostNotificationChannel ≠ "" then
        sampleChannelUser.PostNotificationChannel else sampleChannelUser.NotificationChannel) ∧
    ("general" = if (sampleUser "g1" 0 "").LiveNotificationChannel ≠ "" then
        (sampleUser "g1" 0 "").LiveNotificationChannel
      else (sampleUser "g1" 0 "").NotificationChannel) :=
  ⟨(destination_channel (sampleBot 2 5 [⟨"abc", ""⟩]) allOk allOk
      [sampleUser "g1" 0 "", sampleChannelUser] sampleChannelUser "live" ""
      (.liveStream "Alice" ⟨⟨⟨2, 5⟩⟩⟩ "" "" 0) true).1 (by decide),
    (destination_channel (sampleBot 2 5 [⟨"abc", ""⟩]) allOk allOk
      [sampleUser "g1" 0 "", sampleChannelUser] sampleChannelUser "posts" ""
      (.post "Alice" ⟨"abc", ""⟩ "" 0) true).2 (by decide),
    (destination_channel (sampleBot 2 5 [⟨"abc", ""⟩]) allOk allOk
      [sampleUser "g1" 0 "", sampleChannelUser] (sampleUser "g1" 0 "") "general" ""
      (.liveStream "Alice" ⟨⟨⟨2, 5⟩⟩⟩ "" "" 0) true).1 (by decide)⟩

/-- Claim C17. When the watermark write for a registration succeeds and the
send that follows fails, the watermark stays advanced. For the registration at
position `i` of the firing registrations (and position `j` of the item) with a
successful write and a failed send: the failed send is in the trace; every
watermark write of the run carries the new value, so there is no rollback; the
detector attempts one write per occurrence of the registration and no more
sends than that, so there is no further write and no retry; and the persisted
watermark after the run is the new value. -/
theorem watermark_stays_advanced_after_failed_send (b : Bot) (writeOk sendOk : Nat → Bool)
    (userEntries : List MonitoredUser) (user : MonitoredUser) (i j : Nat)
    (hj : userEntries[j]? = some user) (hw : writeOk i = true) (hs : sendOk i = false) :
    (∀ p si, (userEntries.filter fun u => u.LiveEnabled).head? = some p →
      b.APIClient.GetStreamInfo p.UserID = .ok si →
      (si.Response.Stream.Status = 2 ∧ si.Response.Stream.StartedAt > p.LastStreamStart) →
      (userEntries.filter fun u => u.LiveEnabled)[i]? = some user →
      (∃ channel content embed, Effect.ChannelMessageSendComplex user channel content embed
        false ∈ checkUserLiveStreamOptimized b writeOk sendOk userEntries) ∧
      (∀ u t ok, Effect.UpdateLastStreamStart u t ok ∈
        checkUserLiveStreamOptimized b writeOk sendOk userEntries →
        t = si.Response.Stream.StartedAt) ∧
      (watermarkWrites (checkUserLiveStreamOptimized b writeOk sendOk userEntries)).count user =
        (userEntries.filter fun u => u.LiveEnabled).count user ∧
      (sends (checkUserLiveStreamOptimized b writeOk sendOk userEntries)).count user ≤
        (userEntries.filter fun u => u.LiveEnabled).count user ∧
      ((persist userEntries (checkUserLiveStreamOptimized b writeOk sendOk userEntries))[j]?).map
        (fun r => r.LastStreamStart) = some si.Response.Stream.StartedAt) ∧
    (∀ p latestPost rest, (userEntries.filter fun u => u.PostsEnabled).head? = some p →
      b.APIClient.GetTimelinePost p.UserID = .ok (latestPost :: rest) →
      (userEntries.filter fun u => u.PostsEnabled)[i]? = some user →
      latestPost.ID ≠ user.LastPostID →
      (∃ channel content embed, Effect.ChannelMessageSendComplex user channel content embed
        false ∈ checkUserPostsOptimized b writeOk sendOk userEntries) ∧
      (∀ u q ok, Effect.UpdateLastPostID u q ok ∈
        checkUserPostsOptimized b writeOk sendOk userEntries → q = latestPost.ID) ∧
      (watermarkWrites (checkUserPostsOptimized b writeOk sendOk userEntries)).count user =
        (userEntries.filter fun u => u.PostsEnabled).count user ∧
      (sends (checkUserPostsOptimized b writeOk sendOk userEntries)).count user ≤
        (userEntries.filter fun u => u.PostsEnabled).count user ∧
      ((persist userEntries (checkUserPostsOptimized b writeOk sendOk userEntries))[j]?).map
        (fun r => r.LastPostID) = some latestPost.ID) := by
  constructor
  · intro p si hp hf hfire hi
    have hall := updateLastStreamStart_mem_checkUserLiveStreamOptimized b writeOk sendOk
      userEntries p si hp hf
    have hshape := checkUserLiveStreamOptimized_ok b writeOk sendOk userEntries p si hp hf
    rw [if_pos hfire] at hshape
    refine ⟨?_, hall, ?_, ?_, ?_⟩
    · have hsend : ∃ channel content embed,
          Effect.ChannelMessageSendComplex user channel content embed false ∈
            liveNotify b si (fetchColors b p.UserID).2 writeOk sendOk (0 + i) user := by
        simp only [liveNotify, Nat.zero_add, hw, hs, if_true]
        exact ⟨_, _, _, List.mem_append_right _ (List.mem_cons_self _ _)⟩
      obtain ⟨channel, content, embed, hmem⟩ := hsend
      refine ⟨channel, content, embed, ?_⟩
      rw [hshape]
      exact List.mem_append_right _ ((mem_forRange _ _ _ _).mpr ⟨i, user, hi, hmem⟩)
    · rw [watermarkWrites_checkUserLiveStreamOptimized b writeOk sendOk userEntries p si hp hf,
        if_pos hfire]
    · rw [sends_checkUserLiveStreamOptimized b writeOk sendOk userEntries p si hp hf,
        if_pos hfire]
      exact (keepAt_sublist _ _ _).count_le _
    · rw [persist_eq_map, List.getElem?_map, hj]
      simp only [Option.map]
      congr 1
      refine foldl_persistRow_stream_written _ _ user (fun v t h => hall v t true h)
        ⟨user, ?_, rfl, rfl⟩
      rw [hshape]
      refine List.mem_append_right _ ((mem_forRange _ _ _ _).mpr ⟨i, user, hi, ?_⟩)
      simp [liveNotify, hw]
  · intro p latestPost rest hp hf hi hne
    have hall := updateLastPostID_mem_checkUserPostsOptimized b writeOk sendOk userEntries p
      latestPost rest hp hf
    have hshape := checkUserPostsOptimized_ok b writeOk sendOk userEntries p latestPost rest
      hp hf
    refine ⟨?_, hall, ?_, ?_, ?_⟩
    · have hsend : ∃ channel content embed,
          Effect.ChannelMessageSendComplex user channel content embed false ∈
            postNotify b latestPost (fetchColors b p.UserID).2 writeOk sendOk (0 + i) user := by
        simp only [postNotify, Nat.zero_add, if_pos hne, hw, hs, if_true]
        exact ⟨_, _, _, List.mem_append_right _
          (List.mem_cons_of_mem _ (List.mem_cons_self _ _))⟩
      obtain ⟨channel, content, embed, hmem⟩ := hsend
      refine ⟨channel, content, embed, ?_⟩
      rw [hshape]
      exact List.mem_append_right _ ((mem_forRange _ _ _ _).mpr ⟨i, user, hi, hmem⟩)
    · rw [watermarkWrites_checkUserPostsOptimized b writeOk sendOk userEntries p latestPost rest
        hp hf]
      exact List.count_filter (by simpa using hne)
    · rw [sends_checkUserPostsOptimized b writeOk sendOk userEntries p latestPost rest hp hf]
      exact (keepAt_sublist _ _ _).count_le _
    · rw [persist_eq_map, List.getElem?_map, hj]
      simp only [Option.map]
      congr 1
      refine foldl_persistRow_written _ _ user (fun v t h => hall v t true h)
        ⟨user, ?_, rfl, rfl⟩
      rw [hshape]
      refine List.mem_append_right _ ((mem_forRange _ _ _ _).mpr ⟨i, user, hi, ?_⟩)
      simp [postNotify, hne, hw]

/-- Witness of C17: a single registration whose writes succeed and whose sends
fail ends the live run with `LastStreamStart = 5` and the content run with
`LastPostID = "abc"`. -/
theorem watermark_stays_advanced_after_failed_send_witness :
    ((persist [sampleUser "g1" 0 ""]
        (checkUserLiveStreamOptimized (sampleBot 2 5 [⟨"abc", ""⟩]) allOk (fun _ => false)
          [sampleUser "g1" 0 ""]))[0]?).map (fun r => r.LastStreamStart) = some 5 ∧
    ((persist [sampleUser "g1" 0 ""]
        (checkUserPostsOptimized (sampleBot 2 5 [⟨"abc", ""⟩]) allOk (fun _ => false)
          [sampleUser "g1" 0 ""]))[0]?).map (fun r => r.LastPostID) = some "abc" :=
  have h := watermark_stays_advanced_after_failed_send (sampleBot 2 5 [⟨"abc", ""⟩]) allOk
    (fun _ => false) [sampleUser "g1" 0 ""] (sampleUser "g1" 0 "") 0 0 rfl rfl rfl
  ⟨(h.1 (sampleUser "g1" 0 "") ⟨⟨⟨2, 5⟩⟩⟩ (by decide) rfl (by decide) (by decide)).2.2.2.2,
    (h.2 (sampleUser "g1" 0 "") ⟨"abc", ""⟩ [] (by decide) rfl (by decide)
      (by decide)).2.2.2.2⟩

/-- Claim C18. In a sequential execution that starts with both counters at
zero (the state a flush leaves) and records `n` calls, `k` of them successful,
with `n` below `2 ^ 64` (the range of the counters), a flush whose durable
update succeeds issues exactly one update, which adds `n` to the attempted total
and `k` to the succeeded total of the rows of the service, when `n > 0`; when
`n = 0` it issues no update and leaves the rows as they are. -/
theorem flush_adds_recorded_calls (a : Aggregator) (rows : List APIHealthStat)
    (calls : List Bool) (h0 : a.totalRequests = 0) (h1 : a.successfulRequests = 0)
    (hn : calls.length < 2 ^ 64) :
    (0 < calls.length →
      ((calls.foldl Aggregator.RecordCall a).FlushToDB true rows).durable =
        { rows := rows.map fun r =>
            if r.ServiceName = a.serviceName then
              { r with TotalRequests := r.TotalRequests + calls.length
                       SuccessfulRequests := r.SuccessfulRequests + calls.count true }
            else r
          updates := [(a.serviceName, calls.length, calls.count true)]
          failed := false }) ∧
    (calls.length = 0 →
      ((calls.foldl Aggregator.RecordCall a).FlushToDB true rows).durable =
        { rows := rows, updates := [], failed := false }) := by
  obtain ⟨k1, k2, k3⟩ := foldl_RecordCall calls a (by rw [h0]; decide) (by rw [h1]; decide)
  have hk : calls.count true < 2 ^ 64 := lt_of_le_of_lt (List.count_le_length _ _) hn
  rw [h0, Nat.zero_add, Nat.mod_eq_of_lt hn] at k2
  rw [h1, Nat.zero_add, Nat.mod_eq_of_lt hk] at k3
  constructor
  · intro hpos
    have hne : ¬ calls.length = 0 := by omega
    simp only [Aggregator.FlushToDB, k1, k2, k3, hne, if_false, UpdateAPIHealthBulk,
      false_and, if_true]
  · intro hzero
    simp only [Aggregator.FlushToDB, k2, hzero, if_true]

/-- Witness of C18: three calls, two of them successful, add 3 and 2 to the
row of the service in one update; no call gives no update. -/
theorem flush_adds_recorded_calls_witness :
    (([true, false, true].foldl Aggregator.RecordCall sampleAggregator).FlushToDB true
        sampleHealthRows).durable =
      { rows := [⟨"fansly_api", 13, 9⟩, ⟨"other", 3, 3⟩]
        updates := [("fansly_api", 3, 2)]
        failed := false } ∧
    (([].foldl Aggregator.RecordCall sampleAggregator).FlushToDB true sampleHealthRows).durable =
      { rows := sampleHealthRows, updates := [], failed := false } :=
  ⟨(flush_adds_recorded_calls sampleAggregator sampleHealthRows [true, false, true] rfl rfl
      (by decide)).1 (by decide),
    (flush_adds_recorded_calls sampleAggregator sampleHealthRows [] rfl rfl (by decide)).2 rfl⟩

/-- Claim C19. `FlushToDB` resets unconditionally: after every call both
counters are zero, whether or not the durable update succeeded; when the
update fails the durable rows are unchanged; and the delta of that interval is
lost, that is, an execution that records calls, flushes with a failing update
and goes on ends with the same counters and the same durable rows as the
execution that goes on from zero counters without the recorded calls. -/
theorem flush_resets_unconditionally (a : Aggregator) (dbOk : Bool)
    (rows : List APIHealthStat) :
    (a.FlushToDB dbOk rows).aggregator =
      { a with totalRequests := 0, successfulRequests := 0 } ∧
    (a.FlushToDB false rows).durable.rows = rows ∧
    (∀ (calls : List Bool) (later : List HealthOp),
      a.totalRequests = 0 → a.successfulRequests = 0 →
      runHealth (a, rows) (calls.map HealthOp.record ++ HealthOp.flush false :: later) =
        runHealth (a, rows) later) := by
  have hreset : ∀ (x : Aggregator) (ok : Bool),
      (x.FlushToDB ok rows).aggregator =
        { x with totalRequests := 0, successfulRequests := 0 } := by
    intro x ok
    simp only [Aggregator.FlushToDB]
    split_ifs <;> rfl
  have hrows : ∀ x : Aggregator, (x.FlushToDB false rows).durable.rows = rows := by
    intro x
    simp only [Aggregator.FlushToDB, UpdateAPIHealthBulk, Bool.false_eq_true, if_false]
    split_ifs <;> rfl
  refine ⟨hreset a dbOk, hrows a, ?_⟩
  intro calls later h0 h1
  rw [runHealth_append, runHealth_records]
  simp only [runHealth]
  rw [hreset, hrows]
  obtain ⟨k1, _, _⟩ := foldl_RecordCall calls a (by rw [h0]; decide) (by rw [h1]; decide)
  have hstate : ({ calls.foldl Aggregator.RecordCall a with
      totalRequests := 0, successfulRequests := 0 } : Aggregator) = a := by
    cases a
    simp only [Aggregator.mk.injEq] at *
    exact ⟨k1, h0.symm, h1.symm⟩
  rw [hstate]

/-- Witness of C19: three calls flushed with a failing update, then one call
flushed with success, add only that one call to the durable row. -/
theorem flush_resets_unconditionally_witness :
    (runHealth (sampleAggregator, sampleHealthRows)
        ([true, false, true].map HealthOp.record ++ HealthOp.flush false ::
          [HealthOp.record true, HealthOp.flush true])).2 =
      [⟨"fansly_api", 11, 8⟩, ⟨"other", 3, 3⟩] :=
  ((flush_resets_unconditionally sampleAggregator false sampleHealthRows).2.2
    [true, false, true] [HealthOp.record true, HealthOp.flush true] rfl rfl) ▸ (by decide)

/-- Claim C20. The worker count used by `monitorUsers` is the configured
count when that is positive and 1 when it is zero or negative; and for a
configured count below the largest `int` (where the loop counter does not
wrap) the start-up loop ends and starts exactly that many workers, with the ids
1, 2, ... up to the count. -/
theorem worker_count_clamped (cfg : Config) :
    numWorkers cfg = (if 0 < cfg.MonitorWorkerCount then cfg.MonitorWorkerCount else 1) ∧
    (cfg.MonitorWorkerCount < 9223372036854775807 →
      ∀ fuel : Nat, (numWorkers cfg).toNat < fuel →
        monitorUsersWorkers cfg fuel =
          some ((List.range (numWorkers cfg).toNat).map fun i : Nat => 1 + (i : Int)) ∧
        (((List.range (numWorkers cfg).toNat).map fun i : Nat => 1 + (i : Int)).length : Int) =
          if 0 < cfg.MonitorWorkerCount then cfg.MonitorWorkerCount else 1) := by
  have hclamp : numWorkers cfg =
      (if 0 < cfg.MonitorWorkerCount then cfg.MonitorWorkerCount else 1) := by
    unfold numWorkers
    split <;> split <;> omega
  refine ⟨hclamp, fun hrange fuel hfuel => ⟨?_, ?_⟩⟩
  · have hpos : 1 ≤ numWorkers cfg := by rw [hclamp]; split <;> omega
    have hlt : numWorkers cfg < 9223372036854775807 := by rw [hclamp]; split <;> omega
    exact startWorkers_spec (numWorkers cfg) hlt (numWorkers cfg).toNat 1 fuel (by omega)
      (by omega) hfuel
  · have hpos : 1 ≤ numWorkers cfg := by rw [hclamp]; split <;> omega
    rw [List.length_map, List.length_range, ← hclamp]
    omega

/-- Witness of C20: a configured count of 3 starts the workers 1, 2, 3; a
configured count of 0 or of -2 starts the single worker 1. -/
theorem worker_count_clamped_witness :
    monitorUsersWorkers { sampleConfig with MonitorWorkerCount := 3 } 4 = some [1, 2, 3] ∧
    monitorUsersWorkers { sampleConfig with MonitorWorkerCount := 0 } 2 = some [1] ∧
    monitorUsersWorkers { sampleConfig with MonitorWorkerCount := -2 } 2 = some [1] :=
  ⟨((worker_count_clamped { sampleConfig with MonitorWorkerCount := 3 }).2 (by decide) 4
      (by decide)).1,
    ((worker_count_clamped { sampleConfig with MonitorWorkerCount := 0 }).2 (by decide) 2
      (by decide)).1,
    ((worker_count_clamped { sampleConfig with MonitorWorkerCount := -2 }).2 (by decide) 2
      (by decide)).1⟩

/-- Claim C25. Every work item enqueued by `dispatchMonitoringJobs` is
non-empty, so the worker's `userEntries[0]` is in range and the iteration on the
item does not panic, for every result of the store (an empty list and a failed
read enqueue nothing). -/
theorem dispatched_items_nonempty (b : Bot) (item : List MonitoredUser)
    (h : item ∈ dispatchMonitoringJobs b) :
    item ≠ [] ∧ item[0]?.isSome = true ∧
      ∀ (cfg : Config) (now : Int) (o : Outcomes),
        (workerIteration b cfg now o item).isSome = true := by
  have hne : item ≠ [] := by
    cases hg : b.Repo.GetMonitoredUsers with
    | error err => simp [dispatchMonitoringJobs, hg] at h
    | ok users =>
      obtain ⟨ks, _, hkeys, heq⟩ := dispatchMonitoringJobs_eq b users hg
      rw [heq] at h
      obtain ⟨k, hk, rfl⟩ := List.mem_map.mp h
      obtain ⟨u, hu, huk⟩ := List.mem_map.mp ((hkeys k).mp hk)
      intro hnil
      have hmem : u ∈ users.filter fun v => decide (v.UserID = k) :=
        List.mem_filter.mpr ⟨hu, by simpa using huk⟩
      rw [hnil] at hmem
      simp at hmem
  cases item with
  | nil => exact absurd rfl hne
  | cons q rest => exact ⟨hne, by simp, fun _ _ _ => rfl⟩

/-- Witness of C25: the two items of the sample rows are non-empty, and an
empty store enqueues nothing. -/
theorem dispatched_items_nonempty_witness :
    ([sampleUser "g1" 0 "", sampleUser "g3" 0 ""] ≠ [] ∧
      [sampleUser "g1" 0 "", sampleUser "g3" 0 ""][0]?.isSome = true ∧
      ∀ (cfg : Config) (now : Int) (o : Outcomes),
        (workerIteration (sampleBotWith sampleUsers) cfg now o
          [sampleUser "g1" 0 "", sampleUser "g3" 0 ""]).isSome = true) ∧
    dispatchMonitoringJobs (sampleBotWith []) = [] :=
  ⟨dispatched_items_nonempty (sampleBotWith sampleUsers)
      [sampleUser "g1" 0 "", sampleUser "g3" 0 ""] (by decide), by decide⟩

/-- Claim C26, the claim as stated fails. The store query has no condition
and the dispatch loop tests no flag: a registration with both kinds disabled is
returned, placed in a work item, becomes its representative, and with a stale
avatar timestamp causes the upstream account lookup. -/
theorem disabled_registration_is_dispatched :
    (sampleDisabledUser.PostsEnabled = false ∧ sampleDisabledUser.LiveEnabled = false) ∧
    dispatchMonitoringJobs (sampleBotWith (GetMonitoredUsersQuery [sampleDisabledUser])) =
      [[sampleDisabledUser]] ∧
    workerIteration (sampleBotWith (GetMonitoredUsersQuery [sampleDisabledUser])) sampleConfig
        100000 sampleOutcomes [sampleDisabledUser] =
      some [.GetAccountInfo "Alice", .logError "Error refreshing avatar URL"] := by
  decide

/-- Claim C26, amended. The input of entity grouping is every registration
the store returns, whatever its flags: each of them is placed in a work item.
The kind flags are applied inside the detectors: a work item whose registrations
all have both kinds disabled causes no stream-state or content fetch, no
watermark write and no send in its worker iteration (what it can cause is the
avatar step of its representative). -/
theorem dispatch_takes_every_row (b : Bot) (table : List MonitoredUser)
    (h : b.Repo.GetMonitoredUsers = .ok (GetMonitoredUsersQuery table)) :
    (∀ u, u ∈ table ↔ ∃ item ∈ dispatchMonitoringJobs b, u ∈ item) ∧
    (∀ (cfg : Config) (now : Int) (o : Outcomes) (item : List MonitoredUser)
      (trace : List Effect),
      (∀ u ∈ item, u.PostsEnabled = false ∧ u.LiveEnabled = false) →
      workerIteration b cfg now o item = some trace →
      fetches trace = [] ∧ sends trace = [] ∧ watermarkWrites trace = []) := by
  constructor
  · obtain ⟨ks, _, hkeys, heq⟩ := dispatchMonitoringJobs_eq b table h
    intro u
    rw [heq]
    constructor
    · intro hu
      refine ⟨table.filter fun v => decide (v.UserID = u.UserID), ?_, ?_⟩
      · exact List.mem_map.mpr ⟨u.UserID, (hkeys _).mpr (List.mem_map_of_mem _ hu), rfl⟩
      · exact List.mem_filter.mpr ⟨hu, by simp⟩
    · rintro ⟨item, hitem, hu⟩
      obtain ⟨k, _, rfl⟩ := List.mem_map.mp hitem
      exact (List.mem_filter.mp hu).1
  · intro cfg now o item trace hoff ht
    cases item with
    | nil => simp [workerIteration] at ht
    | cons q rest =>
      simp only [workerIteration, Option.some.injEq] at ht
      subst ht
      have hoff2 : ∀ p ∈ (refreshAvatar b cfg now o q (q :: rest)).2,
          p.PostsEnabled = false ∧ p.LiveEnabled = false := by
        intro p hp
        obtain ⟨u, hu, h1, h2⟩ := flags_refreshAvatar b cfg now o q (q :: rest) p hp
        rw [← h1, ← h2]
        exact hoff u hu
      have hlive := (detectors_noop_of_disabled b o.liveWriteOk o.liveSendOk
        (refreshAvatar b cfg now o q (q :: rest)).2).1 fun u hu => (hoff2 u hu).2
      have hpost := (detectors_noop_of_disabled b o.postWriteOk o.postSendOk
        (refreshAvatar b cfg now o q (q :: rest)).2).2 fun u hu => (hoff2 u hu).1
      rw [hlive, hpost, List.append_nil, List.append_nil]
      exact ⟨fetches_refreshAvatar _ _ _ _ _ _, (sends_refreshAvatar _ _ _ _ _ _).1,
        (sends_refreshAvatar _ _ _ _ _ _).2⟩

/-- Witness of the amended C26: a fully disabled registration is in the item
of its entity, and its worker iteration fetches, writes and sends nothing. -/
theorem dispatch_takes_every_row_witness :
    (∃ item ∈ dispatchMonitoringJobs (sampleBotWith (GetMonitoredUsersQuery
        [sampleUser "g1" 0 "", sampleDisabledUser])), sampleDisabledUser ∈ item) ∧
    fetches [Effect.GetAccountInfo "Alice", Effect.logError "Error refreshing avatar URL"] =
      [] :=
  have h := dispatch_takes_every_row
    (sampleBotWith (GetMonitoredUsersQuery [sampleUser "g1" 0 "", sampleDisabledUser]))
    [sampleUser "g1" 0 "", sampleDisabledUser] rfl
  ⟨(h.1 sampleDisabledUser).mp (by decide),
    (h.2 sampleConfig 100000 sampleOutcomes [sampleDisabledUser] _
      (fun u hu => by
        have hu2 : u = sampleDisabledUser := by simpa using hu
        subst hu2
        exact ⟨rfl, rfl⟩)
      (by decide)).1⟩

/-- Claim C23. When the content fetch returns an empty list,
`checkUserPostsOptimized` makes no further call: no watermark write and no
send. When it returns a non-empty list only element 0 is used: the write is
attempted exactly for the posts-enabled registrations whose `LastPostID`
differs from the ID of element 0, every write carries that ID, and the whole
trace is the same for every tail of the list. -/
theorem posts_use_first_item_only (b : Bot) (writeOk sendOk : Nat → Bool)
    (userEntries : List MonitoredUser) (p : MonitoredUser)
    (hp : (userEntries.filter fun user => user.PostsEnabled).head? = some p) :
    (b.APIClient.GetTimelinePost p.UserID = .ok [] →
      checkUserPostsOptimized b writeOk sendOk userEntries = [.GetTimelinePost p.UserID]) ∧
    (∀ latestPost rest, b.APIClient.GetTimelinePost p.UserID = .ok (latestPost :: rest) →
      watermarkWrites (checkUserPostsOptimized b writeOk sendOk userEntries) =
        (userEntries.filter fun user => user.PostsEnabled).filter
          (fun u => decide (latestPost.ID ≠ u.LastPostID)) ∧
      (∀ u postID ok, Effect.UpdateLastPostID u postID ok ∈
        checkUserPostsOptimized b writeOk sendOk userEntries → postID = latestPost.ID) ∧
      (∀ (b2 : Bot) (rest2 : List Post), b2.Repo = b.Repo →
        b2.APIClient.GetTimelinePost p.UserID = .ok (latestPost :: rest2) →
        checkUserPostsOptimized b2 writeOk sendOk userEntries =
          checkUserPostsOptimized b writeOk sendOk userEntries)) := by
  constructor
  · intro hf
    cases hl : userEntries.filter fun user => user.PostsEnabled with
    | nil => simp [hl] at hp
    | cons q tl =>
      simp only [hl, List.head?_cons, Option.some.injEq] at hp
      subst hp
      simp only [checkUserPostsOptimized, hl, hf]
  · intro latestPost rest hf
    refine ⟨watermarkWrites_checkUserPostsOptimized b writeOk sendOk userEntries p latestPost
      rest hp hf, updateLastPostID_mem_checkUserPostsOptimized b writeOk sendOk userEntries p
      latestPost rest hp hf, ?_⟩
    intro b2 rest2 hrepo hf2
    rw [checkUserPostsOptimized_ok b writeOk sendOk userEntries p latestPost rest hp hf,
      checkUserPostsOptimized_ok b2 writeOk sendOk userEntries p latestPost rest2 hp hf2,
      fetchColors_congr b b2 hrepo, postNotify_congr b b2 hrepo]

/-- Witness of C23: an empty fetch gives the fetch alone; the lists `[abc]`
and `[abc, old]` give the same trace. -/
theorem posts_use_first_item_only_witness :
    checkUserPostsOptimized (sampleBot 0 0 []) allOk allOk [sampleUser "g1" 0 ""] =
      [.GetTimelinePost "e"] ∧
    checkUserPostsOptimized (sampleBot 0 0 [⟨"abc", ""⟩, ⟨"old", ""⟩]) allOk allOk
        [sampleUser "g1" 0 ""] =
      checkUserPostsOptimized (sampleBot 0 0 [⟨"abc", ""⟩]) allOk allOk [sampleUser "g1" 0 ""] :=
  ⟨(posts_use_first_item_only (sampleBot 0 0 []) allOk allOk [sampleUser "g1" 0 ""]
      (sampleUser "g1" 0 "") (by decide)).1 rfl,
    ((posts_use_first_item_only (sampleBot 0 0 [⟨"abc", ""⟩]) allOk allOk
      [sampleUser "g1" 0 ""] (sampleUser "g1" 0 "") (by decide)).2 ⟨"abc", ""⟩ [] rfl).2.2
      (sampleBot 0 0 [⟨"abc", ""⟩, ⟨"old", ""⟩]) [⟨"old", ""⟩] rfl rfl⟩

/-- Claim C27. Within one worker iteration live detection strictly precedes
content detection: in the trace of the iteration no stream-state fetch, write
of a last stream start or live send comes after a content fetch, a write of a
last post ID or a content send. -/
theorem live_precedes_content (b : Bot) (cfg : Config) (now : Int) (o : Outcomes)
    (userEntries : List MonitoredUser) (trace pre post : List Effect) (e : Effect)
    (ht : workerIteration b cfg now o userEntries = some trace)
    (hsplit : trace = pre ++ e :: post) (he : e.isPostStep = true) :
    ∀ e2 ∈ post, e2.isLiveStep = false := by
  cases userEntries with
  | nil => simp [workerIteration] at ht
  | cons q rest =>
    simp only [workerIteration, Option.some.injEq] at ht
    subst ht
    refine no_liveStep_after_postStep _ _ ?_ ?_ pre post e hsplit he
    · intro x hx
      rcases List.mem_append.mp hx with hx | hx
      · rcases mem_refreshAvatar _ _ _ _ _ _ _ hx with rfl | ⟨w, rfl⟩ | ⟨u, a, ok, rfl⟩ <;> rfl
      · exact isPostStep_checkUserLiveStreamOptimized b _ _ _ x hx
    · intro x hx
      exact isLiveStep_checkUserPostsOptimized b _ _ _ x hx

/-- Witness of C27: in the iteration of a registration with both kinds firing,
the content send that follows the content fetch is no live step. -/
theorem live_precedes_content_witness :
    workerIteration (sampleBot 2 5 [⟨"abc", ""⟩]) sampleConfig 0 sampleOutcomes
        [sampleUser "g1" 0 ""] =
      some ([Effect.GetStreamInfo "e", Effect.GetEmbedColorsForUser "e",
          Effect.UpdateLastStreamStart (sampleUser "g1" 0 "") 5 true,
          Effect.GetNotificationFormats "g1" "e",
          Effect.ChannelMessageSendComplex (sampleUser "g1" 0 "") "general" ""
            (.liveStream "Alice" ⟨⟨⟨2, 5⟩⟩⟩ "" "" 0) true,
          Effect.IncrementLiveCount] ++
        Effect.GetTimelinePost "e" ::
          [Effect.GetEmbedColorsForUser "e",
            Effect.UpdateLastPostID (sampleUser "g1" 0 "") "abc" true,
            Effect.GetNotificationFormats "g1" "e",
            Effect.logFirstPost (sampleUser "g1" 0 "") true,
            Effect.ChannelMessageSendComplex (sampleUser "g1" 0 "") "general" ""
              (.post "Alice" ⟨"abc", ""⟩ "" 0) true,
            Effect.IncrementPostCount]) ∧
    (Effect.ChannelMessageSendComplex (sampleUser "g1" 0 "") "general" ""
      (.post "Alice" ⟨"abc", ""⟩ "" 0) true).isLiveStep = false :=
  ⟨by decide,
    live_precedes_content (sampleBot 2 5 [⟨"abc", ""⟩]) sampleConfig 0 sampleOutcomes
      [sampleUser "g1" 0 ""] _
      [Effect.GetStreamInfo "e", Effect.GetEmbedColorsForUser "e",
        Effect.UpdateLastStreamStart (sampleUser "g1" 0 "") 5 true,
        Effect.GetNotificationFormats "g1" "e",
        Effect.ChannelMessageSendComplex (sampleUser "g1" 0 "") "general" ""
          (.liveStream "Alice" ⟨⟨⟨2, 5⟩⟩⟩ "" "" 0) true,
        Effect.IncrementLiveCount]
      [Effect.GetEmbedColorsForUser "e",
        Effect.UpdateLastPostID (sampleUser "g1" 0 "") "abc" true,
        Effect.GetNotificationFormats "g1" "e",
        Effect.logFirstPost (sampleUser "g1" 0 "") true,
        Effect.ChannelMessageSendComplex (sampleUser "g1" 0 "") "general" ""
          (.post "Alice" ⟨"abc", ""⟩ "" 0) true,
        Effect.IncrementPostCount]
      (Effect.GetTimelinePost "e") rfl (by decide) rfl
      (Effect.ChannelMessageSendComplex (sampleUser "g1" 0 "") "general" ""
        (.post "Alice" ⟨"abc", ""⟩ "" 0) true) (by decide)⟩

/-- Claim C28. When the lookup of the format record of a registration fails
or finds no record, `formatNotificationMessage` returns what it returns with no
template configured, the mention markup alone (the empty string with no mention
target), and the notification is still sent: the loop iteration of the
registration issues its send with that text, in both detectors. -/
theorem format_lookup_failure_is_no_template (b : Bot) (user : MonitoredUser)
    (h : (∃ err, b.Repo.GetNotificationFormats user.GuildID user.UserID = .error err) ∨
      b.Repo.GetNotificationFormats user.GuildID user.UserID = .ok none) :
    (∀ username mentionRole placeholder,
      (formatNotificationMessage b user.GuildID user.UserID username mentionRole
        placeholder).2 = if mentionRole = "" then "" else "<@&" ++ mentionRole ++ ">") ∧
    (∀ (si : StreamResponse) (cm : List (String × UserEmbedColor))
      (writeOk sendOk : Nat → Bool) (i : Nat), writeOk i = true →
      ∃ channel embed, Effect.ChannelMessageSendComplex user channel
        (if user.LiveMentionRole = "" then "" else "<@&" ++ user.LiveMentionRole ++ ">")
        embed (sendOk i) ∈ liveNotify b si cm writeOk sendOk i user) ∧
    (∀ (latestPost : Post) (cm : List (String × UserEmbedColor))
      (writeOk sendOk : Nat → Bool) (i : Nat), latestPost.ID ≠ user.LastPostID →
      writeOk i = true →
      ∃ channel embed, Effect.ChannelMessageSendComplex user channel
        (if user.PostMentionRole = "" then "" else "<@&" ++ user.PostMentionRole ++ ">")
        embed (sendOk i) ∈ postNotify b latestPost cm writeOk sendOk i user) := by
  have htext : ∀ username mentionRole placeholder,
      (formatNotificationMessage b user.GuildID user.UserID username mentionRole
        placeholder).2 = if mentionRole = "" then "" else "<@&" ++ mentionRole ++ ">" := by
    intro username mentionRole placeholder
    rcases h with ⟨err, h⟩ | h <;>
      simp only [formatNotificationMessage, h] <;>
      exact render_of_empty_template none _ _ _ rfl
  refine ⟨htext, ?_, ?_⟩
  · intro si cm writeOk sendOk i hw
    rw [← htext user.Username user.LiveMentionRole "{liveMention}"]
    exact send_mem_liveNotify b si cm writeOk sendOk i user hw
  · intro latestPost cm writeOk sendOk i hne hw
    rw [← htext user.Username user.PostMentionRole "{postMention}"]
    exact send_mem_postNotify b latestPost cm writeOk sendOk i user hne hw

/-- Witness of C28: with a failing lookup the text for mention `R1` is
`<@&R1>` and the text for no mention is empty. -/
theorem format_lookup_failure_is_no_template_witness :
    (formatNotificationMessage (sampleBotFormats (.error "down")) "g1" "e" "Alice" "R1"
      "{liveMention}").2 = "<@&R1>" ∧
    (formatNotificationMessage (sampleBotFormats (.ok none)) "g1" "e" "Alice" ""
      "{postMention}").2 = "" :=
  ⟨(format_lookup_failure_is_no_template (sampleBotFormats (.error "down"))
      (sampleUser "g1" 0 "") (Or.inl ⟨"down", rfl⟩)).1 "Alice" "R1" "{liveMention}",
    (format_lookup_failure_is_no_template (sampleBotFormats (.ok none))
      (sampleUser "g1" 0 "") (Or.inr rfl)).1 "Alice" "" "{postMention}"⟩

/-- Claim C29. The template is selected by the placeholder alone. With
`{liveMention}` the template used is the stored live template and with
`{postMention}` the stored post template: the text returned is the rendering of
that template (the mention markup alone when it is empty; otherwise the
template with the display name substituted and the markup substituted for the
placeholder, or put in front with one space when the template has no
placeholder). Hence two stored records with the same template of that kind give
the same text for every display name and mention target, whatever their
template of the other kind. For every other placeholder the text is the mention
markup alone. Live detection calls the formatter with `{liveMention}` and
content detection with `{postMention}`. -/
theorem template_selected_by_placeholder (b1 b2 : Bot) (g1 u1 g2 u2 : String)
    (f1 f2 : UserNotificationFormat)
    (h1 : b1.Repo.GetNotificationFormats g1 u1 = .ok (some f1))
    (h2 : b2.Repo.GetNotificationFormats g2 u2 = .ok (some f2)) :
    (customFormatOf (some f1) "{liveMention}" = f1.LiveMessageFormat ∧
      customFormatOf (some f1) "{postMention}" = f1.PostMessageFormat) ∧
    (∀ username mentionRole,
      (formatNotificationMessage b1 g1 u1 username mentionRole "{liveMention}").2 =
        if f1.LiveMessageFormat = "" then
          (if mentionRole = "" then "" else "<@&" ++ mentionRole ++ ">")
        else if GoStrings.Contains f1.LiveMessageFormat "{liveMention}" = true then
          GoStrings.Replace (GoStrings.Replace f1.LiveMessageFormat "{username}" username)
            "{liveMention}" (if mentionRole = "" then "" else "<@&" ++ mentionRole ++ ">")
        else if mentionRole = "" then
          GoStrings.Replace f1.LiveMessageFormat "{username}" username
        else "<@&" ++ mentionRole ++ ">" ++ " " ++
          GoStrings.Replace f1.LiveMessageFormat "{username}" username) ∧
    (∀ username mentionRole,
      (formatNotificationMessage b1 g1 u1 username mentionRole "{postMention}").2 =
        if f1.PostMessageFormat = "" then
          (if mentionRole = "" then "" else "<@&" ++ mentionRole ++ ">")
        else if GoStrings.Contains f1.PostMessageFormat "{postMention}" = true then
          GoStrings.Replace (GoStrings.Replace f1.PostMessageFormat "{username}" username)
            "{postMention}" (if mentionRole = "" then "" else "<@&" ++ mentionRole ++ ">")
        else if mentionRole = "" then
          GoStrings.Replace f1.PostMessageFormat "{username}" username
        else "<@&" ++ mentionRole ++ ">" ++ " " ++
          GoStrings.Replace f1.PostMessageFormat "{username}" username) ∧
    (f1.LiveMessageFormat = f2.LiveMessageFormat → ∀ username mentionRole,
      (formatNotificationMessage b1 g1 u1 username mentionRole "{liveMention}").2 =
        (formatNotificationMessage b2 g2 u2 username mentionRole "{liveMention}").2) ∧
    (f1.PostMessageFormat = f2.PostMessageFormat → ∀ username mentionRole,
      (formatNotificationMessage b1 g1 u1 username mentionRole "{postMention}").2 =
        (formatNotificationMessage b2 g2 u2 username mentionRole "{postMention}").2) ∧
    (∀ username mentionRole placeholder, placeholder ≠ "{postMention}" →
      placeholder ≠ "{liveMention}" →
      (formatNotificationMessage b1 g1 u1 username mentionRole placeholder).2 =
        if mentionRole = "" then "" else "<@&" ++ mentionRole ++ ">") ∧
    (∀ (si : StreamResponse) (cm : List (String × UserEmbedColor))
      (writeOk sendOk : Nat → Bool) (i : Nat) (user : MonitoredUser), writeOk i = true →
      ∃ channel embed, Effect.ChannelMessageSendComplex user channel
        (formatNotificationMessage b1 user.GuildID user.UserID user.Username
          user.LiveMentionRole "{liveMention}").2 embed (sendOk i) ∈
        liveNotify b1 si cm writeOk sendOk i user) ∧
    (∀ (latestPost : Post) (cm : List (String × UserEmbedColor))
      (writeOk sendOk : Nat → Bool) (i : Nat) (user : MonitoredUser),
      latestPost.ID ≠ user.LastPostID → writeOk i = true →
      ∃ channel embed, Effect.ChannelMessageSendComplex user channel
        (formatNotificationMessage b1 user.GuildID user.UserID user.Username
          user.PostMentionRole "{postMention}").2 embed (sendOk i) ∈
        postNotify b1 latestPost cm writeOk sendOk i user) := by
  have hlive : ∀ f : UserNotificationFormat,
      customFormatOf (some f) "{liveMention}" = f.LiveMessageFormat := by
    intro f
    simp [customFormatOf]
  have hpost : ∀ f : UserNotificationFormat,
      customFormatOf (some f) "{postMention}" = f.PostMessageFormat := by
    intro f
    simp [customFormatOf]
  refine ⟨⟨hlive f1, hpost f1⟩, ?_, ?_, ?_, ?_, ?_, ?_, ?_⟩
  · intro username mentionRole
    simp only [formatNotificationMessage, h1]
    exact render_of_template _ _ _ _ _ (hlive f1)
  · intro username mentionRole
    simp only [formatNotificationMessage, h1]
    exact render_of_template _ _ _ _ _ (hpost f1)
  · intro heq username mentionRole
    have hc : customFormatOf (some f1) "{liveMention}" =
        customFormatOf (some f2) "{liveMention}" := by
      rw [hlive, hlive, heq]
    simp only [formatNotificationMessage, h1, h2, renderNotificationMessage, hc]
  · intro heq username mentionRole
    have hc : customFormatOf (some f1) "{postMention}" =
        customFormatOf (some f2) "{postMention}" := by
      rw [hpost, hpost, heq]
    simp only [formatNotificationMessage, h1, h2, renderNotificationMessage, hc]
  · intro username mentionRole placeholder hp hl
    simp only [formatNotificationMessage, h1]
    exact render_of_empty_template _ _ _ _ (by simp [customFormatOf, hp, hl])
  · intro si cm writeOk sendOk i user hw
    exact send_mem_liveNotify b1 si cm writeOk sendOk i user hw
  · intro latestPost cm writeOk sendOk i user hne hw
    exact send_mem_postNotify b1 latestPost cm writeOk sendOk i user hne hw

/-- Witness of C29: with the post template `{username} posted` and the live
template `{username} is live` stored, the live text is rendered from the live
template and the post text from the post template; a record with another post
template gives the same live text, and an unknown placeholder gives the markup
alone. -/
theorem template_selected_by_placeholder_witness :
    (formatNotificationMessage
        (sampleBotWithFormat ⟨"g1", "e", "{username} posted", "{username} is live"⟩)
        "g1" "e" "Alice" "R1" "{liveMention}").2 = "<@&R1> Alice is live" ∧
    (formatNotificationMessage
        (sampleBotWithFormat ⟨"g1", "e", "{username} posted", "{username} is live"⟩)
        "g1" "e" "Alice" "R1" "{postMention}").2 = "<@&R1> Alice posted" ∧
    (formatNotificationMessage
        (sampleBotWithFormat ⟨"g1", "e", "{username} posted", "{username} is live"⟩)
        "g1" "e" "Alice" "R1" "{liveMention}").2 =
      (formatNotificationMessage
        (sampleBotWithFormat ⟨"g1", "e", "new post by {username}", "{username} is live"⟩)
        "g1" "e" "Alice" "R1" "{liveMention}").2 ∧
    (formatNotificationMessage
        (sampleBotWithFormat ⟨"g1", "e", "{username} posted", "{username} is live"⟩)
        "g1" "e" "Alice" "R1" "{mention}").2 = "<@&R1>" :=
  have h := template_selected_by_placeholder
    (sampleBotWithFormat ⟨"g1", "e", "{username} posted", "{username} is live"⟩)
    (sampleBotWithFormat ⟨"g1", "e", "new post by {username}", "{username} is live"⟩)
    "g1" "e" "g1" "e" ⟨"g1", "e", "{username} posted", "{username} is live"⟩
    ⟨"g1", "e", "new post by {username}", "{username} is live"⟩ rfl rfl
  ⟨(h.2.1 "Alice" "R1").trans (by decide), (h.2.2.1 "Alice" "R1").trans (by decide),
    h.2.2.2.1 rfl "Alice" "R1",
    h.2.2.2.2.2.1 "Alice" "R1" "{mention}" (by decide) (by decide)⟩

/-- Claim C24. In the iteration on a work item the worker attempts the avatar
refresh (the account lookup for the representative, the first registration)
exactly when the `int64` difference of the current Unix time and the
representative's `AvatarLocationUpdatedAt` is greater than the interval in
seconds, which for Unix times and intervals in range is the plain comparison
`now - AvatarLocationUpdatedAt > hours * 3600`. When the fetch succeeds a store
update with the new reference is attempted for every registration of the item
and detection runs on the item with the new reference in every entry; when the
fetch fails no avatar write is attempted and live and content detection run on
the unchanged item; without an attempt detection runs on the unchanged item. -/
theorem avatar_refresh_of_representative (b : Bot) (cfg : Config) (now : Int) (o : Outcomes)
    (primaryUser : MonitoredUser) (rest : List MonitoredUser) (trace : List Effect)
    (ht : workerIteration b cfg now o (primaryUser :: rest) = some trace) :
    ((∃ username, Effect.GetAccountInfo username ∈ trace) ↔
      wrapInt64 (now - primaryUser.AvatarLocationUpdatedAt) >
        wrapInt64 (wrapInt64 (cfg.AvatarRefreshIntervalHours * 60) * 60)) ∧
    (∀ username, Effect.GetAccountInfo username ∈ trace → username = primaryUser.Username) ∧
    (-4611686018427387904 ≤ now → now < 4611686018427387904 →
      -4611686018427387904 ≤ primaryUser.AvatarLocationUpdatedAt →
      primaryUser.AvatarLocationUpdatedAt < 4611686018427387904 →
      -2562047788015215 ≤ cfg.AvatarRefreshIntervalHours →
      cfg.AvatarRefreshIntervalHours ≤ 2562047788015215 →
      ((∃ username, Effect.GetAccountInfo username ∈ trace) ↔
        now - primaryUser.AvatarLocationUpdatedAt > cfg.AvatarRefreshIntervalHours * 3600)) ∧
    (wrapInt64 (now - primaryUser.AvatarLocationUpdatedAt) >
        wrapInt64 (wrapInt64 (cfg.AvatarRefreshIntervalHours * 60) * 60) →
      (∀ newAvatarLocation,
        (refreshAvatarURL b primaryUser.Username).2 = .ok newAvatarLocation →
        avatarWrites trace = primaryUser :: rest ∧
        (∀ u a ok, Effect.UpdateAvatarInfo u a ok ∈ trace → a = newAvatarLocation) ∧
        ∃ avatarTrace, trace = avatarTrace ++
          checkUserLiveStreamOptimized b o.liveWriteOk o.liveSendOk
            ((primaryUser :: rest).map fun user =>
              { user with AvatarLocation := newAvatarLocation }) ++
          checkUserPostsOptimized b o.postWriteOk o.postSendOk
            ((primaryUser :: rest).map fun user =>
              { user with AvatarLocation := newAvatarLocation })) ∧
      (∀ err, (refreshAvatarURL b primaryUser.Username).2 = .error err →
        trace = [.GetAccountInfo primaryUser.Username,
            .logError "Error refreshing avatar URL"] ++
          checkUserLiveStreamOptimized b o.liveWriteOk o.liveSendOk (primaryUser :: rest) ++
          checkUserPostsOptimized b o.postWriteOk o.postSendOk (primaryUser :: rest))) ∧
    (¬ wrapInt64 (now - primaryUser.AvatarLocationUpdatedAt) >
        wrapInt64 (wrapInt64 (cfg.AvatarRefreshIntervalHours * 60) * 60) →
      trace = checkUserLiveStreamOptimized b o.liveWriteOk o.liveSendOk (primaryUser :: rest) ++
        checkUserPostsOptimized b o.postWriteOk o.postSendOk (primaryUser :: rest)) := by
  simp only [workerIteration, Option.some.injEq] at ht
  subst ht
  have hdet : ∀ e,
      e ∈ checkUserLiveStreamOptimized b o.liveWriteOk o.liveSendOk
          (refreshAvatar b cfg now o primaryUser (primaryUser :: rest)).2 ∨
        e ∈ checkUserPostsOptimized b o.postWriteOk o.postSendOk
          (refreshAvatar b cfg now o primaryUser (primaryUser :: rest)).2 →
      e.isAvatarStep = false := by
    rintro e (he | he)
    · exact isAvatarStep_checkUserLiveStreamOptimized b _ _ _ e he
    · exact isAvatarStep_checkUserPostsOptimized b _ _ _ e he
  have hsplit : ∀ e, e.isAvatarStep = true →
      e ∈ (refreshAvatar b cfg now o primaryUser (primaryUser :: rest)).1 ++
          checkUserLiveStreamOptimized b o.liveWriteOk o.liveSendOk
            (refreshAvatar b cfg now o primaryUser (primaryUser :: rest)).2 ++
          checkUserPostsOptimized b o.postWriteOk o.postSendOk
            (refreshAvatar b cfg now o primaryUser (primaryUser :: rest)).2 →
      e ∈ (refreshAvatar b cfg now o primaryUser (primaryUser :: rest)).1 := by
    intro e hav he
    rcases List.mem_append.mp he with he | he
    · rcases List.mem_append.mp he with he | he
      · exact he
      · rw [hdet e (Or.inl he)] at hav; cases hav
    · rw [hdet e (Or.inr he)] at hav; cases hav
  have hiff : (∃ username, Effect.GetAccountInfo username ∈
        (refreshAvatar b cfg now o primaryUser (primaryUser :: rest)).1 ++
          checkUserLiveStreamOptimized b o.liveWriteOk o.liveSendOk
            (refreshAvatar b cfg now o primaryUser (primaryUser :: rest)).2 ++
          checkUserPostsOptimized b o.postWriteOk o.postSendOk
            (refreshAvatar b cfg now o primaryUser (primaryUser :: rest)).2) ↔
      wrapInt64 (now - primaryUser.AvatarLocationUpdatedAt) >
        wrapInt64 (wrapInt64 (cfg.AvatarRefreshIntervalHours * 60) * 60) := by
    constructor
    · rintro ⟨username, hmem⟩
      by_contra hc
      have h1 := hsplit (Effect.GetAccountInfo username) rfl hmem
      rw [refreshAvatar_skip b cfg now o primaryUser _ hc] at h1
      simp at h1
    · intro hc
      refine ⟨primaryUser.Username, ?_⟩
      apply List.mem_append_left
      apply List.mem_append_left
      cases hurl : (refreshAvatarURL b primaryUser.Username).2 with
      | error err =>
        rw [refreshAvatar_error b cfg now o primaryUser _ hc err hurl]
        exact List.mem_cons_self _ _
      | ok loc =>
        rw [refreshAvatar_ok b cfg now o primaryUser _ hc loc hurl]
        exact List.mem_append_left _ (List.mem_cons_self _ _)
  refine ⟨hiff, ?_, ?_, ?_, ?_⟩
  · intro username hmem
    have h1 := hsplit (Effect.GetAccountInfo username) rfl hmem
    rcases mem_refreshAvatar _ _ _ _ _ _ _ h1 with h | ⟨w, h⟩ | ⟨u, a, ok, h⟩
    · injection h
    · cases h
    · cases h
  · intro h1 h2 h3 h4 h5 h6
    rw [hiff]
    exact avatar_test_plain now _ _ h1 h2 h3 h4 h5 h6
  · intro hc
    constructor
    · intro loc hurl
      rw [refreshAvatar_ok b cfg now o primaryUser _ hc loc hurl] at hsplit ⊢
      refine ⟨?_, ?_, _, rfl⟩
      · rw [avatarWrites_append, avatarWrites_append, avatarWrites_append,
          avatarWrites_avatarLoop,
          avatarWrites_eq_nil_of _ fun e he =>
            isAvatarStep_checkUserLiveStreamOptimized b _ _ _ e he,
          avatarWrites_eq_nil_of _ fun e he =>
            isAvatarStep_checkUserPostsOptimized b _ _ _ e he]
        simp [avatarWrites, Effect.avatarWriteFor]
      · intro u a ok hmem
        have h1 := hsplit (Effect.UpdateAvatarInfo u a ok) rfl hmem
        rcases List.mem_append.mp h1 with h1 | h1
        · simp at h1
        · obtain ⟨j, x, _, hx⟩ := (mem_forRange _ _ _ _).mp h1
          split at hx
          · simp only [List.mem_singleton] at hx
            injection hx with _ h2 _
          · simp only [List.mem_cons, List.mem_singleton, List.not_mem_nil, or_false] at hx
            rcases hx with hx | hx
            · injection hx with _ h2 _
            · cases hx
    · intro err hurl
      rw [refreshAvatar_error b cfg now o primaryUser _ hc err hurl]
  · intro hc
    rw [refreshAvatar_skip b cfg now o primaryUser _ hc]
    rfl

theorem avatar_refresh_of_representative_witness :
    workerIteration sampleBotAvatar sampleConfig 100000 sampleOutcomes
        [sampleUser "g1" 0 "", sampleFreshAvatarUser] =
      some [Effect.GetAccountInfo "Alice",
        Effect.UpdateAvatarInfo (sampleUser "g1" 0 "") "new-avatar" true,
        Effect.UpdateAvatarInfo sampleFreshAvatarUser "new-avatar" true,
        Effect.GetStreamInfo "e", Effect.logError "Error fetching stream info",
        Effect.GetTimelinePost "e", Effect.logError "Error fetching post info"] ∧
    avatarWrites [Effect.GetAccountInfo "Alice",
        Effect.UpdateAvatarInfo (sampleUser "g1" 0 "") "new-avatar" true,
        Effect.UpdateAvatarInfo sampleFreshAvatarUser "new-avatar" true,
        Effect.GetStreamInfo "e", Effect.logError "Error fetching stream info",
        Effect.GetTimelinePost "e", Effect.logError "Error fetching post info"] =
      [sampleUser "g1" 0 "", sampleFreshAvatarUser] :=
  ⟨by decide,
    ((avatar_refresh_of_representative sampleBotAvatar sampleConfig 100000 sampleOutcomes
      (sampleUser "g1" 0 "") [sampleFreshAvatarUser] _ (by decide)).2.2.2.1
        (by decide)).1 "new-avatar" rfl |>.1⟩

/-- Claim C21 (counterexample to the claim as written). With a refresh interval
of 24 hours and the current time 100000, a work item whose representative was
last refreshed at time 0 and whose second registration was refreshed at time
100000 makes the worker write new avatar information for the second
registration too, although the current time minus that registration's own
`AvatarLocationUpdatedAt` is 0 and does not exceed the interval. -/
theorem avatar_written_for_fresh_registration :
    (∃ trace, workerIteration sampleBotAvatar sampleConfig 100000 sampleOutcomes
        [sampleUser "g1" 0 "", sampleFreshAvatarUser] = some trace ∧
      Effect.UpdateAvatarInfo sampleFreshAvatarUser "new-avatar" true ∈ trace) ∧
    ¬ (wrapInt64 (100000 - sampleFreshAvatarUser.AvatarLocationUpdatedAt) >
      wrapInt64 (wrapInt64 (sampleConfig.AvatarRefreshIntervalHours * 60) * 60)) ∧
    ¬ (100000 - sampleFreshAvatarUser.AvatarLocationUpdatedAt >
      sampleConfig.AvatarRefreshIntervalHours * 3600) :=
  ⟨⟨[Effect.GetAccountInfo "Alice",
      Effect.UpdateAvatarInfo (sampleUser "g1" 0 "") "new-avatar" true,
      Effect.UpdateAvatarInfo sampleFreshAvatarUser "new-avatar" true,
      Effect.GetStreamInfo "e", Effect.logError "Error fetching stream info",
      Effect.GetTimelinePost "e", Effect.logError "Error fetching post info"],
    by decide, by decide⟩, by decide, by decide⟩

/-- Claim C21 (amended). In the iteration on a work item the worker writes new
avatar information for a registration only when that registration belongs to
the item, the `int64` difference of the current time and the
`AvatarLocationUpdatedAt` of the representative (the first registration of the
item) exceeds the configured interval, which for values in range is the plain
comparison, and the account lookup for the representative returned the
reference that is written; the writes of the iteration are then one per entry
of the item, in order. -/
theorem avatar_write_follows_representative (b : Bot) (cfg : Config) (now : Int)
    (o : Outcomes) (primaryUser : MonitoredUser) (rest : List MonitoredUser)
    (trace : List Effect)
    (ht : workerIteration b cfg now o (primaryUser :: rest) = some trace)
    (user : MonitoredUser) (avatarLocation : String) (ok : Bool)
    (hw : Effect.UpdateAvatarInfo user avatarLocation ok ∈ trace) :
    wrapInt64 (now - primaryUser.AvatarLocationUpdatedAt) >
      wrapInt64 (wrapInt64 (cfg.AvatarRefreshIntervalHours * 60) * 60) ∧
    (-4611686018427387904 ≤ now → now < 4611686018427387904 →
      -4611686018427387904 ≤ primaryUser.AvatarLocationUpdatedAt →
      primaryUser.AvatarLocationUpdatedAt < 4611686018427387904 →
      -2562047788015215 ≤ cfg.AvatarRefreshIntervalHours →
      cfg.AvatarRefreshIntervalHours ≤ 2562047788015215 →
      now - primaryUser.AvatarLocationUpdatedAt > cfg.AvatarRefreshIntervalHours * 3600) ∧
    user ∈ primaryUser :: rest ∧
    (refreshAvatarURL b primaryUser.Username).2 = .ok avatarLocation ∧
    avatarWrites trace = primaryUser :: rest := by
  simp only [workerIteration, Option.some.injEq] at ht
  subst ht
  have hmem : Effect.UpdateAvatarInfo user avatarLocation ok ∈
      (refreshAvatar b cfg now o primaryUser (primaryUser :: rest)).1 := by
    rcases List.mem_append.mp hw with he | he
    · rcases List.mem_append.mp he with he | he
      · exact he
      · have := isAvatarStep_checkUserLiveStreamOptimized b _ _ _ _ he
        cases this
    · have := isAvatarStep_checkUserPostsOptimized b _ _ _ _ he
      cases this
  have hc : wrapInt64 (now - primaryUser.AvatarLocationUpdatedAt) >
      wrapInt64 (wrapInt64 (cfg.AvatarRefreshIntervalHours * 60) * 60) := by
    by_contra hc
    rw [refreshAvatar_skip b cfg now o primaryUser _ hc] at hmem
    simp at hmem
  refine ⟨hc, fun h1 h2 h3 h4 h5 h6 =>
    (avatar_test_plain now _ _ h1 h2 h3 h4 h5 h6).mp hc, ?_⟩
  cases hurl : (refreshAvatarURL b primaryUser.Username).2 with
  | error err =>
    rw [refreshAvatar_error b cfg now o primaryUser _ hc err hurl] at hmem
    simp at hmem
  | ok loc =>
    rw [refreshAvatar_ok b cfg now o primaryUser _ hc loc hurl] at hmem ⊢
    have hloop : user ∈ primaryUser :: rest ∧ avatarLocation = loc := by
      rcases List.mem_append.mp hmem with h1 | h1
      · simp at h1
      · obtain ⟨j, x, hj, hx⟩ := (mem_forRange _ _ _ _).mp h1
        have hxm : x ∈ primaryUser :: rest := List.getElem?_mem hj
        split at hx
        · simp only [List.mem_singleton] at hx
          injection hx with h2 h3 _
          exact ⟨h2 ▸ hxm, h3⟩
        · simp only [List.mem_cons, List.mem_singleton, List.not_mem_nil, or_false] at hx
          rcases hx with hx | hx
          · injection hx with h2 h3 _
            exact ⟨h2 ▸ hxm, h3⟩
          · cases hx
    refine ⟨hloop.1, by rw [hloop.2], ?_⟩
    rw [avatarWrites_append, avatarWrites_append, avatarWrites_append,
      avatarWrites_avatarLoop,
      avatarWrites_eq_nil_of _ fun e he =>
        isAvatarStep_checkUserLiveStreamOptimized b _ _ _ e he,
      avatarWrites_eq_nil_of _ fun e he =>
        isAvatarStep_checkUserPostsOptimized b _ _ _ e he]
    simp [avatarWrites, Effect.avatarWriteFor]

theorem avatar_write_follows_representative_witness :
    Effect.UpdateAvatarInfo sampleFreshAvatarUser "new-avatar" true ∈
        [Effect.GetAccountInfo "Alice",
          Effect.UpdateAvatarInfo (sampleUser "g1" 0 "") "new-avatar" true,
          Effect.UpdateAvatarInfo sampleFreshAvatarUser "new-avatar" true,
          Effect.GetStreamInfo "e", Effect.logError "Error fetching stream info",
          Effect.GetTimelinePost "e", Effect.logError "Error fetching post info"] ∧
      wrapInt64 (100000 - (sampleUser "g1" 0 "").AvatarLocationUpdatedAt) >
        wrapInt64 (wrapInt64 (sampleConfig.AvatarRefreshIntervalHours * 60) * 60) :=
  ⟨by decide,
    (avatar_write_follows_representative sampleBotAvatar sampleConfig 100000 sampleOutcomes
      (sampleUser "g1" 0 "") [sampleFreshAvatarUser]
      [Effect.GetAccountInfo "Alice",
        Effect.UpdateAvatarInfo (sampleUser "g1" 0 "") "new-avatar" true,
        Effect.UpdateAvatarInfo sampleFreshAvatarUser "new-avatar" true,
        Effect.GetStreamInfo "e", Effect.logError "Error fetching stream info",
        Effect.GetTimelinePost "e", Effect.logError "Error fetching post info"]
      (by decide) sampleFreshAvatarUser "new-avatar" true (by decide)).1⟩

/-- Claim C22 (code defect). The claim asks that under every interleaving each
recorded call contributes its success exactly once to the flushed deltas plus
the residual counters. `FlushToDB` swaps the two counters in two separate
atomic operations: when a `RecordCall(true)` adds its attempt before the first
swap of a flush and its success after the second, that flush reports one
attempt with no success, and the next flush reads `total == 0`, returns early
and discards the success it has just swapped out. After the schedule both
counters are zero and the only bulk update issued is one attempt with zero
successes, so the success of the recorded call is lost; the same steps with
the `RecordCall` run before the flush report one attempt and one success. -/
theorem flush_loses_success_added_between_swaps :
    (sampleConcurrent.run [0, 1, 1, 0, 1, 1, 1, 1]).map
        (fun s => (s.aggregator.totalRequests, s.aggregator.successfulRequests,
          s.durable.updates, s.durable.rows, s.goroutines.map fun g => g.steps)) =
      some (0, 0, [("fansly_api", 1, 0)], [⟨"fansly_api", 11, 7⟩, ⟨"other", 3, 3⟩],
        [[], []]) ∧
    (sampleConcurrent.run [0, 0, 1, 1, 1, 1, 1, 1]).map
        (fun s => (s.aggregator.totalRequests, s.aggregator.successfulRequests,
          s.durable.updates, s.durable.rows, s.goroutines.map fun g => g.steps)) =
      some (0, 0, [("fansly_api", 1, 1)], [⟨"fansly_api", 11, 8⟩, ⟨"other", 3, 3⟩],
        [[], []]) :=
  ⟨rfl, rfl⟩

/-- Claim C30. For a notification type in `posts`, `live` and an entity ID
without an underscore, `handleSetFormatCommand` opens a modal with the custom
ID `format_modal_<type>_<entityID>`; `handleFormatModalSubmit` splits that ID
on the underscore into exactly the four parts `format`, `modal`, the type and
the entity ID, looks the format record up under that entity ID, and passes to
the upsert the record with the submitted template in the field of that type.
A custom ID that does not split into exactly four parts is rejected: the
handler logs it and makes no lookup, no upsert and no reply. -/
theorem modal_custom_id_round_trips (b : Bot) (upsertOk : Bool) (user : MonitoredUser)
    (username notifType guildID messageFormat : String)
    (ht : notifType = "posts" ∨ notifType = "live")
    (hu : ('_' : Char) ∉ user.UserID.data) :
    (handleSetFormatCommand b (.ok (some user)) username notifType).map Modal.CustomID =
      .ok ("format_modal_" ++ notifType ++ "_" ++ user.UserID) ∧
    GoStrings.Split ("format_modal_" ++ notifType ++ "_" ++ user.UserID) "_" =
      ["format", "modal", notifType, user.UserID] ∧
    (handleFormatModalSubmit b upsertOk guildID
        ("format_modal_" ++ notifType ++ "_" ++ user.UserID) messageFormat).lookup =
      some (guildID, user.UserID) ∧
    (∀ found, b.Repo.GetNotificationFormats guildID user.UserID = .ok found →
      (handleFormatModalSubmit b upsertOk guildID
          ("format_modal_" ++ notifType ++ "_" ++ user.UserID) messageFormat).upsert =
        some (if notifType = "posts" then
            { found.getD ⟨guildID, user.UserID, "", ""⟩ with PostMessageFormat := messageFormat }
          else
            { found.getD ⟨guildID, user.UserID, "", ""⟩ with
              LiveMessageFormat := messageFormat })) ∧
    (∀ customID, (GoStrings.Split customID "_").length ≠ 4 →
      handleFormatModalSubmit b upsertOk guildID customID messageFormat =
        { lookup := none, upsert := none
          logged := some ("Received malformed modal custom ID: " ++ customID)
          response := none }) := by
  have hsplit : GoStrings.Split ("format_modal_" ++ notifType ++ "_" ++ user.UserID) "_" =
      ["format", "modal", notifType, user.UserID] := by
    rcases ht with ht | ht <;> subst ht <;> exact Split_customID _ _ (by decide) hu
  refine ⟨?_, hsplit, ?_, ?_, ?_⟩
  · rcases ht with ht | ht <;> subst ht <;> rfl
  · simp only [handleFormatModalSubmit, hsplit]
    cases hget : b.Repo.GetNotificationFormats guildID user.UserID with
    | error err => simp [hget]
    | ok found => cases upsertOk <;> simp [hget]
  · intro found hget
    simp only [handleFormatModalSubmit, hsplit]
    rcases ht with ht | ht <;> subst ht <;> cases found <;> cases upsertOk <;> simp [hget]
  · intro customID hlen
    simp only [handleFormatModalSubmit]
    rw [if_pos hlen]

theorem modal_custom_id_round_trips_witness :
    GoStrings.Split ("format_modal_" ++ "live" ++ "_" ++ (sampleUser "g1" 0 "").UserID) "_" =
        ["format", "modal", "live", (sampleUser "g1" 0 "").UserID] ∧
      handleFormatModalSubmit (sampleBot 0 0 []) true "g1" "format_modal_live_e_1" "hello" =
        { lookup := none, upsert := none
          logged := some ("Received malformed modal custom ID: " ++ "format_modal_live_e_1")
          response := none } :=
  ⟨(modal_custom_id_round_trips (sampleBot 0 0 []) true (sampleUser "g1" 0 "") "Alice" "live"
      "g1" "hello" (Or.inr rfl) (by decide)).2.1,
    (modal_custom_id_round_trips (sampleBot 0 0 []) true (sampleUser "g1" 0 "") "Alice" "live"
      "g1" "hello" (Or.inr rfl) (by decide)).2.2.2.2 "format_modal_live_e_1" (by decide)⟩

end NotiFansly
